import Mathlib

/-!
# Connection-string resolution of `cloud_storage_account`

A shallow embedding of `src/mwas/src/cloud_storage_account.cpp`.

* `utility::string_t` is a list of characters (`Str`).
* `std::map<string_t, string_t>` is an association list kept in strictly
  increasing key order (`settings_map`); `insert` follows `std::map::insert`
  and leaves the map unchanged when the key is already there.
* a `throw` is the `Except.error` branch of the result.
* the types declared in headers that are not part of `src/`
  (`storage_credentials`, `storage_uri`, `cloud_storage_account`, the URI
  classes of the HTTP library) are modelled from the spec.  Building a URI
  from a text fails with the URI layer's error when the text is malformed
  (section 4.3 of the spec, `uri_from_text`).  Which texts are well formed and
  what the URI accessors `is_empty`, `scheme`, `host` and `to_string` answer
  for a URI built from text is a parameter (`uri_lib`).
* the credentials are the tagged variant of the spec.  Their constructors keep
  the invariant of section 3: shared-key credentials have a non-empty name and
  key, SAS credentials a non-empty token.  The base64 codec is a parameter
  (`base64_lib`) that gives back a base64 text it decoded.
* `to_string` is split into the settings it leaves in the account
  (`materialize_settings`) and the string it returns (`to_string`).
-/

namespace CloudStorageAccount

/-- A `utility::string_t`. -/
abbrev Str := List Char

/-- The errors thrown by the translated functions: `InvalidFormat` is
`std::logic_error(protocol::error_invalid_settings_form)`, `InvalidArgument`
is `std::invalid_argument`, `MissingCredentials` is
`std::logic_error(protocol::error_sas_missing_credentials)`, and `UriError` is
the URI-construction failure that the URI layer raises for a malformed URI
(section 4.3 of the spec). -/
inductive Error where
  | InvalidFormat
  | InvalidArgument
  | MissingCredentials
  | UriError
  deriving DecidableEq, Repr

/-! ## Constants (lines 29-46) -/

def use_development_storage_setting_string : Str := "UseDevelopmentStorage".toList
def use_development_storage_setting_value : Str := "true".toList
def development_storage_proxy_uri_setting_string : Str := "DevelopmentStorageProxyUri".toList
def default_endpoints_protocol_setting_string : Str := "DefaultEndpointsProtocol".toList
def account_name_setting_string : Str := "AccountName".toList
def account_key_setting_string : Str := "AccountKey".toList
def blob_endpoint_setting_string : Str := "BlobEndpoint".toList
def queue_endpoint_setting_string : Str := "QueueEndpoint".toList
def table_endpoint_setting_string : Str := "TableEndpoint".toList
def endpoint_suffix_setting_string : Str := "EndpointSuffix".toList
def shared_access_signature_setting_string : Str := "SharedAccessSignature".toList
def devstore_account_name : Str := "devstoreaccount1".toList
def devstore_account_key : Str :=
  "Eby8vdM02xNOcqFlqUwJPLlmEtlCDXJ1OUzFT50uSRZ6IFsuFq2UVErCz4I6tq/K1SZFPTOtr/KBHBeksoGMGw==".toList
def secondary_location_account_suffix : Str := "-secondary".toList
def default_endpoint_suffix : Str := "core.windows.net".toList
def default_blob_hostname_prefix : Str := "blob".toList
def default_queue_hostname_prefix : Str := "queue".toList
def default_table_hostname_prefix : Str := "table".toList

/-! ## The settings map -/

/-- The order of `std::less<string_t>`: lexicographic on the characters. -/
def str_lt : Str → Str → Bool
  | [], [] => false
  | [], _ :: _ => true
  | _ :: _, [] => false
  | a :: as, b :: bs => if a < b then true else if a = b then str_lt as bs else false

/-- A `std::map<string_t, string_t>`: the entries in increasing key order. -/
abbrev settings_map := List (Str × Str)

/-- The invariant of a `std::map`: keys strictly increasing (hence unique). -/
def sorted_keys (m : settings_map) : Prop :=
  List.Pairwise (fun a b => str_lt a.1 b.1 = true) m

/-- The member `std::map::insert(pair)`: a key that is already in the map keeps its
value, a new key goes to its place in the key order. -/
def insert : settings_map → Str × Str → settings_map
  | [], kv => [kv]
  | e :: rest, kv =>
    if kv.1 = e.1 then e :: rest
    else if str_lt kv.1 e.1 then kv :: e :: rest
    else e :: insert rest kv

/-- The member `std::map::find(key)`, as the value found (`none` for `end()`). -/
def find : settings_map → Str → Option Str
  | [], _ => none
  | e :: rest, key => if e.1 = key then some e.2 else find rest key

/-- The member `std::map::erase` at the position of `key`. -/
def erase : settings_map → Str → settings_map
  | [], _ => []
  | e :: rest, key => if e.1 = key then rest else e :: erase rest key

/-! ## Types declared outside `src/` -/

/-- Modelled from the spec: `web::http::uri` of the HTTP library, which is not
under `src/`. A URI is either the empty URI of the default constructor or the
URI built from a text. -/
inductive uri where
  | empty
  | of_text (text : Str)
  deriving DecidableEq, Repr

/-- Modelled from the spec: what the HTTP library, which is not under `src/`,
answers for a text: whether it is a well-formed URI (the constructor
`web::http::uri(text)` refuses the others), and the accessors that the source
calls on a URI built from the text. -/
structure uri_lib where
  well_formed : Str → Bool
  is_empty : Str → Bool
  scheme : Str → Str
  host : Str → Str
  to_string : Str → Str

/-- Modelled from the spec: the constructor `web::http::uri(text)` (HTTP library,
not under `src/`); a malformed text surfaces as a URI-construction failure
from the URI layer (section 4.3). -/
def uri_from_text (L : uri_lib) (text : Str) : Except Error uri :=
  if L.well_formed text then .ok (.of_text text) else .error .UriError

/-- Modelled from the spec: the accessor `uri::is_empty()` (HTTP library, not under
`src/`); the default-constructed URI is empty. -/
def uri.is_empty (L : uri_lib) : uri → Bool
  | .empty => true
  | .of_text t => L.is_empty t

/-- Modelled from the spec: the accessor `uri::scheme()` (HTTP library, not under
`src/`). -/
def uri.scheme (L : uri_lib) : uri → Str
  | .empty => []
  | .of_text t => L.scheme t

/-- Modelled from the spec: the accessor `uri::host()` (HTTP library, not under
`src/`). -/
def uri.host (L : uri_lib) : uri → Str
  | .empty => []
  | .of_text t => L.host t

/-- Modelled from the spec: the accessor `uri::to_string()` (HTTP library, not under
`src/`). -/
def uri.to_string (L : uri_lib) : uri → Str
  | .empty => []
  | .of_text t => L.to_string t

/-- Modelled from the spec: `web::http::uri_builder` (not under `src/`), the
components set by `set_scheme`, `set_host`, `set_path` and `set_port`. -/
structure uri_builder where
  scheme : Str
  host : Str
  path : Str
  port : Nat

/-- Modelled from the spec: `uri_builder::to_uri()` (not under `src/`); sections 4.4
and 8 of the spec give the development endpoints as
`scheme://host:port/path`. -/
def uri_builder.to_uri (b : uri_builder) : uri :=
  .of_text (b.scheme ++ "://".toList ++ b.host ++ ":".toList ++ Nat.toDigits 10 b.port
    ++ "/".toList ++ b.path)

/-- Modelled from the spec: `storage_uri` (declared in `was/core.h`, not under
`src/`), a primary and a secondary URI. -/
structure storage_uri where
  primary_uri : uri
  secondary_uri : uri
  deriving DecidableEq, Repr

/-- Modelled from the spec: the constructor `storage_uri()` (in `was/core.h`, not
under `src/`): both URIs empty. -/
def storage_uri.default : storage_uri := ⟨.empty, .empty⟩

/-- Modelled from the spec: the constructor `storage_uri(primary_uri)` (in
`was/core.h`, not under `src/`): no secondary URI. -/
def storage_uri.of_primary (primary : uri) : storage_uri := ⟨primary, .empty⟩

/-- Modelled from the spec: `storage_credentials` (declared in `was/core.h`, not
under `src/`), the tagged variant of section 3: none, shared key (account
name, account key as given to the constructor) or shared access signature. -/
inductive storage_credentials where
  | anonymous
  | shared_key (account_name account_key : Str)
  | sas (sas_token : Str)
  deriving DecidableEq, Repr

/-- Modelled from the spec: the constructor
`storage_credentials(account_name, account_key)` (in `was/core.h`, not under
`src/`). By the invariant of section 3 shared-key credentials require both
name and key non-empty; with an empty name or key the credentials are none. -/
def storage_credentials.of_account_key (account_name account_key : Str) :
    storage_credentials :=
  if !account_name.isEmpty && !account_key.isEmpty then .shared_key account_name account_key
  else .anonymous

/-- Modelled from the spec: the constructor `storage_credentials(sas_token)` (in
`was/core.h`, not under `src/`). By the invariant of section 3 SAS credentials
require a non-empty token; with an empty token the credentials are none. -/
def storage_credentials.of_sas_token (sas_token : Str) : storage_credentials :=
  if !sas_token.isEmpty then .sas sas_token else .anonymous

/-- Modelled from the spec: the fields of `cloud_storage_account` (declared in
`was/storage_account.h`, not under `src/`), section 3 of the spec. -/
structure cloud_storage_account where
  m_initialized : Bool
  m_is_development_storage_account : Bool
  m_default_endpoints : Bool
  m_credentials : storage_credentials
  m_blob_endpoint : storage_uri
  m_queue_endpoint : storage_uri
  m_table_endpoint : storage_uri
  m_endpoint_suffix : Str
  m_settings : settings_map
  deriving DecidableEq, Repr

/-- Modelled from the spec: the default constructor `cloud_storage_account()`
(in `was/storage_account.h`, not under `src/`): an account that is not
initialized. -/
def cloud_storage_account.default : cloud_storage_account :=
  { m_initialized := false
    m_is_development_storage_account := false
    m_default_endpoints := false
    m_credentials := .anonymous
    m_blob_endpoint := storage_uri.default
    m_queue_endpoint := storage_uri.default
    m_table_endpoint := storage_uri.default
    m_endpoint_suffix := []
    m_settings := [] }

/-- Modelled from the spec: the constructor
`cloud_storage_account(credentials, blob_endpoint, queue_endpoint, table_endpoint)`
(in `was/storage_account.h`, not under `src/`): an initialized account with
explicit endpoints. -/
def cloud_storage_account.of_endpoints (credentials : storage_credentials)
    (blob_endpoint queue_endpoint table_endpoint : storage_uri) : cloud_storage_account :=
  { m_initialized := true
    m_is_development_storage_account := false
    m_default_endpoints := false
    m_credentials := credentials
    m_blob_endpoint := blob_endpoint
    m_queue_endpoint := queue_endpoint
    m_table_endpoint := table_endpoint
    m_endpoint_suffix := []
    m_settings := [] }

/-- Modelled from the spec: the accessor `cloud_storage_account::is_initialized()`
(in `was/storage_account.h`, not under `src/`): the initialized flag. -/
def cloud_storage_account.is_initialized (a : cloud_storage_account) : Bool :=
  a.m_initialized

/-- Modelled from the spec: `core::string_split` (in `wascore/util.h`, not under
`src/`) with the separator `;`: the pieces between the separators. -/
def string_split : Str → Char → List Str
  | [], _ => [[]]
  | c :: cs, sep =>
    if c = sep then [] :: string_split cs sep
    else
      match string_split cs sep with
      | [] => [[c]]
      | e :: es => (c :: e) :: es

/-! ## The functions of `cloud_storage_account.cpp` -/

/-- Lines 48-57; the two `web::http::uri(...)` of line 56 can fail. -/
def construct_default_endpoint (L : uri_lib)
    (scheme account_name hostname_prefix endpoint_suffix : Str) : Except Error storage_uri :=
  let primary := scheme ++ "://".toList ++ account_name ++ ['.'] ++ hostname_prefix ++ ['.']
    ++ endpoint_suffix
  let secondary := scheme ++ "://".toList ++ account_name ++ secondary_location_account_suffix
    ++ ['.'] ++ hostname_prefix ++ ['.'] ++ endpoint_suffix
  match uri_from_text L primary with
  | .error e => .error e
  | .ok primary_uri =>
    match uri_from_text L secondary with
    | .error e => .error e
    | .ok secondary_uri => .ok ⟨primary_uri, secondary_uri⟩

/-- Lines 68-113. -/
def get_development_storage_account (L : uri_lib) (proxy_uri : uri) : cloud_storage_account :=
  let builder : uri_builder :=
    if proxy_uri.is_empty L then ⟨"http".toList, "127.0.0.1".toList, [], 0⟩
    else ⟨proxy_uri.scheme L, proxy_uri.host L, [], 0⟩
  let builder := { builder with path := devstore_account_name }
  let blob_endpoint_primary := { builder with port := 10000 }.to_uri
  let queue_endpoint_primary := { builder with port := 10001 }.to_uri
  let table_endpoint_primary := { builder with port := 10002 }.to_uri
  let builder := { builder with path := devstore_account_name ++ secondary_location_account_suffix }
  let blob_endpoint_secondary := { builder with port := 10000 }.to_uri
  let queue_endpoint_secondary := { builder with port := 10001 }.to_uri
  let table_endpoint_secondary := { builder with port := 10002 }.to_uri
  let account := cloud_storage_account.of_endpoints
    (storage_credentials.of_account_key devstore_account_name devstore_account_key)
    ⟨blob_endpoint_primary, blob_endpoint_secondary⟩
    ⟨queue_endpoint_primary, queue_endpoint_secondary⟩
    ⟨table_endpoint_primary, table_endpoint_secondary⟩
  let settings := insert account.m_settings
    (use_development_storage_setting_string, use_development_storage_setting_value)
  let settings :=
    if !proxy_uri.is_empty L then
      insert settings (development_storage_proxy_uri_setting_string, proxy_uri.to_string L)
    else settings
  { account with m_is_development_storage_account := true, m_settings := settings }

/-- The call `string_t::find(c)`: the position of the first `c`, `none` for `npos`. -/
def str_find : Str → Char → Option Nat
  | [], _ => none
  | x :: xs, c => if x = c then some 0 else (str_find xs c).map (· + 1)

/-- The call `string_t::substr(pos, count)`, where `none` is the count `npos`. -/
def substr (s : Str) (pos : Nat) (count : Option Nat) : Str :=
  match count with
  | none => s.drop pos
  | some n => (s.drop pos).take n

/-- The loop of `parse_string_into_settings` (lines 125-147) over the entries
that are left, `settings` being the map built so far. -/
def parse_entries : List Str → settings_map → Except Error settings_map
  | [], settings => .ok settings
  | entry :: rest, settings =>
    if !entry.isEmpty then
      let equals := str_find entry '='
      let key := substr entry 0 equals
      if !key.isEmpty then
        let value : Str :=
          match equals with
          | some pos => substr entry (pos + 1) none
          | none => []
        parse_entries rest (insert settings (key, value))
      else .error .InvalidFormat
    else parse_entries rest settings

/-- Lines 120-150. -/
def parse_string_into_settings (connection_string : Str) : Except Error settings_map :=
  parse_entries (string_split connection_string ';') []

/-- What `get_setting` leaves behind: the returned flag, the `value` argument
and the `settings` argument after the call. -/
structure get_setting_result where
  found : Bool
  value : Str
  settings : settings_map
  deriving DecidableEq, Repr

/-- Lines 152-163. -/
def get_setting (settings : settings_map) (key : Str) (value : Str) : get_setting_result :=
  match find settings key with
  | none => ⟨false, value, settings⟩
  | some v => ⟨true, v, erase settings key⟩

/-- Lines 165-186: the credentials returned, and the `settings` argument after
the call. -/
def get_credentials (settings : settings_map) : storage_credentials × settings_map :=
  let r1 := get_setting settings account_name_setting_string []
  let r2 := get_setting r1.settings account_key_setting_string []
  let r3 := get_setting r2.settings shared_access_signature_setting_string []
  let account_name := r1.value
  let account_key := r2.value
  let shared_access_signature := r3.value
  if !account_name.isEmpty && !account_key.isEmpty && shared_access_signature.isEmpty then
    (storage_credentials.of_account_key account_name account_key, r3.settings)
  else if account_name.isEmpty && account_key.isEmpty && !shared_access_signature.isEmpty then
    (storage_credentials.of_sas_token shared_access_signature, r3.settings)
  else
    (.anonymous, r3.settings)

/-- Lines 188-212; the proxy URI is built at line 202, before the test of line 205
that the settings are used up. -/
def parse_devstore_settings (L : uri_lib) (settings : settings_map) :
    Except Error cloud_storage_account :=
  let r1 := get_setting settings use_development_storage_setting_string []
  if r1.found then
    if r1.value ≠ use_development_storage_setting_value then
      .error .InvalidArgument
    else
      let r2 := get_setting r1.settings development_storage_proxy_uri_setting_string []
      match (if r2.found then uri_from_text L r2.value else .ok .empty) with
      | .error e => .error e
      | .ok proxy_uri =>
        if r2.settings.isEmpty then
          .ok (get_development_storage_account L proxy_uri)
        else .ok cloud_storage_account.default
  else .ok cloud_storage_account.default

/-- Lines 240-242, one argument of the constructor call: the derived pair when
the endpoint value is empty, otherwise `storage_uri(web::http::uri(endpoint))`. -/
def defaults_endpoint (L : uri_lib)
    (endpoint scheme account_name hostname_prefix endpoint_suffix : Str) :
    Except Error storage_uri :=
  if endpoint.isEmpty then
    construct_default_endpoint L scheme account_name hostname_prefix endpoint_suffix
  else (uri_from_text L endpoint).map storage_uri.of_primary

/-- Lines 214-250. -/
def parse_defaults_settings (L : uri_lib) (settings : settings_map) :
    Except Error cloud_storage_account :=
  let r1 := get_setting settings default_endpoints_protocol_setting_string []
  if r1.found then
    let r2 := get_setting r1.settings account_name_setting_string []
    if r2.found then
      let r3 := get_setting r2.settings account_key_setting_string []
      if r3.found then
        let scheme := r1.value
        let account_name := r2.value
        let account_key := r3.value
        let r4 := get_setting r3.settings endpoint_suffix_setting_string []
        let endpoint_suffix := if !r4.found then default_endpoint_suffix else r4.value
        let r5 := get_setting r4.settings blob_endpoint_setting_string []
        let r6 := get_setting r5.settings queue_endpoint_setting_string []
        let r7 := get_setting r6.settings table_endpoint_setting_string []
        let blob_endpoint := r5.value
        let queue_endpoint := r6.value
        let table_endpoint := r7.value
        if r7.settings.isEmpty then
          match defaults_endpoint L blob_endpoint scheme account_name
              default_blob_hostname_prefix endpoint_suffix with
          | .error e => .error e
          | .ok blob =>
            match defaults_endpoint L queue_endpoint scheme account_name
                default_queue_hostname_prefix endpoint_suffix with
            | .error e => .error e
            | .ok queue =>
              match defaults_endpoint L table_endpoint scheme account_name
                  default_table_hostname_prefix endpoint_suffix with
              | .error e => .error e
              | .ok table =>
                let account := cloud_storage_account.of_endpoints
                  (storage_credentials.of_account_key account_name account_key)
                  blob queue table
                .ok { account with m_endpoint_suffix := endpoint_suffix }
        else .ok cloud_storage_account.default
      else .ok cloud_storage_account.default
    else .ok cloud_storage_account.default
  else .ok cloud_storage_account.default

/-- Lines 265-267, one argument of the constructor call: `storage_uri()` when the
endpoint value is empty, otherwise `storage_uri(web::http::uri(endpoint))`. -/
def explicit_endpoint (L : uri_lib) (endpoint : Str) : Except Error storage_uri :=
  if endpoint.isEmpty then .ok storage_uri.default
  else (uri_from_text L endpoint).map storage_uri.of_primary

/-- Lines 252-271. -/
def parse_explicit_settings (L : uri_lib) (settings : settings_map) :
    Except Error cloud_storage_account :=
  let r1 := get_setting settings blob_endpoint_setting_string []
  let r2 := get_setting r1.settings queue_endpoint_setting_string []
  let r3 := get_setting r2.settings table_endpoint_setting_string []
  let blob_endpoint := r1.value
  let queue_endpoint := r2.value
  let table_endpoint := r3.value
  let cr := get_credentials r3.settings
  let credentials := cr.1
  if cr.2.isEmpty
      && (!blob_endpoint.isEmpty || !queue_endpoint.isEmpty || !table_endpoint.isEmpty) then
    match explicit_endpoint L blob_endpoint with
    | .error e => .error e
    | .ok blob =>
      match explicit_endpoint L queue_endpoint with
      | .error e => .error e
      | .ok queue =>
        match explicit_endpoint L table_endpoint with
        | .error e => .error e
        | .ok table => .ok (cloud_storage_account.of_endpoints credentials blob queue table)
  else .ok cloud_storage_account.default

/-- Lines 278-302 of `parse`: the three strategies tried in order on copies of
the parsed `settings`; an error of a strategy ends the call. -/
def parse_settings (L : uri_lib) (settings : settings_map) :
    Except Error cloud_storage_account :=
  match parse_devstore_settings L settings with
  | .error e => .error e
  | .ok account =>
    if account.is_initialized then
      .ok { account with m_settings := (get_credentials settings).2 }
    else
      match parse_defaults_settings L settings with
      | .error e => .error e
      | .ok account =>
        if account.is_initialized then
          .ok { account with m_settings := (get_credentials settings).2 }
        else
          match parse_explicit_settings L settings with
          | .error e => .error e
          | .ok account =>
            if account.is_initialized then
              .ok { account with m_settings := (get_credentials settings).2 }
            else .error .InvalidArgument

/-- Lines 273-303. -/
def parse (L : uri_lib) (connection_string : Str) : Except Error cloud_storage_account :=
  match parse_string_into_settings connection_string with
  | .error e => .error e
  | .ok settings => parse_settings L settings

/-! ## The spec's wording of the settings-string parser -/

/-- The entries of a connection string in the spec's words: the pieces between
the `;` separators, the empty pieces skipped. -/
def spec_entries (s : Str) : List Str :=
  (s.splitOn ';').filter (fun e => !e.isEmpty)

/-- The key of an entry in the spec's words: the text before its first `=`. -/
def spec_key (e : Str) : Str := e.takeWhile (fun c => c != '=')

/-- The value of an entry in the spec's words: everything after its first `=`. -/
def spec_value (e : Str) : Str := (e.dropWhile (fun c => c != '=')).drop 1

/-- The key and value of each entry, in the order of the entries. -/
def spec_pairs (es : List Str) : List (Str × Str) :=
  (es.filter (fun e => !e.isEmpty)).map (fun e => (spec_key e, spec_value e))

/-- The value a settings map gives to a key, the empty string when the key is
absent: what `get_setting` leaves in a `value` that starts out empty. -/
def setting_value (m : settings_map) (key : Str) : Str := (find m key).getD []

/-- The ten recognized setting names (lines 29-39). -/
def recognized_setting_names : List Str :=
  [use_development_storage_setting_string, development_storage_proxy_uri_setting_string,
   default_endpoints_protocol_setting_string, account_name_setting_string,
   account_key_setting_string, blob_endpoint_setting_string, queue_endpoint_setting_string,
   table_endpoint_setting_string, endpoint_suffix_setting_string,
   shared_access_signature_setting_string]

/-- The settings map that holds exactly `DefaultEndpointsProtocol=p`,
`AccountName=a`, `AccountKey=k` and, when `suffix` is given, `EndpointSuffix`,
in key order. -/
def defaults_only_settings (p a k : Str) (suffix : Option Str) : settings_map :=
  [(account_key_setting_string, k), (account_name_setting_string, a),
    (default_endpoints_protocol_setting_string, p)] ++
  match suffix with
  | none => []
  | some s => [(endpoint_suffix_setting_string, s)]

/-- The settings map that holds exactly those of `BlobEndpoint`, `QueueEndpoint`
and `TableEndpoint` that are given, in key order. -/
def explicit_only_settings (blob queue table : Option Str) : settings_map :=
  (match blob with
    | none => []
    | some u => [(blob_endpoint_setting_string, u)]) ++
  (match queue with
    | none => []
    | some u => [(queue_endpoint_setting_string, u)]) ++
  (match table with
    | none => []
    | some u => [(table_endpoint_setting_string, u)])

/-- The endpoint pair of the explicit-endpoints strategy in the spec's words: a
given endpoint is a primary-only pair, one that is not given is the empty
pair. -/
def spec_explicit_pair : Option Str → storage_uri
  | none => ⟨.empty, .empty⟩
  | some u => ⟨.of_text u, .empty⟩

/-! ## Serialization and shared access signatures -/

/-- Modelled from the spec: the accessor `storage_credentials::is_shared_key()` (in
`was/core.h`, not under `src/`): the tag of the variant. The constructors
`storage_credentials.of_account_key` and `storage_credentials.of_sas_token`
give the shared-key tag only to a non-empty name with a non-empty key, as the
invariant of section 3 requires. -/
def storage_credentials.is_shared_key : storage_credentials → Bool
  | .shared_key _ _ => true
  | _ => false

/-- Modelled from the spec: the accessor `storage_credentials::is_sas()` (in
`was/core.h`, not under `src/`): the tag of the variant, which the constructors
give only to a non-empty token. -/
def storage_credentials.is_sas : storage_credentials → Bool
  | .sas _ => true
  | _ => false

/-- Modelled from the spec: the accessor `storage_credentials::account_name()` (in
`was/core.h`, not under `src/`). -/
def storage_credentials.account_name : storage_credentials → Str
  | .shared_key n _ => n
  | _ => []

/-- Modelled from the spec: the accessor `storage_credentials::sas_token()` (in
`was/core.h`, not under `src/`). -/
def storage_credentials.sas_token : storage_credentials → Str
  | .sas t => t
  | _ => []

/-- Modelled from the spec: the base64 codec of `utility::conversions` (not under
`src/`). The credentials constructor decodes the key text it is given and
`to_string` encodes the key again. `is_base64` says which texts are base64
texts, the texts that the encoder writes; for those, encoding what was
decoded gives the text back. -/
structure base64_lib where
  from_base64 : Str → List Nat
  to_base64 : List Nat → Str
  is_base64 : Str → Bool
  round_trip : ∀ text : Str, is_base64 text = true → to_base64 (from_base64 text) = text

/-- Modelled from the spec: the accessor `storage_credentials::account_key()` (in
`was/core.h`, not under `src/`): the key bytes, decoded from the text given to
the constructor. -/
def storage_credentials.account_key (B : base64_lib) : storage_credentials → List Nat
  | .shared_key _ k => B.from_base64 k
  | _ => []

/-- A codec for evaluation: a byte per character, every text counting as one
that it writes. -/
def char_code_codec : base64_lib where
  from_base64 := fun text => text.map Char.toNat
  to_base64 := fun bytes => bytes.map Char.ofNat
  is_base64 := fun _ => true
  round_trip := by
    intro text _
    induction text with
    | nil => rfl
    | cons c cs ih =>
      simp only [List.map_cons, List.cons.injEq]
      exact ⟨Char.ofNat_toNat c, by simpa using ih⟩

/-- A second codec for evaluation, one whose decoder skips the characters that
are not letters or digits, as a lenient base64 decoder skips the characters
outside its alphabet: a byte per letter or digit, and the texts of letters and
digits are the ones it writes. -/
def skipping_codec : base64_lib where
  from_base64 := fun text => (text.filter Char.isAlphanum).map Char.toNat
  to_base64 := fun bytes => bytes.map Char.ofNat
  is_base64 := fun text => text.all Char.isAlphanum
  round_trip := by
    intro text h
    induction text with
    | nil => rfl
    | cons c cs ih =>
      simp only [List.all_cons, Bool.and_eq_true] at h
      simp only [List.filter_cons, h.1, if_true, List.map_cons, List.cons.injEq]
      exact ⟨Char.ofNat_toNat c, by simpa using ih h.2⟩

/-- A URI library for evaluation: a text is well formed when it holds no blank,
the scheme is the text before the first `:`, the host is the text between
`://` and the next `:` or `/`, a URI is empty when its text is, and
`to_string` gives the text back. -/
def text_uri_lib : uri_lib where
  well_formed := fun t => t.all (fun c => c != ' ')
  is_empty := fun t => t.isEmpty
  scheme := fun t => t.takeWhile (fun c => c != ':')
  host := fun t =>
    (((t.dropWhile (fun c => c != ':')).drop 3).takeWhile (fun c => c != ':' && c != '/'))
  to_string := fun t => t

/-- Lines 59-66, as the three endpoint pairs it assigns. -/
def initialize_default_endpoints (L : uri_lib) (credentials : storage_credentials)
    (m_endpoint_suffix : Str) (use_https : Bool) :
    Except Error (storage_uri × storage_uri × storage_uri) :=
  let endpoint_suffix :=
    if m_endpoint_suffix.isEmpty then default_endpoint_suffix else m_endpoint_suffix
  let scheme : Str := if use_https then "https".toList else "http".toList
  match construct_default_endpoint L scheme credentials.account_name
      default_blob_hostname_prefix endpoint_suffix with
  | .error e => .error e
  | .ok blob =>
    match construct_default_endpoint L scheme credentials.account_name
        default_queue_hostname_prefix endpoint_suffix with
    | .error e => .error e
    | .ok queue =>
      match construct_default_endpoint L scheme credentials.account_name
          default_table_hostname_prefix endpoint_suffix with
      | .error e => .error e
      | .ok table => .ok (blob, queue, table)

/-- Modelled from the spec: the constructor
`cloud_storage_account(credentials, endpoint_suffix, use_https)` (in
`was/storage_account.h`, not under `src/`): an initialized account that uses
default endpoints, which it sets with `initialize_default_endpoints`. -/
def cloud_storage_account.of_suffix (L : uri_lib) (credentials : storage_credentials)
    (endpoint_suffix : Str) (use_https : Bool) : Except Error cloud_storage_account :=
  match initialize_default_endpoints L credentials endpoint_suffix use_https with
  | .error e => .error e
  | .ok endpoints =>
    .ok { m_initialized := true
          m_is_development_storage_account := false
          m_default_endpoints := true
          m_credentials := credentials
          m_blob_endpoint := endpoints.1
          m_queue_endpoint := endpoints.2.1
          m_table_endpoint := endpoints.2.2
          m_endpoint_suffix := endpoint_suffix
          m_settings := [] }

/-- Lines 337-365 of `to_string`: the `m_settings` of the account after the call,
filled in when they were empty. -/
def materialize_settings (L : uri_lib) (a : cloud_storage_account) : settings_map :=
  if a.m_settings.isEmpty then
    if a.m_default_endpoints then
      let settings := insert a.m_settings
        (default_endpoints_protocol_setting_string, a.m_blob_endpoint.primary_uri.scheme L)
      if !a.m_endpoint_suffix.isEmpty then
        insert settings (endpoint_suffix_setting_string, a.m_endpoint_suffix)
      else settings
    else
      let settings :=
        if !a.m_blob_endpoint.primary_uri.is_empty L then
          insert a.m_settings
            (blob_endpoint_setting_string, a.m_blob_endpoint.primary_uri.to_string L)
        else a.m_settings
      let settings :=
        if !a.m_queue_endpoint.primary_uri.is_empty L then
          insert settings
            (queue_endpoint_setting_string, a.m_queue_endpoint.primary_uri.to_string L)
        else settings
      if !a.m_table_endpoint.primary_uri.is_empty L then
        insert settings
          (table_endpoint_setting_string, a.m_table_endpoint.primary_uri.to_string L)
      else settings
  else a.m_settings

/-- Lines 367-378 of `to_string`: the loop that writes the settings, `semicolon`
being the flag of the same name. -/
def write_settings : settings_map → Bool → Str
  | [], _ => []
  | e :: rest, semicolon =>
    (if semicolon then [';'] else []) ++ e.1 ++ ['='] ++ e.2 ++ write_settings rest true

/-- The text written in place of a secret (lines 385 and 390). -/
def key_hidden : Str := "[key hidden]".toList

/-- Lines 380-392 of `to_string`: the credential fields appended. -/
def write_credentials (B : base64_lib) (a : cloud_storage_account) (export_secrets : Bool) :
    Str :=
  if !a.m_is_development_storage_account then
    (if a.m_credentials.is_shared_key then
      [';'] ++ account_name_setting_string ++ ['='] ++ a.m_credentials.account_name
        ++ [';'] ++ account_key_setting_string ++ ['=']
        ++ (if export_secrets then B.to_base64 (a.m_credentials.account_key B) else key_hidden)
     else []) ++
    (if a.m_credentials.is_sas then
      [';'] ++ shared_access_signature_setting_string ++ ['=']
        ++ (if export_secrets then a.m_credentials.sas_token else key_hidden)
     else [])
  else []

/-- Lines 335-395: the string returned (the account is left with the settings of
`materialize_settings`). -/
def to_string (L : uri_lib) (B : base64_lib) (a : cloud_storage_account)
    (export_secrets : Bool) : Str :=
  write_settings (materialize_settings L a) false ++ write_credentials B a export_secrets

/-- Lines 397-405; `get_account_sas_token` is the signing function of
`protocol`, which is not under `src/`, with policies of type `P` and results
of type `R`. -/
def get_shared_access_signature {P R : Type}
    (get_account_sas_token : Str → P → storage_credentials → R)
    (a : cloud_storage_account) (policy : P) : Except Error R :=
  if !a.m_credentials.is_shared_key then .error .MissingCredentials
  else .ok (get_account_sas_token [] policy a.m_credentials)

/-- The joined form of a settings map in the spec's words: each entry as
`key=value`, the entries joined with `;`. -/
def spec_joined (settings : settings_map) : Str :=
  [';'].intercalate (settings.map (fun e => e.1 ++ ['='] ++ e.2))

/-- The setting names that the credential resolver consumes. -/
def credential_setting_names : List Str :=
  [account_name_setting_string, account_key_setting_string,
    shared_access_signature_setting_string]

/-- The setting names that the explicit-endpoints strategy consumes. -/
def explicit_setting_names : List Str :=
  [blob_endpoint_setting_string, queue_endpoint_setting_string, table_endpoint_setting_string,
    account_name_setting_string, account_key_setting_string,
    shared_access_signature_setting_string]

/-- A settings map without the entries of the given keys, the other entries
unchanged and in the same order. -/
def without_keys (m : settings_map) (keys : List Str) : settings_map :=
  m.filter (fun e => decide (e.1 ∉ keys))

/-- The endpoint pair of the default-endpoints strategy in the spec's words: an
override with a non-empty value is a primary-only pair, otherwise the pair is
derived from protocol, account name, hostname prefix and suffix. -/
def spec_defaults_pair (override scheme account_name hostname_prefix endpoint_suffix : Str) :
    storage_uri :=
  if override = [] then
    ⟨.of_text (scheme ++ "://".toList ++ account_name ++ ['.'] ++ hostname_prefix ++ ['.']
        ++ endpoint_suffix),
      .of_text (scheme ++ "://".toList ++ account_name ++ "-secondary".toList ++ ['.']
        ++ hostname_prefix ++ ['.'] ++ endpoint_suffix)⟩
  else ⟨.of_text override, .empty⟩

/-- The setting names that the default-endpoints strategy consumes. -/
def defaults_setting_names : List Str :=
  [default_endpoints_protocol_setting_string, account_name_setting_string,
    account_key_setting_string, endpoint_suffix_setting_string, blob_endpoint_setting_string,
    queue_endpoint_setting_string, table_endpoint_setting_string]

/-- The setting names that the development-storage strategy consumes. -/
def devstore_setting_names : List Str :=
  [use_development_storage_setting_string, development_storage_proxy_uri_setting_string]

/-- The endpoint suffix of the default-endpoints strategy in the spec's words: the
value of `EndpointSuffix`, `core.windows.net` when the key is absent. -/
def spec_defaults_suffix (m : settings_map) : Str :=
  match find m endpoint_suffix_setting_string with
  | some s => s
  | none => "core.windows.net".toList

/-- The texts of which the default-endpoints strategy builds the URIs of one
service: the override when it is non-empty, otherwise the primary and the
secondary text derived from protocol, account name, hostname prefix and
suffix. -/
def spec_defaults_texts (override scheme account_name hostname_prefix endpoint_suffix : Str) :
    List Str :=
  if override = [] then
    [scheme ++ "://".toList ++ account_name ++ ['.'] ++ hostname_prefix ++ ['.']
        ++ endpoint_suffix,
      scheme ++ "://".toList ++ account_name ++ "-secondary".toList ++ ['.']
        ++ hostname_prefix ++ ['.'] ++ endpoint_suffix]
  else [override]

/-- The URI texts that the default-endpoints strategy builds from a settings
map, for blob, queue and table. -/
def spec_defaults_uri_texts (m : settings_map) : List Str :=
  spec_defaults_texts (setting_value m blob_endpoint_setting_string)
      (setting_value m default_endpoints_protocol_setting_string)
      (setting_value m account_name_setting_string) "blob".toList (spec_defaults_suffix m) ++
    spec_defaults_texts (setting_value m queue_endpoint_setting_string)
      (setting_value m default_endpoints_protocol_setting_string)
      (setting_value m account_name_setting_string) "queue".toList (spec_defaults_suffix m) ++
    spec_defaults_texts (setting_value m table_endpoint_setting_string)
      (setting_value m default_endpoints_protocol_setting_string)
      (setting_value m account_name_setting_string) "table".toList (spec_defaults_suffix m)

/-- The URI texts that the explicit-endpoints strategy builds from a settings
map: the non-empty values of `BlobEndpoint`, `QueueEndpoint`, `TableEndpoint`. -/
def spec_explicit_uri_texts (m : settings_map) : List Str :=
  [setting_value m blob_endpoint_setting_string,
    setting_value m queue_endpoint_setting_string,
    setting_value m table_endpoint_setting_string].filter (fun t => !t.isEmpty)

/-- The pair of the explicit-endpoints strategy for an endpoint value: the empty
pair for the empty value, otherwise a primary-only pair. -/
def spec_explicit_value_pair (endpoint : Str) : storage_uri :=
  if endpoint = [] then ⟨.empty, .empty⟩ else ⟨.of_text endpoint, .empty⟩

/-- The account of the explicit-endpoints strategy in the spec's words: the
credentials of the credential resolver and, for each service, the pair of
`spec_explicit_value_pair`. -/
def spec_explicit_account (m : settings_map) : cloud_storage_account :=
  { m_initialized := true
    m_is_development_storage_account := false
    m_default_endpoints := false
    m_credentials := (get_credentials m).1
    m_blob_endpoint := spec_explicit_value_pair (setting_value m blob_endpoint_setting_string)
    m_queue_endpoint :=
      spec_explicit_value_pair (setting_value m queue_endpoint_setting_string)
    m_table_endpoint :=
      spec_explicit_value_pair (setting_value m table_endpoint_setting_string)
    m_endpoint_suffix := []
    m_settings := [] }

/-- The account of the default-endpoints strategy in the spec's words: the
credentials built from `AccountName` and `AccountKey`, and for each service
the pair of `spec_defaults_pair`. -/
def spec_defaults_account (m : settings_map) : cloud_storage_account :=
  { m_initialized := true
    m_is_development_storage_account := false
    m_default_endpoints := false
    m_credentials := storage_credentials.of_account_key
      (setting_value m account_name_setting_string)
      (setting_value m account_key_setting_string)
    m_blob_endpoint := spec_defaults_pair (setting_value m blob_endpoint_setting_string)
      (setting_value m default_endpoints_protocol_setting_string)
      (setting_value m account_name_setting_string) "blob".toList (spec_defaults_suffix m)
    m_queue_endpoint := spec_defaults_pair (setting_value m queue_endpoint_setting_string)
      (setting_value m default_endpoints_protocol_setting_string)
      (setting_value m account_name_setting_string) "queue".toList (spec_defaults_suffix m)
    m_table_endpoint := spec_defaults_pair (setting_value m table_endpoint_setting_string)
      (setting_value m default_endpoints_protocol_setting_string)
      (setting_value m account_name_setting_string) "table".toList (spec_defaults_suffix m)
    m_endpoint_suffix := spec_defaults_suffix m
    m_settings := [] }

/-- Two accounts that differ at most in the secret of their credentials: every
field is the same except the credentials, which have the same kind and the
same account name. -/
def same_up_to_secret (a b : cloud_storage_account) : Prop :=
  a.m_initialized = b.m_initialized ∧
  a.m_is_development_storage_account = b.m_is_development_storage_account ∧
  a.m_default_endpoints = b.m_default_endpoints ∧
  a.m_credentials.is_shared_key = b.m_credentials.is_shared_key ∧
  a.m_credentials.is_sas = b.m_credentials.is_sas ∧
  a.m_credentials.account_name = b.m_credentials.account_name ∧
  a.m_blob_endpoint = b.m_blob_endpoint ∧
  a.m_queue_endpoint = b.m_queue_endpoint ∧
  a.m_table_endpoint = b.m_table_endpoint ∧
  a.m_endpoint_suffix = b.m_endpoint_suffix ∧
  a.m_settings = b.m_settings

/-! ## The key order is a strict total order -/

theorem str_lt_cons (x y : Char) (xs ys : Str) :
    str_lt (x :: xs) (y :: ys) = true ↔ x < y ∨ (x = y ∧ str_lt xs ys = true) := by
  simp only [str_lt]
  split_ifs with h1 h2
  · simp [h1]
  · simp [h1, h2]
  · simp [h1, h2]

theorem str_lt_irrefl (a : Str) : str_lt a a = false := by
  induction a with
  | nil => rfl
  | cons x xs ih => simp [str_lt, ih]

theorem str_lt_trans {a b c : Str} (hab : str_lt a b = true) (hbc : str_lt b c = true) :
    str_lt a c = true := by
  induction a generalizing b c with
  | nil =>
    cases b with
    | nil => simp [str_lt] at hab
    | cons y ys =>
      cases c with
      | nil => simp [str_lt] at hbc
      | cons z zs => simp [str_lt]
  | cons x xs ih =>
    cases b with
    | nil => simp [str_lt] at hab
    | cons y ys =>
      cases c with
      | nil => simp [str_lt] at hbc
      | cons z zs =>
        rw [str_lt_cons] at hab hbc ⊢
        rcases hab with h1 | ⟨h1, h2⟩
        · rcases hbc with h3 | ⟨h3, _⟩
          · exact Or.inl (lt_trans h1 h3)
          · exact Or.inl (h3 ▸ h1)
        · rcases hbc with h3 | ⟨h3, h4⟩
          · exact Or.inl (h1 ▸ h3)
          · exact Or.inr ⟨h1.trans h3, ih h2 h4⟩

theorem str_lt_total {a b : Str} (hne : a ≠ b) (h : str_lt a b = false) : str_lt b a = true := by
  induction a generalizing b with
  | nil =>
    cases b with
    | nil => exact absurd rfl hne
    | cons y ys => simp [str_lt] at h
  | cons x xs ih =>
    cases b with
    | nil => simp [str_lt]
    | cons y ys =>
      rw [str_lt_cons]
      have h0 : ¬ (x < y ∨ (x = y ∧ str_lt xs ys = true)) := by
        rw [← str_lt_cons, h]; simp
      rcases lt_trichotomy x y with h6 | h6 | h6
      · exact absurd (Or.inl h6) h0
      · subst h6
        refine Or.inr ⟨rfl, ih (fun e => hne (by rw [e])) ?_⟩
        cases hs : str_lt xs ys with
        | false => rfl
        | true => exact absurd (Or.inr ⟨rfl, hs⟩) h0
      · exact Or.inl h6

/-! ## Lemmas on the settings map -/

theorem find_erase_ne (m : settings_map) {k key : Str} (h : k ≠ key) :
    find (erase m key) k = find m k := by
  induction m with
  | nil => rfl
  | cons e rest ih =>
    simp only [erase, find]
    by_cases h1 : e.1 = key
    · have h2 : ¬ e.1 = k := fun h3 => h (h3.symm.trans h1)
      simp only [h1, if_true]
      rw [h1] at h2
      simp only [h2, if_false]
    · simp only [h1, if_false, find, ih]

theorem find_none_of_lt (m : settings_map) (k : Str)
    (h : ∀ e ∈ m, str_lt k e.1 = true) : find m k = none := by
  induction m with
  | nil => rfl
  | cons e rest ih =>
    have h1 : e.1 ≠ k := by
      intro h2
      have h3 := h e (List.mem_cons_self _ _)
      rw [h2, str_lt_irrefl] at h3
      exact Bool.noConfusion h3
    simp only [find, h1, if_false]
    exact ih (fun e he => h e (List.mem_cons_of_mem _ he))

theorem mem_insert (m : settings_map) (kv e : Str × Str) (h : e ∈ insert m kv) :
    e = kv ∨ e ∈ m := by
  induction m with
  | nil => simpa [insert] using h
  | cons x rest ih =>
    simp only [insert] at h
    split_ifs at h with h1 h2
    · exact Or.inr h
    · rcases List.mem_cons.1 h with h3 | h3
      · exact Or.inl h3
      · exact Or.inr h3
    · rcases List.mem_cons.1 h with h3 | h3
      · exact Or.inr (h3 ▸ List.mem_cons_self _ _)
      · rcases ih h3 with h4 | h4
        · exact Or.inl h4
        · exact Or.inr (List.mem_cons_of_mem _ h4)

theorem sorted_keys_insert (m : settings_map) (kv : Str × Str) (hm : sorted_keys m) :
    sorted_keys (insert m kv) := by
  induction m with
  | nil => simp [insert, sorted_keys]
  | cons x rest ih =>
    have hx := List.pairwise_cons.1 hm
    simp only [insert]
    split_ifs with h1 h2
    · exact hm
    · refine List.pairwise_cons.2 ⟨?_, hm⟩
      intro e he
      rcases List.mem_cons.1 he with h3 | h3
      · rw [h3]; exact h2
      · exact str_lt_trans h2 (hx.1 e h3)
    · refine List.pairwise_cons.2 ⟨?_, ih hx.2⟩
      intro e he
      rcases mem_insert rest kv e he with h3 | h3
      · rw [h3]
        exact str_lt_total h1 (by simpa using h2)
      · exact hx.1 e h3

theorem find_insert (m : settings_map) (kv : Str × Str) (k : Str) (hm : sorted_keys m) :
    find (insert m kv) k =
      match find m k with
      | some v => some v
      | none => find [kv] k := by
  induction m with
  | nil => simp [insert, find]
  | cons x rest ih =>
    have hx := List.pairwise_cons.1 hm
    by_cases h1 : kv.1 = x.1
    · simp only [insert, h1, if_true]
      by_cases h3 : x.1 = k
      · simp [find, h3]
      · have h4 : ¬ kv.1 = k := fun h5 => h3 (h1.symm.trans h5)
        simp only [find, h3, h4, if_false]
        cases find rest k <;> rfl
    · by_cases h2 : str_lt kv.1 x.1 = true
      · simp only [insert, h1, h2, if_true, if_false]
        by_cases h3 : kv.1 = k
        · have h4 : find (x :: rest) k = none := by
            apply find_none_of_lt
            intro e he
            rw [← h3]
            rcases List.mem_cons.1 he with h5 | h5
            · rw [h5]; exact h2
            · exact str_lt_trans h2 (hx.1 e h5)
          rw [h4]
          simp [find, h3]
        · simp only [find, h3, if_false]
          by_cases h4 : x.1 = k
          · simp [h4]
          · simp only [h4, if_false]
            cases find rest k <;> rfl
      · simp only [insert, h1, h2, if_false]
        by_cases h3 : x.1 = k
        · simp [find, h3]
        · simp only [find, h3, if_false]
          exact ih hx.2

/-! ## Lemmas on the settings-string parser -/

theorem string_split_ne_nil (s : Str) (sep : Char) : string_split s sep ≠ [] := by
  induction s with
  | nil => simp [string_split]
  | cons c cs ih =>
    simp only [string_split]
    split_ifs
    · simp
    · cases h : string_split cs sep <;> simp

theorem string_split_eq_splitOn (s : Str) (sep : Char) :
    string_split s sep = s.splitOn sep := by
  induction s with
  | nil => simp [string_split, List.splitOn]
  | cons c cs ih =>
    rw [List.splitOn, List.splitOnP_cons, ← List.splitOn, ← ih]
    simp only [string_split]
    by_cases h : c = sep
    · simp [h]
    · simp only [h, if_false]
      have h2 : (c == sep) = false := by simpa using h
      simp only [h2]
      cases h3 : string_split cs sep with
      | nil => exact absurd h3 (string_split_ne_nil cs sep)
      | cons e es => simp

theorem str_find_none (e : Str) (c : Char) (h : str_find e c = none) :
    e.takeWhile (fun x => x != c) = e ∧ e.dropWhile (fun x => x != c) = [] := by
  induction e with
  | nil => simp
  | cons x xs ih =>
    simp only [str_find] at h
    by_cases h1 : x = c
    · simp [h1] at h
    · simp only [h1, if_false, Option.map_eq_none'] at h
      have h2 := ih h
      simp [List.takeWhile_cons, List.dropWhile_cons, h1, h2.1, h2.2]

theorem str_find_some (e : Str) (c : Char) (n : Nat) (h : str_find e c = some n) :
    e.take n = e.takeWhile (fun x => x != c) ∧ e.drop (n + 1) = (e.dropWhile (fun x => x != c)).drop 1 := by
  induction e generalizing n with
  | nil => simp [str_find] at h
  | cons x xs ih =>
    simp only [str_find] at h
    by_cases h1 : x = c
    · simp only [h1, if_true, Option.some.injEq] at h
      subst h
      simp [List.takeWhile_cons, List.dropWhile_cons, h1]
    · simp only [h1, if_false, Option.map_eq_some'] at h
      obtain ⟨k, hk, hn⟩ := h
      subst hn
      have h2 := ih k hk
      simp [List.takeWhile_cons, List.dropWhile_cons, h1, h2.1, h2.2]

theorem parse_entries_cons (e : Str) (rest : List Str) (m : settings_map) :
    parse_entries (e :: rest) m =
      if e = [] then parse_entries rest m
      else if spec_key e = [] then .error .InvalidFormat
      else parse_entries rest (insert m (spec_key e, spec_value e)) := by
  simp only [parse_entries]
  by_cases h : e = []
  · simp [h]
  · have h1 : e.isEmpty = false := by cases e <;> simp at h ⊢
    simp only [h1, h, if_false, Bool.not_false, if_true]
    cases hf : str_find e '=' with
    | none =>
      have h2 := str_find_none e '=' hf
      simp only [substr, List.drop_zero, spec_key, spec_value, h2.1, h2.2, List.drop_nil]
      simp [h, h1]
    | some n =>
      have h2 := str_find_some e '=' n hf
      simp only [substr, List.drop_zero, spec_key, spec_value, h2.1, ← h2.2]
      by_cases h3 : List.takeWhile (fun c => c != '=') e = []
      · simp [h3]
      · have h4 : (List.takeWhile (fun c => c != '=') e).isEmpty = false := by
          cases h5 : List.takeWhile (fun c => c != '=') e with
          | nil => exact absurd h5 h3
          | cons _ _ => rfl
        simp [h3, h4]

theorem spec_key_eq_nil (e : Str) : spec_key e = [] ↔ e = [] ∨ e.head? = some '=' := by
  cases e with
  | nil => simp [spec_key]
  | cons x xs =>
    by_cases h : x = '='
    · simp [spec_key, List.takeWhile_cons, h]
    · simp [spec_key, List.takeWhile_cons, h]

/-- The spec-worded key and value cut an entry at its first `=`: the key holds no
`=`, an entry with an `=` is key, `=`, value, and an entry without one is its
own key with the empty value. -/
theorem spec_key_value_split (e : Str) :
    '=' ∉ spec_key e ∧
      ('=' ∈ e → e = spec_key e ++ '=' :: spec_value e) ∧
      ('=' ∉ e → spec_key e = e ∧ spec_value e = []) := by
  induction e with
  | nil => simp [spec_key, spec_value]
  | cons x xs ih =>
    by_cases h : x = '='
    · simp [spec_key, spec_value, List.takeWhile_cons, List.dropWhile_cons, h]
    · have h2 : ¬ '=' = x := fun h3 => h h3.symm
      simp only [spec_key, spec_value] at ih
      simp [spec_key, spec_value, List.takeWhile_cons, List.dropWhile_cons, h, h2]
      refine ⟨ih.1, ?_, ?_⟩
      · intro h3
        simpa using ih.2.1 h3
      · intro h3
        simpa using ih.2.2 h3

theorem spec_pairs_cons (e : Str) (es : List Str) :
    spec_pairs (e :: es) =
      if e = [] then spec_pairs es else (spec_key e, spec_value e) :: spec_pairs es := by
  cases e with
  | nil => simp [spec_pairs]
  | cons x xs => simp [spec_pairs]

theorem parse_entries_ok (es : List Str) (m : settings_map)
    (h : ∀ e ∈ es, e.head? ≠ some '=') (hm : sorted_keys m) :
    ∃ r, parse_entries es m = .ok r ∧ sorted_keys r ∧
      ∀ k, find r k = match find m k with
        | some v => some v
        | none => find (spec_pairs es) k := by
  induction es generalizing m with
  | nil =>
    refine ⟨m, rfl, hm, fun k => ?_⟩
    cases find m k <;> rfl
  | cons e rest ih =>
    have hrest : ∀ e2 ∈ rest, e2.head? ≠ some '=' := fun e2 h2 => h e2 (List.mem_cons_of_mem _ h2)
    rw [parse_entries_cons, spec_pairs_cons]
    by_cases h1 : e = []
    · simp only [h1, if_true]
      exact ih m hrest hm
    · have h2 : ¬ spec_key e = [] := by
        rw [spec_key_eq_nil]
        rintro (h3 | h3)
        · exact h1 h3
        · exact h e (List.mem_cons_self _ _) h3
      simp only [h1, h2, if_false]
      obtain ⟨r, hr, hs, hf⟩ := ih (insert m (spec_key e, spec_value e)) hrest
        (sorted_keys_insert m _ hm)
      refine ⟨r, hr, hs, fun k => ?_⟩
      rw [hf k, find_insert m _ k hm]
      cases find m k with
      | some v => rfl
      | none =>
        simp only [find]
        by_cases h3 : spec_key e = k
        · simp [h3]
        · simp [h3]

theorem parse_entries_invalid (es : List Str) (m : settings_map)
    (h : ∃ e ∈ es, e.head? = some '=') : parse_entries es m = .error .InvalidFormat := by
  induction es generalizing m with
  | nil => simp at h
  | cons e rest ih =>
    rw [parse_entries_cons]
    by_cases h1 : e = []
    · simp only [h1, if_true]
      apply ih
      obtain ⟨e2, he2, hh⟩ := h
      rcases List.mem_cons.1 he2 with h3 | h3
      · rw [h3, h1] at hh; simp at hh
      · exact ⟨e2, h3, hh⟩
    · simp only [h1, if_false]
      by_cases h2 : spec_key e = []
      · simp [h2]
      · simp only [h2, if_false]
        apply ih
        obtain ⟨e2, he2, hh⟩ := h
        rcases List.mem_cons.1 he2 with h3 | h3
        · exact absurd ((spec_key_eq_nil e).2 (Or.inr (h3 ▸ hh))) h2
        · exact ⟨e2, h3, hh⟩

theorem find_some_mem (l : settings_map) (k v : Str) (h : find l k = some v) : (k, v) ∈ l := by
  induction l with
  | nil => simp [find] at h
  | cons x rest ih =>
    simp only [find] at h
    by_cases h1 : x.1 = k
    · simp only [h1, if_true, Option.some.injEq] at h
      have : x = (k, v) := Prod.ext h1 h
      rw [this]; exact List.mem_cons_self _ _
    · simp only [h1, if_false] at h
      exact List.mem_cons_of_mem _ (ih h)

theorem find_isSome_of_mem (l : settings_map) (k v : Str) (h : (k, v) ∈ l) :
    ∃ w, find l k = some w := by
  induction l with
  | nil => simp at h
  | cons x rest ih =>
    simp only [find]
    by_cases h1 : x.1 = k
    · exact ⟨x.2, by simp [h1]⟩
    · simp only [h1, if_false]
      rcases List.mem_cons.1 h with h2 | h2
      · exact absurd (by rw [← h2]) h1
      · exact ih h2

theorem find_append_first (pre post : settings_map) (kv : Str × Str)
    (h : ∀ e ∈ pre, e.1 ≠ kv.1) : find (pre ++ kv :: post) kv.1 = some kv.2 := by
  induction pre with
  | nil => simp [find]
  | cons x rest ih =>
    have h1 : ¬ x.1 = kv.1 := h x (List.mem_cons_self _ _)
    simp only [List.cons_append, find, h1, if_false]
    exact ih (fun e he => h e (List.mem_cons_of_mem _ he))

theorem spec_pairs_eq (s : Str) :
    spec_pairs (string_split s ';') = (spec_entries s).map (fun e => (spec_key e, spec_value e)) := by
  rw [spec_pairs, spec_entries, string_split_eq_splitOn]

theorem parse_string_into_settings_ok (s : Str) (h : ∀ e ∈ s.splitOn ';', e.head? ≠ some '=') :
    ∃ m, parse_string_into_settings s = .ok m ∧ sorted_keys m ∧
      ∀ k, find m k = find ((spec_entries s).map (fun e => (spec_key e, spec_value e))) k := by
  rw [← string_split_eq_splitOn] at h
  obtain ⟨r, hr, hs, hf⟩ := parse_entries_ok (string_split s ';') [] h (by simp [sorted_keys])
  refine ⟨r, hr, hs, fun k => ?_⟩
  rw [hf k, spec_pairs_eq]
  rfl

/-! ## Lemmas on `get_setting` and `get_credentials` -/

theorem get_setting_found (m : settings_map) (key v : Str) :
    (get_setting m key v).found = (find m key).isSome := by
  unfold get_setting
  cases find m key <;> rfl

theorem get_setting_value (m : settings_map) (key : Str) :
    (get_setting m key []).value = setting_value m key := by
  unfold get_setting setting_value
  cases find m key <;> rfl

theorem get_setting_find_ne (m : settings_map) (key v : Str) {k : Str} (h : k ≠ key) :
    find (get_setting m key v).settings k = find m k := by
  unfold get_setting
  cases find m key with
  | none => rfl
  | some w => exact find_erase_ne m h

theorem get_setting_value_ne (m : settings_map) (key v : Str) {k : Str} (h : k ≠ key) :
    setting_value (get_setting m key v).settings k = setting_value m k := by
  unfold setting_value
  rw [get_setting_find_ne m key v h]

theorem isEmpty_eq_false_of_find (m : settings_map) (k v : Str) (h : find m k = some v) :
    m.isEmpty = false := by
  cases m with
  | nil => simp [find] at h
  | cons _ _ => rfl

theorem get_credentials_fst (m : settings_map) :
    (get_credentials m).1 =
      if !(setting_value m account_name_setting_string).isEmpty
          && !(setting_value m account_key_setting_string).isEmpty
          && (setting_value m shared_access_signature_setting_string).isEmpty then
        .shared_key (setting_value m account_name_setting_string)
          (setting_value m account_key_setting_string)
      else if (setting_value m account_name_setting_string).isEmpty
          && (setting_value m account_key_setting_string).isEmpty
          && !(setting_value m shared_access_signature_setting_string).isEmpty then
        .sas (setting_value m shared_access_signature_setting_string)
      else .anonymous := by
  have h1 : account_key_setting_string ≠ account_name_setting_string := by decide
  have h2 : shared_access_signature_setting_string ≠ account_name_setting_string := by decide
  have h3 : shared_access_signature_setting_string ≠ account_key_setting_string := by decide
  simp only [get_credentials, get_setting_value, get_setting_value_ne _ _ _ h1,
    get_setting_value_ne _ _ _ h2, get_setting_value_ne _ _ _ h3]
  split_ifs with c1 c2
  · simp only [Bool.and_eq_true] at c1
    simp only [storage_credentials.of_account_key, c1.1.1, c1.1.2, Bool.and_self, if_true]
  · simp only [Bool.and_eq_true] at c2
    simp only [storage_credentials.of_sas_token, c2.2, if_true]
  · rfl

theorem get_credentials_find (m : settings_map) (k : Str)
    (h1 : k ≠ account_name_setting_string) (h2 : k ≠ account_key_setting_string)
    (h3 : k ≠ shared_access_signature_setting_string) :
    find (get_credentials m).2 k = find m k := by
  have h : (get_credentials m).2 =
      (get_setting (get_setting (get_setting m account_name_setting_string []).settings
        account_key_setting_string []).settings
          shared_access_signature_setting_string []).settings := by
    simp only [get_credentials]
    split_ifs <;> rfl
  rw [h, get_setting_find_ne _ _ _ h3, get_setting_find_ne _ _ _ h2, get_setting_find_ne _ _ _ h1]

/-! ## Lemmas on the three strategies -/

theorem parse_entries_empty_entries (n : Nat) (m : settings_map) :
    parse_entries (List.replicate n []) m = .ok m := by
  induction n with
  | zero => rfl
  | succ n ih => rw [List.replicate_succ, parse_entries_cons]; simpa using ih

theorem string_split_separators (n : Nat) :
    string_split (List.replicate n ';') ';' = List.replicate (n + 1) [] := by
  induction n with
  | zero => rfl
  | succ n ih => rw [List.replicate_succ, string_split]; simp [ih, List.replicate_succ]

theorem filter_ne_of_lt (m : settings_map) (key : Str)
    (h : ∀ e ∈ m, str_lt key e.1 = true) :
    m.filter (fun e => decide (e.1 ≠ key)) = m := by
  apply List.filter_eq_self.2
  intro e he
  have h1 := h e he
  have h2 : e.1 ≠ key := by
    intro h3
    rw [h3, str_lt_irrefl] at h1
    exact Bool.noConfusion h1
  simpa using h2

theorem erase_eq_filter (m : settings_map) (key : Str) (hm : sorted_keys m) :
    erase m key = m.filter (fun e => decide (e.1 ≠ key)) := by
  induction m with
  | nil => rfl
  | cons x rest ih =>
    have hx := List.pairwise_cons.1 hm
    by_cases h1 : x.1 = key
    · simp only [erase, h1, if_true]
      rw [List.filter_cons]
      simp only [h1, ne_eq, not_true_eq_false, decide_False, Bool.false_eq_true, if_false]
      exact (filter_ne_of_lt rest key (fun e he => h1 ▸ hx.1 e he)).symm
    · simp only [erase, h1, if_false]
      rw [List.filter_cons]
      simp only [ne_eq, h1, not_false_eq_true, decide_True, if_true]
      rw [ih hx.2]

theorem find_none_filter_self (m : settings_map) (key : Str) (h : find m key = none) :
    m.filter (fun e => decide (e.1 ≠ key)) = m := by
  apply List.filter_eq_self.2
  intro e he
  have h2 : e.1 ≠ key := by
    intro h3
    obtain ⟨w, hw⟩ := find_isSome_of_mem m e.1 e.2 he
    rw [h3, h] at hw
    exact Option.noConfusion hw
  simpa using h2

theorem get_setting_settings (m : settings_map) (key v : Str) (hm : sorted_keys m) :
    (get_setting m key v).settings = m.filter (fun e => decide (e.1 ≠ key)) := by
  unfold get_setting
  cases h : find m key with
  | none => exact (find_none_filter_self m key h).symm
  | some w => exact erase_eq_filter m key hm

theorem sorted_keys_filter (m : settings_map) (p : Str × Str → Bool) (hm : sorted_keys m) :
    sorted_keys (m.filter p) :=
  List.Pairwise.filter p hm

theorem sorted_keys_get_setting (m : settings_map) (key v : Str) (hm : sorted_keys m) :
    sorted_keys (get_setting m key v).settings := by
  rw [get_setting_settings m key v hm]
  exact sorted_keys_filter m _ hm

theorem find_filter (m : settings_map) (p : Str → Bool) (k : Str) :
    find (m.filter (fun e => p e.1)) k = if p k = true then find m k else none := by
  induction m with
  | nil => simp [find]
  | cons x rest ih =>
    rw [List.filter_cons]
    by_cases h1 : p x.1 = true
    · simp only [h1, if_true, find]
      by_cases h2 : x.1 = k
      · simp only [h2, if_true]
        rw [h2] at h1
        simp [h1]
      · simp only [h2, if_false]
        exact ih
    · have h1f : p x.1 = false := by simpa using h1
      simp only [h1f, Bool.false_eq_true, if_false]
      rw [ih]
      by_cases h2 : x.1 = k
      · rw [h2] at h1
        simp [h1]
      · simp [find, h2]

theorem sorted_keys_ext (m1 m2 : settings_map) (h1 : sorted_keys m1) (h2 : sorted_keys m2)
    (h : ∀ k, find m1 k = find m2 k) : m1 = m2 := by
  induction m1 generalizing m2 with
  | nil =>
    cases m2 with
    | nil => rfl
    | cons y ys =>
      have := h y.1
      simp [find] at this
  | cons x xs ih =>
    cases m2 with
    | nil =>
      have := h x.1
      simp [find] at this
    | cons y ys =>
      have hx := List.pairwise_cons.1 h1
      have hy := List.pairwise_cons.1 h2
      have hxs : find xs x.1 = none := find_none_of_lt xs x.1 hx.1
      have hys : find ys y.1 = none := find_none_of_lt ys y.1 hy.1
      have hk : x.1 = y.1 := by
        by_contra hne
        have e1 := h x.1
        have e2 := h y.1
        simp only [find, if_true] at e1 e2
        have hne2 : ¬ y.1 = x.1 := fun e => hne e.symm
        simp only [hne, hne2, if_false] at e1 e2
        have m1 := find_some_mem ys x.1 x.2 e1.symm
        have m2 := find_some_mem xs y.1 y.2 e2
        have l1 : str_lt y.1 x.1 = true := hy.1 _ m1
        have l2 : str_lt x.1 y.1 = true := hx.1 _ m2
        have l3 := str_lt_trans l1 l2
        rw [str_lt_irrefl] at l3
        exact Bool.noConfusion l3
      have hv : x.2 = y.2 := by
        have e1 := h x.1
        simp only [find, if_true, hk] at e1
        simpa using e1
      have hxy : x = y := Prod.ext hk hv
      subst hxy
      congr 1
      apply ih ys hx.2 hy.2
      intro k
      by_cases hkk : x.1 = k
      · rw [← hkk, hxs, hys]
      · have e1 := h k
        simpa only [find, hkk, if_false] using e1

theorem parse_entries_sorted (es : List Str) (m r : settings_map) (hm : sorted_keys m)
    (h : parse_entries es m = .ok r) : sorted_keys r := by
  induction es generalizing m with
  | nil =>
    simp only [parse_entries, Except.ok.injEq] at h
    exact h ▸ hm
  | cons e rest ih =>
    rw [parse_entries_cons] at h
    by_cases h1 : e = []
    · simp only [h1, if_true] at h
      exact ih m hm h
    · simp only [h1, if_false] at h
      by_cases h2 : spec_key e = []
      · simp [h2] at h
      · simp only [h2, if_false] at h
        exact ih _ (sorted_keys_insert m _ hm) h

theorem parse_string_into_settings_sorted (s : Str) (m : settings_map)
    (h : parse_string_into_settings s = .ok m) : sorted_keys m :=
  parse_entries_sorted _ [] m (by simp [sorted_keys]) h

theorem filter_filter_keys (m : settings_map) (k1 : Str) (ks : List Str) :
    (m.filter (fun e => decide (e.1 ∉ ks))).filter (fun e => decide (e.1 ≠ k1))
      = m.filter (fun e => decide (e.1 ∉ k1 :: ks)) := by
  rw [List.filter_filter]
  congr 1
  funext e
  simp [List.mem_cons, not_or]

theorem get_setting_without_keys (m : settings_map) (ks : List Str) (key v : Str)
    (hm : sorted_keys m) :
    (get_setting (without_keys m ks) key v).settings = without_keys m (key :: ks) := by
  unfold without_keys
  rw [get_setting_settings _ key v (sorted_keys_filter m _ hm)]
  exact filter_filter_keys m key ks

theorem without_keys_nil (m : settings_map) : without_keys m [] = m := by
  simp [without_keys]

theorem find_without_keys (m : settings_map) (ks : List Str) (k : Str) :
    find (without_keys m ks) k = if k ∈ ks then none else find m k := by
  have h := find_filter m (fun key => decide (key ∉ ks)) k
  simp only [without_keys]
  rw [h]
  by_cases hk : k ∈ ks
  · simp [hk]
  · simp [hk]

theorem without_keys_perm (m : settings_map) (ks1 ks2 : List Str)
    (h : ∀ k, k ∈ ks1 ↔ k ∈ ks2) : without_keys m ks1 = without_keys m ks2 := by
  simp only [without_keys]
  congr 1
  funext e
  simp [h e.1]

theorem without_keys_isEmpty (m : settings_map) (ks : List Str) :
    (without_keys m ks).isEmpty = true ↔ ∀ e ∈ m, e.1 ∈ ks := by
  simp only [without_keys, List.isEmpty_iff, List.filter_eq_nil_iff]
  constructor
  · intro h e he
    simpa using h e he
  · intro h e he
    simpa using h e he

theorem get_credentials_snd (m : settings_map) (hm : sorted_keys m) :
    (get_credentials m).2 = without_keys m credential_setting_names := by
  have h : (get_credentials m).2 =
      (get_setting (get_setting (get_setting m account_name_setting_string []).settings
        account_key_setting_string []).settings
          shared_access_signature_setting_string []).settings := by
    simp only [get_credentials]
    split_ifs <;> rfl
  rw [h]
  have h0 := get_setting_without_keys m [] account_name_setting_string [] hm
  rw [without_keys_nil] at h0
  rw [h0, get_setting_without_keys m _ _ _ hm, get_setting_without_keys m _ _ _ hm]
  apply without_keys_perm
  intro k
  simp only [credential_setting_names, List.mem_cons, List.mem_singleton, List.not_mem_nil,
    or_false]
  tauto

theorem get_setting_found_without (m : settings_map) (ks : List Str) (key v : Str)
    (h : key ∉ ks) :
    (get_setting (without_keys m ks) key v).found = (find m key).isSome := by
  rw [get_setting_found, find_without_keys, if_neg h]

theorem get_setting_value_without (m : settings_map) (ks : List Str) (key : Str)
    (h : key ∉ ks) :
    (get_setting (without_keys m ks) key []).value = setting_value m key := by
  rw [get_setting_value, setting_value, find_without_keys, if_neg h]
  rfl

theorem get_credentials_fst_without (m : settings_map) (ks : List Str)
    (h1 : account_name_setting_string ∉ ks) (h2 : account_key_setting_string ∉ ks)
    (h3 : shared_access_signature_setting_string ∉ ks) :
    (get_credentials (without_keys m ks)).1 = (get_credentials m).1 := by
  have e : ∀ key, key ∉ ks → setting_value (without_keys m ks) key = setting_value m key := by
    intro key hk
    rw [setting_value, find_without_keys, if_neg hk]
    rfl
  rw [get_credentials_fst, get_credentials_fst, e _ h1, e _ h2, e _ h3]

theorem sorted_keys_without_keys (m : settings_map) (ks : List Str) (hm : sorted_keys m) :
    sorted_keys (without_keys m ks) :=
  sorted_keys_filter m _ hm

theorem without_keys_without_keys (m : settings_map) (ks1 ks2 : List Str) :
    without_keys (without_keys m ks1) ks2 = without_keys m (ks1 ++ ks2) := by
  simp only [without_keys, List.filter_filter]
  congr 1
  funext e
  by_cases h1 : e.1 ∈ ks1 <;> by_cases h2 : e.1 ∈ ks2 <;> simp [h1, h2]

theorem parse_ok_settings (L : uri_lib) (cs : Str) (acc : cloud_storage_account)
    (h : parse L cs = .ok acc) :
    ∃ m, parse_string_into_settings cs = .ok m ∧ parse_settings L m = .ok acc := by
  simp only [parse] at h
  cases hp : parse_string_into_settings cs with
  | error e => simp [hp] at h
  | ok m => exact ⟨m, rfl, by simpa [hp] using h⟩

theorem write_settings_true (m : settings_map) :
    write_settings m true = (m.map (fun e => [';'] ++ (e.1 ++ ['='] ++ e.2))).flatten := by
  induction m with
  | nil => rfl
  | cons e rest ih => simp [write_settings, ih]

theorem write_settings_false (m : settings_map) :
    write_settings m false = spec_joined m := by
  cases m with
  | nil => rfl
  | cons e rest =>
    simp only [write_settings, spec_joined, write_settings_true, List.map_cons]
    induction rest generalizing e with
    | nil => simp [List.intercalate]
    | cons x xs ih =>
      have := ih x
      simp [List.intercalate, List.intersperse] at this ⊢
      exact this

theorem to_string_hidden_congr (L : uri_lib) (B : base64_lib) (a b : cloud_storage_account)
    (h : same_up_to_secret a b) : to_string L B a false = to_string L B b false := by
  obtain ⟨_, h2, h3, h4, h5, h6, h7, h8, h9, h10, h11⟩ := h
  simp only [to_string, materialize_settings, write_credentials, h2, h3, h4, h5, h6, h7, h8,
    h9, h10, h11, Bool.false_eq_true, if_false]

theorem same_up_to_secret_refl (a : cloud_storage_account) : same_up_to_secret a a :=
  ⟨rfl, rfl, rfl, rfl, rfl, rfl, rfl, rfl, rfl, rfl, rfl⟩

theorem all_keys_iff_find (m : settings_map) (ks : List Str) :
    (∀ e ∈ m, e.1 ∈ ks) ↔ ∀ k, (find m k).isSome = true → k ∈ ks := by
  constructor
  · intro h k hk
    obtain ⟨v, hv⟩ := Option.isSome_iff_exists.1 hk
    exact h (k, v) (find_some_mem m k v hv)
  · intro h e he
    obtain ⟨w, hw⟩ := find_isSome_of_mem m e.1 e.2 he
    exact h e.1 (by rw [hw]; rfl)

theorem without_keys_isEmpty_congr (m1 m2 : settings_map) (ks : List Str)
    (h : ∀ k, (find m1 k).isSome = (find m2 k).isSome) :
    (without_keys m1 ks).isEmpty = (without_keys m2 ks).isEmpty := by
  have e : (without_keys m1 ks).isEmpty = true ↔ (without_keys m2 ks).isEmpty = true := by
    rw [without_keys_isEmpty, without_keys_isEmpty, all_keys_iff_find, all_keys_iff_find]
    constructor
    · intro h1 k hk
      exact h1 k (by rw [h k]; exact hk)
    · intro h1 k hk
      exact h1 k (by rw [← h k]; exact hk)
  cases h1 : (without_keys m1 ks).isEmpty <;> cases h2 : (without_keys m2 ks).isEmpty
  · rfl
  · rw [e.2 h2] at h1; exact Bool.noConfusion h1
  · rw [e.1 h1] at h2; exact Bool.noConfusion h2
  · rfl

theorem without_keys_congr (m1 m2 : settings_map) (ks : List Str)
    (h1 : sorted_keys m1) (h2 : sorted_keys m2)
    (h : ∀ k, k ∉ ks → find m1 k = find m2 k) :
    without_keys m1 ks = without_keys m2 ks := by
  apply sorted_keys_ext _ _ (sorted_keys_without_keys m1 ks h1)
    (sorted_keys_without_keys m2 ks h2)
  intro k
  rw [find_without_keys, find_without_keys]
  by_cases hk : k ∈ ks
  · simp [hk]
  · simp only [hk, if_false]
    exact h k hk

theorem find_of_setting_value_ne_nil (m : settings_map) (k : Str)
    (h : setting_value m k ≠ []) : ∃ v, find m k = some v ∧ v ≠ [] := by
  unfold setting_value at h
  cases hf : find m k with
  | none => rw [hf] at h; exact absurd rfl h
  | some v => rw [hf] at h; exact ⟨v, rfl, h⟩

theorem get_credentials_same (m1 m2 : settings_map) (secret : Str)
    (hsec : secret = account_key_setting_string
      ∨ secret = shared_access_signature_setting_string)
    (hag : ∀ k, k ≠ secret → find m1 k = find m2 k)
    (hv1 : setting_value m1 secret ≠ []) (hv2 : setting_value m2 secret ≠ []) :
    (get_credentials m1).1.is_shared_key = (get_credentials m2).1.is_shared_key ∧
      (get_credentials m1).1.is_sas = (get_credentials m2).1.is_sas ∧
      (get_credentials m1).1.account_name = (get_credentials m2).1.account_name := by
  have hsv : ∀ k, k ≠ secret → setting_value m1 k = setting_value m2 k := by
    intro k hk
    unfold setting_value
    rw [hag k hk]
  have he : ∀ v : Str, v ≠ [] → v.isEmpty = false := by
    intro v hv
    cases v with
    | nil => exact absurd rfl hv
    | cons _ _ => rfl
  rw [get_credentials_fst, get_credentials_fst]
  rcases hsec with h | h
  · subst h
    rw [hsv account_name_setting_string (by decide),
      hsv shared_access_signature_setting_string (by decide), he _ hv1, he _ hv2]
    cases (setting_value m2 account_name_setting_string).isEmpty <;>
      cases (setting_value m2 shared_access_signature_setting_string).isEmpty <;>
      simp [storage_credentials.is_shared_key, storage_credentials.is_sas,
        storage_credentials.account_name]
  · subst h
    rw [hsv account_name_setting_string (by decide),
      hsv account_key_setting_string (by decide), he _ hv1, he _ hv2]
    cases (setting_value m2 account_name_setting_string).isEmpty <;>
      cases (setting_value m2 account_key_setting_string).isEmpty <;>
      simp [storage_credentials.is_shared_key, storage_credentials.is_sas,
        storage_credentials.account_name]

theorem string_split_no_sep (s : Str) (sep : Char) :
    ∀ e ∈ string_split s sep, sep ∉ e := by
  induction s with
  | nil => simp [string_split]
  | cons c cs ih =>
    intro e he
    simp only [string_split] at he
    by_cases h : c = sep
    · simp only [h, if_true, List.mem_cons] at he
      rcases he with h1 | h1
      · rw [h1]; simp
      · exact ih e h1
    · simp only [h, if_false] at he
      cases hs : string_split cs sep with
      | nil =>
        rw [hs] at he
        simp only [List.mem_singleton] at he
        rw [he]
        simp only [List.mem_singleton]
        exact fun e2 => h e2.symm
      | cons x xs =>
        rw [hs] at he ih
        simp only [List.mem_cons] at he
        rcases he with h1 | h1
        · rw [h1]
          simp only [List.mem_cons, not_or]
          exact ⟨fun e2 => h e2.symm, ih x (List.mem_cons_self _ _)⟩
        · exact ih e (List.mem_cons_of_mem _ h1)

theorem spec_key_subset (e : Str) (c : Char) (h : c ∈ spec_key e) : c ∈ e :=
  (List.takeWhile_sublist _).subset h

theorem spec_value_subset (e : Str) (c : Char) (h : c ∈ spec_value e) : c ∈ e :=
  (List.dropWhile_sublist _).subset ((List.drop_sublist 1 _).subset h)

theorem find_of_mem_sorted (m : settings_map) (hm : sorted_keys m) (e : Str × Str)
    (he : e ∈ m) : find m e.1 = some e.2 := by
  induction m with
  | nil => simp at he
  | cons x rest ih =>
    have hx := List.pairwise_cons.1 hm
    rcases List.mem_cons.1 he with h | h
    · rw [h]; simp [find]
    · have hne : ¬ x.1 = e.1 := by
        intro h2
        have h3 := hx.1 e h
        rw [h2, str_lt_irrefl] at h3
        exact Bool.noConfusion h3
      simp only [find, hne, if_false]
      exact ih hx.2 h

theorem parse_string_into_settings_no_empty_key (cs : Str) (m : settings_map)
    (h : parse_string_into_settings cs = .ok m) :
    ∀ e ∈ cs.splitOn ';', e.head? ≠ some '=' := by
  intro e he hh
  have h1 : parse_string_into_settings cs = .error .InvalidFormat :=
    parse_entries_invalid (string_split cs ';') []
      ⟨e, by rw [string_split_eq_splitOn]; exact he, hh⟩
  rw [h1] at h
  exact Except.noConfusion h

theorem parse_string_into_settings_entry (cs : Str) (m : settings_map)
    (h : parse_string_into_settings cs = .ok m) :
    ∀ e ∈ m, e.1 ≠ [] ∧ '=' ∉ e.1 ∧ ';' ∉ e.1 ∧ ';' ∉ e.2 := by
  have hne := parse_string_into_settings_no_empty_key cs m h
  obtain ⟨m2, hm2, _, hf⟩ := parse_string_into_settings_ok cs hne
  rw [h] at hm2
  simp only [Except.ok.injEq] at hm2
  subst hm2
  intro e he
  have hs := parse_string_into_settings_sorted cs m h
  have h1 := find_of_mem_sorted m hs e he
  rw [hf] at h1
  have h2 := find_some_mem _ _ _ h1
  obtain ⟨e0, he0, heq⟩ := List.mem_map.1 h2
  have hk : spec_key e0 = e.1 := congrArg Prod.fst heq
  have hv : spec_value e0 = e.2 := congrArg Prod.snd heq
  simp only [spec_entries, List.mem_filter] at he0
  have hsplit : e0 ∈ string_split cs ';' := by rw [string_split_eq_splitOn]; exact he0.1
  have hnosep := string_split_no_sep cs ';' e0 hsplit
  have he0ne : e0 ≠ [] := by
    intro h3
    rw [h3] at he0
    simp at he0
  refine ⟨?_, ?_, ?_, ?_⟩
  · rw [← hk]
    intro h3
    rcases (spec_key_eq_nil e0).1 h3 with h4 | h4
    · exact he0ne h4
    · exact hne e0 he0.1 h4
  · rw [← hk]
    exact (spec_key_value_split e0).1
  · rw [← hk]
    exact fun h3 => hnosep (spec_key_subset e0 _ h3)
  · rw [← hv]
    exact fun h3 => hnosep (spec_value_subset e0 _ h3)

theorem spec_key_value_of_entry (k v : Str) (h : '=' ∉ k) :
    spec_key (k ++ '=' :: v) = k ∧ spec_value (k ++ '=' :: v) = v := by
  induction k with
  | nil => simp [spec_key, spec_value, List.takeWhile_cons, List.dropWhile_cons]
  | cons c cs ih =>
    simp only [List.mem_cons, not_or] at h
    have hc : ¬ c = '=' := fun e => h.1 e.symm
    have ih2 := ih h.2
    simp only [spec_key, spec_value] at ih2
    simp [spec_key, spec_value, List.takeWhile_cons, List.dropWhile_cons, hc, ih2.1]
    simpa using ih2.2

theorem intercalate_append_single (l : List Str) (x : Str) (h : l ≠ []) :
    [';'].intercalate (l ++ [x]) = [';'].intercalate l ++ ';' :: x := by
  induction l with
  | nil => exact absurd rfl h
  | cons y ys ih =>
    cases ys with
    | nil => simp [List.intercalate, List.intersperse]
    | cons z zs =>
      have ih2 := ih (by simp)
      simp [List.intercalate, List.intersperse] at ih2 ⊢
      exact ih2

theorem find_append (l1 l2 : settings_map) (k : Str) :
    find (l1 ++ l2) k = match find l1 k with
      | some v => some v
      | none => find l2 k := by
  induction l1 with
  | nil => rfl
  | cons x rest ih =>
    by_cases h : x.1 = k
    · simp [find, h]
    · simp only [List.cons_append, find, h, if_false]
      exact ih

theorem spec_pairs_of_entries (l : settings_map)
    (h : ∀ e ∈ l, '=' ∉ e.1) :
    spec_pairs (l.map (fun e => e.1 ++ '=' :: e.2)) = l := by
  induction l with
  | nil => rfl
  | cons x rest ih =>
    have hx := spec_key_value_of_entry x.1 x.2 (h x (List.mem_cons_self _ _))
    have hne : ¬ (x.1 ++ '=' :: x.2) = [] := by simp
    rw [List.map_cons, spec_pairs_cons, if_neg hne, hx.1, hx.2,
      ih (fun e he => h e (List.mem_cons_of_mem _ he))]

theorem parse_string_into_settings_joined (l m : settings_map) (hl : l ≠ [])
    (hm : sorted_keys m)
    (hent : ∀ e ∈ l, e.1 ≠ [] ∧ '=' ∉ e.1 ∧ ';' ∉ e.1 ∧ ';' ∉ e.2)
    (hfind : ∀ k, find l k = find m k) :
    parse_string_into_settings ([';'].intercalate (l.map (fun e => e.1 ++ '=' :: e.2)))
      = .ok m := by
  have hsplit : string_split ([';'].intercalate (l.map (fun e => e.1 ++ '=' :: e.2))) ';'
      = l.map (fun e => e.1 ++ '=' :: e.2) := by
    rw [string_split_eq_splitOn]
    apply List.splitOn_intercalate
    · intro s hs
      obtain ⟨e, he, heq⟩ := List.mem_map.1 hs
      rw [← heq]
      have h1 := hent e he
      simp only [List.mem_append, List.mem_cons, not_or]
      exact ⟨h1.2.2.1, by decide, h1.2.2.2⟩
    · simpa using hl
  have hhead : ∀ s ∈ l.map (fun e => e.1 ++ '=' :: e.2), s.head? ≠ some '=' := by
    intro s hs
    obtain ⟨e, he, heq⟩ := List.mem_map.1 hs
    rw [← heq]
    have h1 := hent e he
    cases hk : e.1 with
    | nil => exact absurd hk h1.1
    | cons c cs =>
      have h2 := h1.2.1
      rw [hk] at h2
      simp only [List.mem_cons, not_or] at h2
      simp only [List.cons_append, List.head?_cons, ne_eq, Option.some.injEq]
      exact fun e2 => h2.1 e2.symm
  obtain ⟨r, hr, hs, hf⟩ := parse_entries_ok _ [] hhead (by simp [sorted_keys])
  rw [parse_string_into_settings, hsplit, hr]
  congr 1
  apply sorted_keys_ext r m hs hm
  intro k
  rw [hf k, spec_pairs_of_entries l (fun e he => (hent e he).2.1)]
  exact hfind k

theorem construct_default_endpoint_eq (L : uri_lib) (p a pre s : Str) :
    construct_default_endpoint L p a pre s =
      if (spec_defaults_texts [] p a pre s).all L.well_formed = true then
        .ok (spec_defaults_pair [] p a pre s)
      else .error .UriError := by
  simp only [construct_default_endpoint, uri_from_text, spec_defaults_texts, spec_defaults_pair,
    secondary_location_account_suffix, if_true, List.all_cons, List.all_nil, Bool.and_true]
  cases h1 : L.well_formed (p ++ "://".toList ++ a ++ ['.'] ++ pre ++ ['.'] ++ s) <;>
    cases h2 : L.well_formed
      (p ++ "://".toList ++ a ++ "-secondary".toList ++ ['.'] ++ pre ++ ['.'] ++ s) <;>
    simp

theorem defaults_endpoint_eq (L : uri_lib) (o p a pre s : Str) :
    defaults_endpoint L o p a pre s =
      if (spec_defaults_texts o p a pre s).all L.well_formed = true then
        .ok (spec_defaults_pair o p a pre s)
      else .error .UriError := by
  cases o with
  | nil =>
    simp only [defaults_endpoint, List.isEmpty_nil, if_true]
    exact construct_default_endpoint_eq L p a pre s
  | cons c cs =>
    simp only [defaults_endpoint, uri_from_text, spec_defaults_texts, spec_defaults_pair,
      List.isEmpty_cons, Bool.false_eq_true, if_false, List.all_cons, List.all_nil,
      Bool.and_true]
    cases h1 : L.well_formed (c :: cs) <;> simp [Except.map, h1, storage_uri.of_primary]

theorem explicit_endpoint_eq (L : uri_lib) (o : Str) :
    explicit_endpoint L o =
      if (o.isEmpty || L.well_formed o) = true then .ok (spec_explicit_value_pair o)
      else .error .UriError := by
  cases o with
  | nil => simp [explicit_endpoint, spec_explicit_value_pair, storage_uri.default]
  | cons c cs =>
    simp only [explicit_endpoint, uri_from_text, spec_explicit_value_pair,
      List.isEmpty_cons, Bool.false_eq_true, if_false, Bool.false_or]
    cases h1 : L.well_formed (c :: cs) <;> simp [Except.map, h1, storage_uri.of_primary]

theorem spec_explicit_uri_texts_all (L : uri_lib) (m : settings_map) :
    (spec_explicit_uri_texts m).all L.well_formed =
      (((setting_value m blob_endpoint_setting_string).isEmpty
          || L.well_formed (setting_value m blob_endpoint_setting_string))
        && ((setting_value m queue_endpoint_setting_string).isEmpty
          || L.well_formed (setting_value m queue_endpoint_setting_string))
        && ((setting_value m table_endpoint_setting_string).isEmpty
          || L.well_formed (setting_value m table_endpoint_setting_string))) := by
  simp only [spec_explicit_uri_texts]
  cases hb : (setting_value m blob_endpoint_setting_string).isEmpty <;>
    cases hq : (setting_value m queue_endpoint_setting_string).isEmpty <;>
    cases ht : (setting_value m table_endpoint_setting_string).isEmpty <;>
    simp [List.filter_cons, hb, hq, ht, Bool.and_assoc]

theorem parse_explicit_settings_eq (L : uri_lib) (m : settings_map) (hm : sorted_keys m) :
    parse_explicit_settings L m =
      if (without_keys m explicit_setting_names).isEmpty
          && (!(setting_value m blob_endpoint_setting_string).isEmpty
            || !(setting_value m queue_endpoint_setting_string).isEmpty
            || !(setting_value m table_endpoint_setting_string).isEmpty) then
        if (spec_explicit_uri_texts m).all L.well_formed = true then
          .ok (spec_explicit_account m)
        else .error .UriError
      else .ok cloud_storage_account.default := by
  have s1 : (get_setting m blob_endpoint_setting_string []).settings
      = without_keys m [blob_endpoint_setting_string] := by
    have h := get_setting_without_keys m [] blob_endpoint_setting_string [] hm
    rwa [without_keys_nil] at h
  have v1 : (get_setting m blob_endpoint_setting_string []).value
      = setting_value m blob_endpoint_setting_string := get_setting_value m _
  have s2 := get_setting_without_keys m [blob_endpoint_setting_string]
    queue_endpoint_setting_string [] hm
  have v2 := get_setting_value_without m [blob_endpoint_setting_string]
    queue_endpoint_setting_string (by decide)
  have s3 := get_setting_without_keys m
    [queue_endpoint_setting_string, blob_endpoint_setting_string]
    table_endpoint_setting_string [] hm
  have v3 := get_setting_value_without m
    [queue_endpoint_setting_string, blob_endpoint_setting_string]
    table_endpoint_setting_string (by decide)
  have c1 := get_credentials_fst_without m
    [table_endpoint_setting_string, queue_endpoint_setting_string, blob_endpoint_setting_string]
    (by decide) (by decide) (by decide)
  have c2 : (get_credentials (without_keys m [table_endpoint_setting_string,
      queue_endpoint_setting_string, blob_endpoint_setting_string])).2
      = without_keys m explicit_setting_names := by
    rw [get_credentials_snd _ (sorted_keys_without_keys m _ hm), without_keys_without_keys]
    apply without_keys_perm
    intro k
    simp only [explicit_setting_names, credential_setting_names, List.mem_append, List.mem_cons,
      List.mem_singleton, List.not_mem_nil, or_false]
    tauto
  simp only [parse_explicit_settings, s1, v1, s2, v2, s3, v3, c1, c2, explicit_endpoint_eq,
    spec_explicit_uri_texts_all]
  by_cases hc : ((without_keys m explicit_setting_names).isEmpty
      && (!(setting_value m blob_endpoint_setting_string).isEmpty
        || !(setting_value m queue_endpoint_setting_string).isEmpty
        || !(setting_value m table_endpoint_setting_string).isEmpty)) = true
  · rw [if_pos hc, if_pos hc]
    cases ((setting_value m blob_endpoint_setting_string).isEmpty
          || L.well_formed (setting_value m blob_endpoint_setting_string)) <;>
      cases ((setting_value m queue_endpoint_setting_string).isEmpty
          || L.well_formed (setting_value m queue_endpoint_setting_string)) <;>
      cases ((setting_value m table_endpoint_setting_string).isEmpty
          || L.well_formed (setting_value m table_endpoint_setting_string)) <;>
      rfl
  · rw [if_neg hc, if_neg hc]

theorem parse_defaults_settings_eq (L : uri_lib) (m : settings_map) (hm : sorted_keys m) :
    parse_defaults_settings L m =
      if (find m default_endpoints_protocol_setting_string).isSome
          && (find m account_name_setting_string).isSome
          && (find m account_key_setting_string).isSome
          && (without_keys m defaults_setting_names).isEmpty then
        if (spec_defaults_uri_texts m).all L.well_formed = true then
          .ok (spec_defaults_account m)
        else .error .UriError
      else .ok cloud_storage_account.default := by
  have s1 : (get_setting m default_endpoints_protocol_setting_string []).settings
      = without_keys m [default_endpoints_protocol_setting_string] := by
    have h := get_setting_without_keys m [] default_endpoints_protocol_setting_string [] hm
    rwa [without_keys_nil] at h
  have f1 := get_setting_found m default_endpoints_protocol_setting_string []
  have v1 := get_setting_value m default_endpoints_protocol_setting_string
  have s2 := get_setting_without_keys m [default_endpoints_protocol_setting_string]
    account_name_setting_string [] hm
  have f2 := get_setting_found_without m [default_endpoints_protocol_setting_string]
    account_name_setting_string [] (by decide)
  have v2 := get_setting_value_without m [default_endpoints_protocol_setting_string]
    account_name_setting_string (by decide)
  have s3 := get_setting_without_keys m
    [account_name_setting_string, default_endpoints_protocol_setting_string]
    account_key_setting_string [] hm
  have f3 := get_setting_found_without m
    [account_name_setting_string, default_endpoints_protocol_setting_string]
    account_key_setting_string [] (by decide)
  have v3 := get_setting_value_without m
    [account_name_setting_string, default_endpoints_protocol_setting_string]
    account_key_setting_string (by decide)
  have s4 := get_setting_without_keys m
    [account_key_setting_string, account_name_setting_string,
      default_endpoints_protocol_setting_string]
    endpoint_suffix_setting_string [] hm
  have f4 := get_setting_found_without m
    [account_key_setting_string, account_name_setting_string,
      default_endpoints_protocol_setting_string]
    endpoint_suffix_setting_string [] (by decide)
  have v4 := get_setting_value_without m
    [account_key_setting_string, account_name_setting_string,
      default_endpoints_protocol_setting_string]
    endpoint_suffix_setting_string (by decide)
  have s5 := get_setting_without_keys m
    [endpoint_suffix_setting_string, account_key_setting_string, account_name_setting_string,
      default_endpoints_protocol_setting_string]
    blob_endpoint_setting_string [] hm
  have v5 := get_setting_value_without m
    [endpoint_suffix_setting_string, account_key_setting_string, account_name_setting_string,
      default_endpoints_protocol_setting_string]
    blob_endpoint_setting_string (by decide)
  have s6 := get_setting_without_keys m
    [blob_endpoint_setting_string, endpoint_suffix_setting_string, account_key_setting_string,
      account_name_setting_string, default_endpoints_protocol_setting_string]
    queue_endpoint_setting_string [] hm
  have v6 := get_setting_value_without m
    [blob_endpoint_setting_string, endpoint_suffix_setting_string, account_key_setting_string,
      account_name_setting_string, default_endpoints_protocol_setting_string]
    queue_endpoint_setting_string (by decide)
  have s7 := get_setting_without_keys m
    [queue_endpoint_setting_string, blob_endpoint_setting_string,
      endpoint_suffix_setting_string, account_key_setting_string,
      account_name_setting_string, default_endpoints_protocol_setting_string]
    table_endpoint_setting_string [] hm
  have v7 := get_setting_value_without m
    [queue_endpoint_setting_string, blob_endpoint_setting_string,
      endpoint_suffix_setting_string, account_key_setting_string,
      account_name_setting_string, default_endpoints_protocol_setting_string]
    table_endpoint_setting_string (by decide)
  have hp : without_keys m [table_endpoint_setting_string, queue_endpoint_setting_string,
      blob_endpoint_setting_string, endpoint_suffix_setting_string, account_key_setting_string,
      account_name_setting_string, default_endpoints_protocol_setting_string]
      = without_keys m defaults_setting_names := by
    apply without_keys_perm
    intro k
    simp only [defaults_setting_names, List.mem_cons, List.mem_singleton, List.not_mem_nil,
      or_false]
    tauto
  have hsuf : (if (!(find m endpoint_suffix_setting_string).isSome) = true
      then default_endpoint_suffix else setting_value m endpoint_suffix_setting_string)
      = spec_defaults_suffix m := by
    unfold spec_defaults_suffix setting_value
    cases find m endpoint_suffix_setting_string <;> rfl
  simp only [parse_defaults_settings, s1, f1, v1, s2, f2, v2, s3, f3, v3, s4, f4, v4, s5, v5,
    s6, v6, s7, v7, hp, hsuf, defaults_endpoint_eq, default_blob_hostname_prefix,
    default_queue_hostname_prefix, default_table_hostname_prefix, spec_defaults_uri_texts,
    List.all_append]
  cases (find m default_endpoints_protocol_setting_string).isSome <;>
    cases (find m account_name_setting_string).isSome <;>
    cases (find m account_key_setting_string).isSome <;>
    cases (without_keys m defaults_setting_names).isEmpty <;>
    try rfl
  cases (spec_defaults_texts (setting_value m blob_endpoint_setting_string)
      (setting_value m default_endpoints_protocol_setting_string)
      (setting_value m account_name_setting_string) "blob".toList
      (spec_defaults_suffix m)).all L.well_formed <;>
    cases (spec_defaults_texts (setting_value m queue_endpoint_setting_string)
      (setting_value m default_endpoints_protocol_setting_string)
      (setting_value m account_name_setting_string) "queue".toList
      (spec_defaults_suffix m)).all L.well_formed <;>
    cases (spec_defaults_texts (setting_value m table_endpoint_setting_string)
      (setting_value m default_endpoints_protocol_setting_string)
      (setting_value m account_name_setting_string) "table".toList
      (spec_defaults_suffix m)).all L.well_formed <;>
    rfl

theorem parse_devstore_settings_bad_value (L : uri_lib) (m : settings_map) (v : Str)
    (hv : find m use_development_storage_setting_string = some v)
    (hne : v ≠ use_development_storage_setting_value) :
    parse_devstore_settings L m = .error .InvalidArgument := by
  simp [parse_devstore_settings, get_setting, hv, hne]

theorem parse_devstore_settings_absent (L : uri_lib) (m : settings_map)
    (hv : find m use_development_storage_setting_string = none) :
    parse_devstore_settings L m = .ok cloud_storage_account.default := by
  simp [parse_devstore_settings, get_setting, hv]

theorem parse_devstore_settings_leftover_eq (L : uri_lib) (m : settings_map) (k v : Str)
    (hk : find m k = some v)
    (h1 : k ≠ use_development_storage_setting_string)
    (h2 : k ≠ development_storage_proxy_uri_setting_string) :
    parse_devstore_settings L m =
      match find m use_development_storage_setting_string with
      | none => .ok cloud_storage_account.default
      | some u =>
        if u ≠ use_development_storage_setting_value then .error .InvalidArgument
        else
          match find m development_storage_proxy_uri_setting_string with
          | none => .ok cloud_storage_account.default
          | some t =>
            if L.well_formed t = true then .ok cloud_storage_account.default
            else .error .UriError := by
  have h3 : (get_setting (get_setting m use_development_storage_setting_string []).settings
      development_storage_proxy_uri_setting_string []).settings.isEmpty = false := by
    apply isEmpty_eq_false_of_find _ k v
    rw [get_setting_find_ne _ _ _ h2, get_setting_find_ne _ _ _ h1, hk]
  have hn : development_storage_proxy_uri_setting_string
      ≠ use_development_storage_setting_string := by decide
  have hf2 : (get_setting (get_setting m use_development_storage_setting_string []).settings
      development_storage_proxy_uri_setting_string []).found
      = (find m development_storage_proxy_uri_setting_string).isSome := by
    rw [get_setting_found, get_setting_find_ne _ _ _ hn]
  have hv2 : (get_setting (get_setting m use_development_storage_setting_string []).settings
      development_storage_proxy_uri_setting_string []).value
      = setting_value m development_storage_proxy_uri_setting_string := by
    rw [get_setting_value, get_setting_value_ne _ _ _ hn]
  simp only [parse_devstore_settings, h3, hf2, hv2, Bool.false_eq_true, if_false,
    get_setting_found, get_setting_value, uri_from_text]
  cases hu : find m use_development_storage_setting_string with
  | none => simp
  | some u =>
    by_cases hne : u = use_development_storage_setting_value
    · cases ht : find m development_storage_proxy_uri_setting_string with
      | none => simp [setting_value, hu, hne]
      | some t =>
        cases hw : L.well_formed t <;> simp [setting_value, hu, hne, ht, hw]
    · simp [setting_value, hu, hne]

theorem parse_devstore_settings_leftover (L : uri_lib) (m : settings_map) (k v : Str)
    (hk : find m k = some v)
    (h1 : k ≠ use_development_storage_setting_string)
    (h2 : k ≠ development_storage_proxy_uri_setting_string) :
    parse_devstore_settings L m = .error .InvalidArgument ∨
      parse_devstore_settings L m = .error .UriError ∨
      parse_devstore_settings L m = .ok cloud_storage_account.default := by
  rw [parse_devstore_settings_leftover_eq L m k v hk h1 h2]
  cases find m use_development_storage_setting_string with
  | none => exact Or.inr (Or.inr rfl)
  | some u =>
    by_cases hne : u = use_development_storage_setting_value
    · cases find m development_storage_proxy_uri_setting_string with
      | none => simp [hne]
      | some t => cases hw : L.well_formed t <;> simp [hne, hw]
    · simp [hne]

theorem parse_defaults_settings_leftover (L : uri_lib) (m : settings_map) (k v : Str)
    (hk : find m k = some v)
    (h1 : k ≠ default_endpoints_protocol_setting_string)
    (h2 : k ≠ account_name_setting_string)
    (h3 : k ≠ account_key_setting_string)
    (h4 : k ≠ endpoint_suffix_setting_string)
    (h5 : k ≠ blob_endpoint_setting_string)
    (h6 : k ≠ queue_endpoint_setting_string)
    (h7 : k ≠ table_endpoint_setting_string) :
    parse_defaults_settings L m = .ok cloud_storage_account.default := by
  have h8 : (get_setting (get_setting (get_setting (get_setting (get_setting (get_setting
      (get_setting m default_endpoints_protocol_setting_string []).settings
      account_name_setting_string []).settings
      account_key_setting_string []).settings
      endpoint_suffix_setting_string []).settings
      blob_endpoint_setting_string []).settings
      queue_endpoint_setting_string []).settings
      table_endpoint_setting_string []).settings.isEmpty = false := by
    apply isEmpty_eq_false_of_find _ k v
    rw [get_setting_find_ne _ _ _ h7, get_setting_find_ne _ _ _ h6, get_setting_find_ne _ _ _ h5,
      get_setting_find_ne _ _ _ h4, get_setting_find_ne _ _ _ h3, get_setting_find_ne _ _ _ h2,
      get_setting_find_ne _ _ _ h1, hk]
  simp only [parse_defaults_settings, h8, Bool.false_eq_true, if_false, ite_self]

theorem parse_defaults_settings_absent (L : uri_lib) (m : settings_map)
    (hv : find m default_endpoints_protocol_setting_string = none) :
    parse_defaults_settings L m = .ok cloud_storage_account.default := by
  simp [parse_defaults_settings, get_setting, hv]

theorem parse_explicit_settings_leftover (L : uri_lib) (m : settings_map) (k v : Str)
    (hk : find m k = some v)
    (h1 : k ≠ blob_endpoint_setting_string)
    (h2 : k ≠ queue_endpoint_setting_string)
    (h3 : k ≠ table_endpoint_setting_string)
    (h4 : k ≠ account_name_setting_string)
    (h5 : k ≠ account_key_setting_string)
    (h6 : k ≠ shared_access_signature_setting_string) :
    parse_explicit_settings L m = .ok cloud_storage_account.default := by
  have h8 : (get_credentials (get_setting (get_setting
      (get_setting m blob_endpoint_setting_string []).settings
      queue_endpoint_setting_string []).settings
      table_endpoint_setting_string []).settings).2.isEmpty = false := by
    apply isEmpty_eq_false_of_find _ k v
    rw [get_credentials_find _ _ h4 h5 h6, get_setting_find_ne _ _ _ h3,
      get_setting_find_ne _ _ _ h2, get_setting_find_ne _ _ _ h1, hk]
  simp only [parse_explicit_settings, h8, Bool.false_and, Bool.false_eq_true, if_false]

theorem parse_settings_uninitialized (L : uri_lib) (m : settings_map)
    (a1 a2 a3 : cloud_storage_account)
    (h1 : parse_devstore_settings L m = .ok a1) (h1i : a1.is_initialized = false)
    (h2 : parse_defaults_settings L m = .ok a2) (h2i : a2.is_initialized = false)
    (h3 : parse_explicit_settings L m = .ok a3) (h3i : a3.is_initialized = false) :
    parse_settings L m = .error .InvalidArgument := by
  simp [parse_settings, h1, h1i, h2, h2i, h3, h3i]

theorem parse_devstore_settings_initialized (L : uri_lib) (m : settings_map)
    (a : cloud_storage_account) (h : parse_devstore_settings L m = .ok a)
    (hi : a.is_initialized = true) :
    ∃ v, find m use_development_storage_setting_string = some v := by
  cases hf : find m use_development_storage_setting_string with
  | some v => exact ⟨v, rfl⟩
  | none =>
    rw [parse_devstore_settings_absent L m hf] at h
    simp only [Except.ok.injEq] at h
    rw [← h] at hi
    exact absurd hi (by decide)

theorem parse_settings_m_settings (L : uri_lib) (m : settings_map) (acc : cloud_storage_account)
    (h : parse_settings L m = .ok acc) : acc.m_settings = (get_credentials m).2 := by
  simp only [parse_settings] at h
  cases hd : parse_devstore_settings L m with
  | error e => simp [hd] at h
  | ok a =>
    simp only [hd] at h
    by_cases c1 : a.is_initialized = true
    · rw [if_pos c1] at h
      simp only [Except.ok.injEq] at h; rw [← h]
    · rw [if_neg c1] at h
      cases hd2 : parse_defaults_settings L m with
      | error e => simp [hd2] at h
      | ok a2 =>
        simp only [hd2] at h
        by_cases c2 : a2.is_initialized = true
        · rw [if_pos c2] at h
          simp only [Except.ok.injEq] at h; rw [← h]
        · rw [if_neg c2] at h
          cases hd3 : parse_explicit_settings L m with
          | error e => simp [hd3] at h
          | ok a3 =>
            simp only [hd3] at h
            by_cases c3 : a3.is_initialized = true
            · rw [if_pos c3] at h
              simp only [Except.ok.injEq] at h; rw [← h]
            · rw [if_neg c3] at h
              exact Except.noConfusion h

theorem get_development_storage_account_empty (L : uri_lib) :
    get_development_storage_account L .empty =
      { m_initialized := true
        m_is_development_storage_account := true
        m_default_endpoints := false
        m_credentials := .shared_key devstore_account_name devstore_account_key
        m_blob_endpoint := ⟨.of_text "http://127.0.0.1:10000/devstoreaccount1".toList,
          .of_text "http://127.0.0.1:10000/devstoreaccount1-secondary".toList⟩
        m_queue_endpoint := ⟨.of_text "http://127.0.0.1:10001/devstoreaccount1".toList,
          .of_text "http://127.0.0.1:10001/devstoreaccount1-secondary".toList⟩
        m_table_endpoint := ⟨.of_text "http://127.0.0.1:10002/devstoreaccount1".toList,
          .of_text "http://127.0.0.1:10002/devstoreaccount1-secondary".toList⟩
        m_endpoint_suffix := []
        m_settings :=
          [(use_development_storage_setting_string, use_development_storage_setting_value)] } := by
  have hc : storage_credentials.of_account_key devstore_account_name devstore_account_key =
      .shared_key devstore_account_name devstore_account_key := rfl
  simp [get_development_storage_account, uri.is_empty, uri_builder.to_uri,
    cloud_storage_account.of_endpoints, hc, devstore_account_name,
    secondary_location_account_suffix, insert]
  repeat' constructor

theorem parse_settings_devstore_only (L : uri_lib) :
    parse_settings L
      [(use_development_storage_setting_string, use_development_storage_setting_value)] =
    .ok { get_development_storage_account L .empty with
      m_settings :=
        [(use_development_storage_setting_string, use_development_storage_setting_value)] } := by
  have h : parse_devstore_settings L
      [(use_development_storage_setting_string, use_development_storage_setting_value)] =
      .ok (get_development_storage_account L .empty) := by
    simp [parse_devstore_settings, get_setting, find, erase]
  have h2 : (get_credentials
      [(use_development_storage_setting_string, use_development_storage_setting_value)]).2 =
      [(use_development_storage_setting_string, use_development_storage_setting_value)] := by
    decide
  simp only [parse_settings, h, h2, get_development_storage_account_empty]
  rfl

theorem parse_defaults_settings_accepts (L : uri_lib) (m : settings_map) (hm : sorted_keys m)
    (a : cloud_storage_account) (h : parse_defaults_settings L m = .ok a)
    (hi : a.is_initialized = true) :
    a = spec_defaults_account m ∧
      (∃ p, find m default_endpoints_protocol_setting_string = some p) ∧
      (∃ a, find m account_name_setting_string = some a) ∧
      (∃ k, find m account_key_setting_string = some k) ∧
      (∀ e ∈ m, e.1 ∈ defaults_setting_names) ∧
      (spec_defaults_uri_texts m).all L.well_formed = true := by
  rw [parse_defaults_settings_eq L m hm] at h
  by_cases hc : ((find m default_endpoints_protocol_setting_string).isSome
      && (find m account_name_setting_string).isSome
      && (find m account_key_setting_string).isSome
      && (without_keys m defaults_setting_names).isEmpty) = true
  · rw [if_pos hc] at h
    by_cases hw : (spec_defaults_uri_texts m).all L.well_formed = true
    · rw [if_pos hw] at h
      simp only [Except.ok.injEq] at h
      simp only [Bool.and_eq_true, Option.isSome_iff_exists, without_keys_isEmpty] at hc
      exact ⟨h.symm, hc.1.1.1, hc.1.1.2, hc.1.2, hc.2, hw⟩
    · rw [if_neg hw] at h
      exact Except.noConfusion h
  · rw [if_neg hc] at h
    simp only [Except.ok.injEq] at h
    rw [← h] at hi
    exact absurd hi (by decide)

theorem parse_devstore_settings_declines (L : uri_lib) (m : settings_map)
    (a : cloud_storage_account) (h : parse_defaults_settings L m = .ok a)
    (hi : a.is_initialized = true) :
    parse_devstore_settings L m = .ok cloud_storage_account.default := by
  cases hf : find m use_development_storage_setting_string with
  | none => exact parse_devstore_settings_absent L m hf
  | some v =>
    rw [parse_defaults_settings_leftover L m _ v hf (by decide) (by decide) (by decide)
      (by decide) (by decide) (by decide) (by decide)] at h
    simp only [Except.ok.injEq] at h
    rw [← h] at hi
    exact absurd hi (by decide)

theorem parse_settings_of_defaults (L : uri_lib) (m : settings_map) (hm : sorted_keys m)
    (a : cloud_storage_account) (h : parse_defaults_settings L m = .ok a)
    (hi : a.is_initialized = true) :
    parse_settings L m = .ok
      { spec_defaults_account m with m_settings := without_keys m credential_setting_names } := by
  have hd := parse_devstore_settings_declines L m a h hi
  have he := (parse_defaults_settings_accepts L m hm a h hi).1
  have hi0 : cloud_storage_account.default.is_initialized = false := rfl
  subst he
  simp only [parse_settings, hd, hi0, Bool.false_eq_true, if_false,
    get_credentials_snd m hm, h, hi, if_true]

theorem parse_of_defaults (L : uri_lib) (cs : Str) (m : settings_map)
    (hp : parse_string_into_settings cs = .ok m)
    (a : cloud_storage_account) (h : parse_defaults_settings L m = .ok a)
    (hi : a.is_initialized = true) :
    parse L cs = .ok
      { spec_defaults_account m with m_settings := without_keys m credential_setting_names } := by
  simp only [parse, hp]
  exact parse_settings_of_defaults L m (parse_string_into_settings_sorted cs m hp) a h hi

theorem isEmpty_eq_false_of_ne_nil (v : Str) (hv : v ≠ []) : v.isEmpty = false := by
  cases v with
  | nil => exact absurd rfl hv
  | cons _ _ => rfl

theorem of_account_key_of_ne_nil (n k : Str) (hn : n ≠ []) (hk : k ≠ []) :
    storage_credentials.of_account_key n k = .shared_key n k := by
  simp [storage_credentials.of_account_key, isEmpty_eq_false_of_ne_nil n hn,
    isEmpty_eq_false_of_ne_nil k hk]

theorem of_account_key_same (n k1 k2 : Str) (h : k1.isEmpty = k2.isEmpty) :
    (storage_credentials.of_account_key n k1).is_shared_key
        = (storage_credentials.of_account_key n k2).is_shared_key ∧
      (storage_credentials.of_account_key n k1).is_sas
        = (storage_credentials.of_account_key n k2).is_sas ∧
      (storage_credentials.of_account_key n k1).account_name
        = (storage_credentials.of_account_key n k2).account_name := by
  simp only [storage_credentials.of_account_key, h]
  cases n.isEmpty <;> cases k2.isEmpty <;>
    simp [storage_credentials.is_shared_key, storage_credentials.is_sas,
      storage_credentials.account_name]

theorem parse_defaults_settings_same (L : uri_lib) (m1 m2 : settings_map) (secret : Str)
    (hs1 : sorted_keys m1) (hs2 : sorted_keys m2)
    (hsec : secret = account_key_setting_string
      ∨ secret = shared_access_signature_setting_string)
    (hag : ∀ k, k ≠ secret → find m1 k = find m2 k)
    (hv1 : setting_value m1 secret ≠ []) (hv2 : setting_value m2 secret ≠ []) :
    (∃ e, parse_defaults_settings L m1 = .error e ∧ parse_defaults_settings L m2 = .error e) ∨
      (∃ a b, parse_defaults_settings L m1 = .ok a ∧ parse_defaults_settings L m2 = .ok b ∧
        same_up_to_secret a b) := by
  obtain ⟨v1, hf1, _⟩ := find_of_setting_value_ne_nil m1 secret hv1
  obtain ⟨v2, hf2, _⟩ := find_of_setting_value_ne_nil m2 secret hv2
  have hsome : ∀ k, (find m1 k).isSome = (find m2 k).isSome := by
    intro k
    by_cases hk : k = secret
    · rw [hk, hf1, hf2]; rfl
    · rw [hag k hk]
  have hsv : ∀ k, k ≠ secret → setting_value m1 k = setting_value m2 k := by
    intro k hk
    unfold setting_value
    rw [hag k hk]
  have n1 : default_endpoints_protocol_setting_string ≠ secret := by
    rcases hsec with h | h <;> rw [h] <;> decide
  have n2 : account_name_setting_string ≠ secret := by
    rcases hsec with h | h <;> rw [h] <;> decide
  have n3 : endpoint_suffix_setting_string ≠ secret := by
    rcases hsec with h | h <;> rw [h] <;> decide
  have n4 : blob_endpoint_setting_string ≠ secret := by
    rcases hsec with h | h <;> rw [h] <;> decide
  have n5 : queue_endpoint_setting_string ≠ secret := by
    rcases hsec with h | h <;> rw [h] <;> decide
  have n6 : table_endpoint_setting_string ≠ secret := by
    rcases hsec with h | h <;> rw [h] <;> decide
  have hsuf : spec_defaults_suffix m1 = spec_defaults_suffix m2 := by
    unfold spec_defaults_suffix
    rw [hag _ n3]
  have htx : spec_defaults_uri_texts m1 = spec_defaults_uri_texts m2 := by
    simp only [spec_defaults_uri_texts, hsv _ n1, hsv _ n2, hsv _ n4, hsv _ n5, hsv _ n6, hsuf]
  have hke : (setting_value m1 account_key_setting_string).isEmpty
      = (setting_value m2 account_key_setting_string).isEmpty := by
    rcases hsec with h | h
    · subst h
      rw [isEmpty_eq_false_of_ne_nil _ hv1, isEmpty_eq_false_of_ne_nil _ hv2]
    · subst h
      rw [hsv account_key_setting_string (by decide)]
  rw [parse_defaults_settings_eq L m1 hs1, parse_defaults_settings_eq L m2 hs2,
    hsome default_endpoints_protocol_setting_string, hsome account_name_setting_string,
    hsome account_key_setting_string,
    without_keys_isEmpty_congr m1 m2 defaults_setting_names hsome, htx]
  by_cases hcond : ((find m2 default_endpoints_protocol_setting_string).isSome
      && (find m2 account_name_setting_string).isSome
      && (find m2 account_key_setting_string).isSome
      && (without_keys m2 defaults_setting_names).isEmpty) = true
  · rw [if_pos hcond, if_pos hcond]
    by_cases hw : (spec_defaults_uri_texts m2).all L.well_formed = true
    · rw [if_pos hw, if_pos hw]
      refine Or.inr ⟨_, _, rfl, rfl, ?_⟩
      have hc := of_account_key_same (setting_value m2 account_name_setting_string) _ _ hke
      simp only [same_up_to_secret, spec_defaults_account, hsv _ n1, hsv _ n2, hsv _ n4,
        hsv _ n5, hsv _ n6, hsuf, hc.1, hc.2.1, hc.2.2, and_self]
    · rw [if_neg hw, if_neg hw]
      exact Or.inl ⟨_, rfl, rfl⟩
  · rw [if_neg hcond, if_neg hcond]
    exact Or.inr ⟨_, _, rfl, rfl, same_up_to_secret_refl _⟩

theorem parse_explicit_settings_same (L : uri_lib) (m1 m2 : settings_map) (secret : Str)
    (hs1 : sorted_keys m1) (hs2 : sorted_keys m2)
    (hsec : secret = account_key_setting_string
      ∨ secret = shared_access_signature_setting_string)
    (hag : ∀ k, k ≠ secret → find m1 k = find m2 k)
    (hv1 : setting_value m1 secret ≠ []) (hv2 : setting_value m2 secret ≠ []) :
    (∃ e, parse_explicit_settings L m1 = .error e ∧ parse_explicit_settings L m2 = .error e) ∨
      (∃ a b, parse_explicit_settings L m1 = .ok a ∧ parse_explicit_settings L m2 = .ok b ∧
        same_up_to_secret a b) := by
  obtain ⟨v1, hf1, _⟩ := find_of_setting_value_ne_nil m1 secret hv1
  obtain ⟨v2, hf2, _⟩ := find_of_setting_value_ne_nil m2 secret hv2
  have hsome : ∀ k, (find m1 k).isSome = (find m2 k).isSome := by
    intro k
    by_cases hk : k = secret
    · rw [hk, hf1, hf2]; rfl
    · rw [hag k hk]
  have hsv : ∀ k, k ≠ secret → setting_value m1 k = setting_value m2 k := by
    intro k hk
    unfold setting_value
    rw [hag k hk]
  have n4 : blob_endpoint_setting_string ≠ secret := by
    rcases hsec with h | h <;> rw [h] <;> decide
  have n5 : queue_endpoint_setting_string ≠ secret := by
    rcases hsec with h | h <;> rw [h] <;> decide
  have n6 : table_endpoint_setting_string ≠ secret := by
    rcases hsec with h | h <;> rw [h] <;> decide
  have hc := get_credentials_same m1 m2 secret hsec hag hv1 hv2
  have htx : spec_explicit_uri_texts m1 = spec_explicit_uri_texts m2 := by
    simp only [spec_explicit_uri_texts, hsv _ n4, hsv _ n5, hsv _ n6]
  rw [parse_explicit_settings_eq L m1 hs1, parse_explicit_settings_eq L m2 hs2,
    hsv _ n4, hsv _ n5, hsv _ n6, htx,
    without_keys_isEmpty_congr m1 m2 explicit_setting_names hsome]
  by_cases hcond : ((without_keys m2 explicit_setting_names).isEmpty
      && (!(setting_value m2 blob_endpoint_setting_string).isEmpty
        || !(setting_value m2 queue_endpoint_setting_string).isEmpty
        || !(setting_value m2 table_endpoint_setting_string).isEmpty)) = true
  · rw [if_pos hcond, if_pos hcond]
    by_cases hw : (spec_explicit_uri_texts m2).all L.well_formed = true
    · rw [if_pos hw, if_pos hw]
      refine Or.inr ⟨_, _, rfl, rfl, ?_⟩
      simp only [same_up_to_secret, spec_explicit_account, hsv _ n4, hsv _ n5, hsv _ n6,
        hc.1, hc.2.1, hc.2.2, and_self]
    · rw [if_neg hw, if_neg hw]
      exact Or.inl ⟨_, rfl, rfl⟩
  · rw [if_neg hcond, if_neg hcond]
    exact Or.inr ⟨_, _, rfl, rfl, same_up_to_secret_refl _⟩

theorem parse_settings_same (L : uri_lib) (m1 m2 : settings_map) (secret : Str)
    (a1 a2 : cloud_storage_account)
    (hs1 : sorted_keys m1) (hs2 : sorted_keys m2)
    (hsec : secret = account_key_setting_string
      ∨ secret = shared_access_signature_setting_string)
    (hag : ∀ k, k ≠ secret → find m1 k = find m2 k)
    (hv1 : setting_value m1 secret ≠ []) (hv2 : setting_value m2 secret ≠ [])
    (h1 : parse_settings L m1 = .ok a1) (h2 : parse_settings L m2 = .ok a2) :
    same_up_to_secret a1 a2 := by
  obtain ⟨v1, hf1, _⟩ := find_of_setting_value_ne_nil m1 secret hv1
  obtain ⟨v2, hf2, _⟩ := find_of_setting_value_ne_nil m2 secret hv2
  have k1 : secret ≠ use_development_storage_setting_string := by
    rcases hsec with h | h <;> rw [h] <;> decide
  have k2 : secret ≠ development_storage_proxy_uri_setting_string := by
    rcases hsec with h | h <;> rw [h] <;> decide
  have hd1 : parse_devstore_settings L m1 = .ok cloud_storage_account.default := by
    rcases parse_devstore_settings_leftover L m1 secret v1 hf1 k1 k2 with h | h | h
    · simp [parse_settings, h] at h1
    · simp [parse_settings, h] at h1
    · exact h
  have hd2 : parse_devstore_settings L m2 = .ok cloud_storage_account.default := by
    rcases parse_devstore_settings_leftover L m2 secret v2 hf2 k1 k2 with h | h | h
    · simp [parse_settings, h] at h2
    · simp [parse_settings, h] at h2
    · exact h
  have hR : (get_credentials m1).2 = (get_credentials m2).2 := by
    rw [get_credentials_snd m1 hs1, get_credentials_snd m2 hs2]
    apply without_keys_congr m1 m2 _ hs1 hs2
    intro k hk
    apply hag
    intro hks
    apply hk
    rw [hks]
    rcases hsec with h | h <;> rw [h] <;> decide
  have hi : cloud_storage_account.default.is_initialized = false := rfl
  simp only [parse_settings, hd1, hd2, hi, Bool.false_eq_true, if_false] at h1 h2
  rcases parse_defaults_settings_same L m1 m2 secret hs1 hs2 hsec hag hv1 hv2 with
    ⟨e, hD1, hD2⟩ | ⟨b1, b2, hD1, hD2, hD⟩
  · simp [hD1] at h1
  · simp only [hD1, hD2] at h1 h2
    have hDi : b1.is_initialized = b2.is_initialized := hD.1
    rw [hDi] at h1
    by_cases c1 : b2.is_initialized = true
    · rw [if_pos c1] at h1 h2
      simp only [Except.ok.injEq] at h1 h2
      rw [← h1, ← h2]
      obtain ⟨e1, e2, e3, e4, e5, e6, e7, e8, e9, e10, _⟩ := hD
      exact ⟨e1, e2, e3, e4, e5, e6, e7, e8, e9, e10, hR⟩
    · rw [if_neg c1] at h1 h2
      rcases parse_explicit_settings_same L m1 m2 secret hs1 hs2 hsec hag hv1 hv2 with
        ⟨e, hE1, hE2⟩ | ⟨c1, c2, hE1, hE2, hE⟩
      · simp [hE1] at h1
      · simp only [hE1, hE2] at h1 h2
        have hEi : c1.is_initialized = c2.is_initialized := hE.1
        rw [hEi] at h1
        by_cases c3 : c2.is_initialized = true
        · rw [if_pos c3] at h1 h2
          simp only [Except.ok.injEq] at h1 h2
          rw [← h1, ← h2]
          obtain ⟨e1, e2, e3, e4, e5, e6, e7, e8, e9, e10, _⟩ := hE
          exact ⟨e1, e2, e3, e4, e5, e6, e7, e8, e9, e10, hR⟩
        · rw [if_neg c3] at h1
          exact Except.noConfusion h1

theorem to_string_of_defaults (L : uri_lib) (B : base64_lib) (m : settings_map)
    (hne : without_keys m credential_setting_names ≠ [])
    (hn : setting_value m account_name_setting_string ≠ [])
    (hk : setting_value m account_key_setting_string ≠ [])
    (hb : B.is_base64 (setting_value m account_key_setting_string) = true) :
    to_string L B
      { spec_defaults_account m with m_settings := without_keys m credential_setting_names }
      true =
    [';'].intercalate ((without_keys m credential_setting_names ++
      [(account_name_setting_string, setting_value m account_name_setting_string),
        (account_key_setting_string, setting_value m account_key_setting_string)]).map
          (fun e => e.1 ++ '=' :: e.2)) := by
  have hmat : materialize_settings L
      { spec_defaults_account m with m_settings := without_keys m credential_setting_names }
      = without_keys m credential_setting_names := by
    cases hs : without_keys m credential_setting_names with
    | nil => exact absurd hs hne
    | cons e rest => simp [materialize_settings, hs]
  have hmap : (without_keys m credential_setting_names).map (fun e => e.1 ++ '=' :: e.2) ≠ [] := by
    simpa using hne
  have hcred : write_credentials B
      { spec_defaults_account m with m_settings := without_keys m credential_setting_names }
      true =
      ';' :: (account_name_setting_string ++ '=' :: setting_value m account_name_setting_string)
        ++ ';' :: (account_key_setting_string
          ++ '=' :: setting_value m account_key_setting_string) := by
    simp [write_credentials, spec_defaults_account, of_account_key_of_ne_nil _ _ hn hk,
      storage_credentials.is_shared_key,
      storage_credentials.is_sas, storage_credentials.account_name,
      storage_credentials.account_key, B.round_trip _ hb]
  have hj : spec_joined (without_keys m credential_setting_names)
      = [';'].intercalate
        ((without_keys m credential_setting_names).map (fun e => e.1 ++ '=' :: e.2)) := by
    simp [spec_joined]
  rw [to_string, hmat, write_settings_false, hcred, hj, List.map_append]
  have e2 : ∀ (l : List Str) (x y : Str), l ++ [x, y] = (l ++ [x]) ++ [y] := by
    intro l x y
    simp
  rw [List.map_cons, List.map_cons, List.map_nil, e2, intercalate_append_single _ _ (by simp),
    intercalate_append_single _ _ hmap]
  simp

theorem parse_to_string_of_defaults (L : uri_lib) (B : base64_lib) (cs : Str)
    (m : settings_map) (hp : parse_string_into_settings cs = .ok m)
    (a0 : cloud_storage_account) (hacc : parse_defaults_settings L m = .ok a0)
    (hi : a0.is_initialized = true)
    (hn : setting_value m account_name_setting_string ≠ [])
    (hk : setting_value m account_key_setting_string ≠ [])
    (hb : B.is_base64 (setting_value m account_key_setting_string) = true) :
    parse_string_into_settings (to_string L B
      { spec_defaults_account m with m_settings := without_keys m credential_setting_names }
      true) = .ok m := by
  have hs := parse_string_into_settings_sorted cs m hp
  have hent := parse_string_into_settings_entry cs m hp
  obtain ⟨_, ⟨p, hfp⟩, ⟨a, hfa⟩, ⟨k, hfk⟩, hkeys, _⟩ :=
    parse_defaults_settings_accepts L m hs a0 hacc hi
  have hsas : find m shared_access_signature_setting_string = none := by
    cases hf : find m shared_access_signature_setting_string with
    | none => rfl
    | some v =>
      have h1 : shared_access_signature_setting_string ∈ defaults_setting_names :=
        hkeys _ (find_some_mem m _ v hf)
      exact absurd h1 (by decide)
  have hne : without_keys m credential_setting_names ≠ [] := by
    intro h0
    have h1 := find_without_keys m credential_setting_names
      default_endpoints_protocol_setting_string
    rw [h0, if_neg (by decide), hfp] at h1
    simp [find] at h1
  have hAN : account_name_setting_string ≠ [] ∧ '=' ∉ account_name_setting_string
      ∧ ';' ∉ account_name_setting_string := by decide
  have hAK : account_key_setting_string ≠ [] ∧ '=' ∉ account_key_setting_string
      ∧ ';' ∉ account_key_setting_string := by decide
  have hva : setting_value m account_name_setting_string = a := by simp [setting_value, hfa]
  have hvk : setting_value m account_key_setting_string = k := by simp [setting_value, hfk]
  rw [to_string_of_defaults L B m hne hn hk hb, hva, hvk]
  apply parse_string_into_settings_joined _ m (by simp) hs
  · intro e he
    rcases List.mem_append.1 he with h1 | h1
    · exact hent e (List.mem_filter.1 h1).1
    · simp only [List.mem_cons, List.mem_singleton, List.not_mem_nil, or_false] at h1
      rcases h1 with h1 | h1
      · rw [h1]
        exact ⟨hAN.1, hAN.2.1, hAN.2.2, (hent _ (find_some_mem m _ a hfa)).2.2.2⟩
      · rw [h1]
        exact ⟨hAK.1, hAK.2.1, hAK.2.2, (hent _ (find_some_mem m _ k hfk)).2.2.2⟩
  · intro key
    rw [find_append, find_without_keys]
    by_cases hc : key ∈ credential_setting_names
    · rw [if_pos hc]
      simp only [credential_setting_names, List.mem_cons, List.mem_singleton,
        List.not_mem_nil, or_false] at hc
      rcases hc with h1 | h1 | h1
      · rw [h1, hfa]; simp [find]
      · rw [h1, hfk]
        have hn : ¬ account_name_setting_string = account_key_setting_string := by decide
        simp [find, hn]
      · rw [h1, hsas]
        have hn1 : ¬ account_name_setting_string = shared_access_signature_setting_string := by
          decide
        have hn2 : ¬ account_key_setting_string = shared_access_signature_setting_string := by
          decide
        simp [find, hn1, hn2]
    · rw [if_neg hc]
      simp only [credential_setting_names, List.mem_cons, List.mem_singleton,
        List.not_mem_nil, or_false, not_or] at hc
      cases hf : find m key with
      | some v => rfl
      | none =>
        have hn1 : ¬ account_name_setting_string = key := fun e => hc.1 e.symm
        have hn2 : ¬ account_key_setting_string = key := fun e => hc.2.1 e.symm
        simp [find, hn1, hn2]

theorem parse_settings_defaults_error (L : uri_lib) (m : settings_map) (e : Error)
    (hd : parse_devstore_settings L m = .ok cloud_storage_account.default)
    (h : parse_defaults_settings L m = .error e) :
    parse_settings L m = .error e := by
  have hi0 : cloud_storage_account.default.is_initialized = false := rfl
  simp only [parse_settings, hd, hi0, Bool.false_eq_true, if_false, h]

theorem parse_settings_explicit_result (L : uri_lib) (m : settings_map)
    (hd : parse_devstore_settings L m = .ok cloud_storage_account.default)
    (h : parse_defaults_settings L m = .ok cloud_storage_account.default) :
    parse_settings L m =
      match parse_explicit_settings L m with
      | .error e => .error e
      | .ok account =>
        if account.is_initialized then
          .ok { account with m_settings := (get_credentials m).2 }
        else .error .InvalidArgument := by
  have hi0 : cloud_storage_account.default.is_initialized = false := rfl
  cases he : parse_explicit_settings L m <;>
    simp only [parse_settings, hd, hi0, Bool.false_eq_true, if_false, h, he]

theorem sorted_keys_defaults_only_settings (p a k : Str) (suffix : Option Str) :
    sorted_keys (defaults_only_settings p a k suffix) := by
  unfold sorted_keys defaults_only_settings
  cases suffix with
  | none =>
    simp only [List.append_nil, List.pairwise_cons, List.mem_cons, List.mem_singleton,
      forall_eq_or_imp, forall_eq, List.not_mem_nil, false_implies, implies_true,
      List.Pairwise.nil, and_true]
    decide
  | some s =>
    simp only [List.cons_append, List.nil_append, List.pairwise_cons, List.mem_cons,
      List.mem_singleton, forall_eq_or_imp, forall_eq, List.not_mem_nil, false_implies,
      implies_true, List.Pairwise.nil, and_true]
    decide

theorem parse_defaults_settings_defaults_only (L : uri_lib) (p a k : Str) (suffix : Option Str) :
    parse_defaults_settings L (defaults_only_settings p a k suffix) =
      if ([p ++ "://".toList ++ a ++ ".blob.".toList ++ suffix.getD "core.windows.net".toList,
            p ++ "://".toList ++ a ++ "-secondary.blob.".toList
              ++ suffix.getD "core.windows.net".toList,
            p ++ "://".toList ++ a ++ ".queue.".toList ++ suffix.getD "core.windows.net".toList,
            p ++ "://".toList ++ a ++ "-secondary.queue.".toList
              ++ suffix.getD "core.windows.net".toList,
            p ++ "://".toList ++ a ++ ".table.".toList ++ suffix.getD "core.windows.net".toList,
            p ++ "://".toList ++ a ++ "-secondary.table.".toList
              ++ suffix.getD "core.windows.net".toList].all L.well_formed) = true then
        .ok
          { m_initialized := true
            m_is_development_storage_account := false
            m_default_endpoints := false
            m_credentials := storage_credentials.of_account_key a k
            m_blob_endpoint :=
              ⟨.of_text (p ++ "://".toList ++ a ++ ".blob.".toList
                  ++ suffix.getD "core.windows.net".toList),
                .of_text (p ++ "://".toList ++ a ++ "-secondary.blob.".toList
                  ++ suffix.getD "core.windows.net".toList)⟩
            m_queue_endpoint :=
              ⟨.of_text (p ++ "://".toList ++ a ++ ".queue.".toList
                  ++ suffix.getD "core.windows.net".toList),
                .of_text (p ++ "://".toList ++ a ++ "-secondary.queue.".toList
                  ++ suffix.getD "core.windows.net".toList)⟩
            m_table_endpoint :=
              ⟨.of_text (p ++ "://".toList ++ a ++ ".table.".toList
                  ++ suffix.getD "core.windows.net".toList),
                .of_text (p ++ "://".toList ++ a ++ "-secondary.table.".toList
                  ++ suffix.getD "core.windows.net".toList)⟩
            m_endpoint_suffix := suffix.getD "core.windows.net".toList
            m_settings := [] }
      else .error .UriError := by
  rw [parse_defaults_settings_eq L _ (sorted_keys_defaults_only_settings p a k suffix)]
  have f1 : find (defaults_only_settings p a k suffix) default_endpoints_protocol_setting_string
      = some p := by cases suffix <;> rfl
  have f2 : find (defaults_only_settings p a k suffix) account_name_setting_string
      = some a := by cases suffix <;> rfl
  have f3 : find (defaults_only_settings p a k suffix) account_key_setting_string
      = some k := by cases suffix <;> rfl
  have f4 : find (defaults_only_settings p a k suffix) endpoint_suffix_setting_string
      = suffix := by cases suffix <;> rfl
  have f5 : find (defaults_only_settings p a k suffix) blob_endpoint_setting_string
      = none := by cases suffix <;> rfl
  have f6 : find (defaults_only_settings p a k suffix) queue_endpoint_setting_string
      = none := by cases suffix <;> rfl
  have f7 : find (defaults_only_settings p a k suffix) table_endpoint_setting_string
      = none := by cases suffix <;> rfl
  have f8 : without_keys (defaults_only_settings p a k suffix) defaults_setting_names = [] := by
    cases suffix <;> rfl
  have f9 : spec_defaults_suffix (defaults_only_settings p a k suffix)
      = suffix.getD "core.windows.net".toList := by
    unfold spec_defaults_suffix
    rw [f4]
    cases suffix <;> rfl
  simp only [f1, f2, f3, f8, Option.isSome_some, List.isEmpty_nil, Bool.and_self, if_true,
    spec_defaults_uri_texts, spec_defaults_account, setting_value, f5, f6, f7, f9,
    Option.getD_some, Option.getD_none, spec_defaults_texts, spec_defaults_pair]
  simp

theorem parse_explicit_settings_explicit_only (L : uri_lib) (blob queue table : Option Str)
    (hne : blob ≠ none ∨ queue ≠ none ∨ table ≠ none)
    (hb : blob ≠ some []) (hq : queue ≠ some []) (ht : table ≠ some []) :
    parse_explicit_settings L (explicit_only_settings blob queue table) =
      if (blob.toList ++ queue.toList ++ table.toList).all L.well_formed = true then
        .ok
          { m_initialized := true
            m_is_development_storage_account := false
            m_default_endpoints := false
            m_credentials := .anonymous
            m_blob_endpoint := spec_explicit_pair blob
            m_queue_endpoint := spec_explicit_pair queue
            m_table_endpoint := spec_explicit_pair table
            m_endpoint_suffix := []
            m_settings := [] }
      else .error .UriError := by
  rcases blob with _ | b <;> rcases queue with _ | q <;> rcases table with _ | t <;>
    simp at hne hb hq ht <;>
    simp [explicit_only_settings, spec_explicit_pair, parse_explicit_settings,
      get_credentials, explicit_endpoint, uri_from_text,
      get_setting, find, erase, cloud_storage_account.of_endpoints,
      storage_uri.default, storage_uri.of_primary,
      account_key_setting_string,
      account_name_setting_string,
      shared_access_signature_setting_string, blob_endpoint_setting_string,
      queue_endpoint_setting_string, table_endpoint_setting_string, *]
  all_goals (split_ifs <;> simp_all [Except.map, storage_uri.of_primary])

theorem parse_settings_explicit_only (L : uri_lib) (blob queue table : Option Str)
    (hne : blob ≠ none ∨ queue ≠ none ∨ table ≠ none)
    (hb : blob ≠ some []) (hq : queue ≠ some []) (ht : table ≠ some []) :
    parse_settings L (explicit_only_settings blob queue table) =
      if (blob.toList ++ queue.toList ++ table.toList).all L.well_formed = true then
        .ok
          { m_initialized := true
            m_is_development_storage_account := false
            m_default_endpoints := false
            m_credentials := .anonymous
            m_blob_endpoint := spec_explicit_pair blob
            m_queue_endpoint := spec_explicit_pair queue
            m_table_endpoint := spec_explicit_pair table
            m_endpoint_suffix := []
            m_settings := explicit_only_settings blob queue table }
      else .error .UriError := by
  have h1 : find (explicit_only_settings blob queue table)
      use_development_storage_setting_string = none := by
    rcases blob with _ | b <;> rcases queue with _ | q <;> rcases table with _ | t <;> rfl
  have h2 : find (explicit_only_settings blob queue table)
      default_endpoints_protocol_setting_string = none := by
    rcases blob with _ | b <;> rcases queue with _ | q <;> rcases table with _ | t <;> rfl
  have h3 : (get_credentials (explicit_only_settings blob queue table)).2
      = explicit_only_settings blob queue table := by
    rcases blob with _ | b <;> rcases queue with _ | q <;> rcases table with _ | t <;> rfl
  rw [parse_settings_explicit_result L _ (parse_devstore_settings_absent L _ h1)
      (parse_defaults_settings_absent L _ h2),
    parse_explicit_settings_explicit_only L blob queue table hne hb hq ht, h3]
  by_cases hw : (blob.toList ++ queue.toList ++ table.toList).all L.well_formed = true
  · rw [if_pos hw, if_pos hw]
    rfl
  · rw [if_neg hw, if_neg hw]

/-! ## The claims -/

/-- C1, as the claim states it, fails. With a URI library that refuses a text
with a blank, `DefaultEndpointsProtocol=https;AccountName=a b;AccountKey=YmFy`
holds exactly the three settings and `parse` raises the URI-construction
failure, because `https://a b.blob.core.windows.net` is malformed; and
`DefaultEndpointsProtocol=https;AccountName=;AccountKey=YmFy` parses to an
account whose credentials are none, not shared-key, because the account name
is empty. -/
theorem C1_counterexample :
    parse_string_into_settings
        "DefaultEndpointsProtocol=https;AccountName=a b;AccountKey=YmFy".toList
      = .ok (defaults_only_settings "https".toList "a b".toList "YmFy".toList none) ∧
    parse text_uri_lib "DefaultEndpointsProtocol=https;AccountName=a b;AccountKey=YmFy".toList
      = .error .UriError ∧
    parse_string_into_settings
        "DefaultEndpointsProtocol=https;AccountName=;AccountKey=YmFy".toList
      = .ok (defaults_only_settings "https".toList [] "YmFy".toList none) ∧
    ∃ acc, parse text_uri_lib "DefaultEndpointsProtocol=https;AccountName=;AccountKey=YmFy".toList
        = .ok acc ∧
      acc.is_initialized = true ∧ acc.m_credentials = .anonymous ∧
      acc.m_credentials.is_shared_key = false :=
  ⟨rfl, rfl, rfl, _, rfl, rfl, rfl, rfl⟩

/-- C1, amended: a connection string whose settings are exactly
`DefaultEndpointsProtocol=p`, `AccountName=a`, `AccountKey=k` and optionally
`EndpointSuffix=s` (`s` being `core.windows.net` when the key is absent)
parses, when the six texts `p://a.blob.s`, `p://a.queue.s`, `p://a.table.s`,
`p://a-secondary.blob.s`, `p://a-secondary.queue.s`, `p://a-secondary.table.s`
are well-formed URIs, to an initialized account whose pairs are the URIs of
these texts and whose credentials are shared-key `(a, k)` when `a` and `k` are
non-empty and none otherwise; when one of the six texts is malformed, `parse`
fails with the URI-construction failure. -/
theorem C1_default_endpoints_account (L : uri_lib) (cs p a k : Str) (suffix : Option Str)
    (hp : parse_string_into_settings cs = .ok (defaults_only_settings p a k suffix)) :
    ((∀ t ∈
        [p ++ "://".toList ++ a ++ ".blob.".toList ++ suffix.getD "core.windows.net".toList,
          p ++ "://".toList ++ a ++ "-secondary.blob.".toList
            ++ suffix.getD "core.windows.net".toList,
          p ++ "://".toList ++ a ++ ".queue.".toList ++ suffix.getD "core.windows.net".toList,
          p ++ "://".toList ++ a ++ "-secondary.queue.".toList
            ++ suffix.getD "core.windows.net".toList,
          p ++ "://".toList ++ a ++ ".table.".toList ++ suffix.getD "core.windows.net".toList,
          p ++ "://".toList ++ a ++ "-secondary.table.".toList
            ++ suffix.getD "core.windows.net".toList], L.well_formed t = true) →
      ∃ acc, parse L cs = .ok acc ∧ acc.is_initialized = true ∧
        (a ≠ [] → k ≠ [] → acc.m_credentials = .shared_key a k) ∧
        (a = [] ∨ k = [] → acc.m_credentials = .anonymous) ∧
        acc.m_blob_endpoint =
          ⟨.of_text (p ++ "://".toList ++ a ++ ".blob.".toList
              ++ suffix.getD "core.windows.net".toList),
            .of_text (p ++ "://".toList ++ a ++ "-secondary.blob.".toList
              ++ suffix.getD "core.windows.net".toList)⟩ ∧
        acc.m_queue_endpoint =
          ⟨.of_text (p ++ "://".toList ++ a ++ ".queue.".toList
              ++ suffix.getD "core.windows.net".toList),
            .of_text (p ++ "://".toList ++ a ++ "-secondary.queue.".toList
              ++ suffix.getD "core.windows.net".toList)⟩ ∧
        acc.m_table_endpoint =
          ⟨.of_text (p ++ "://".toList ++ a ++ ".table.".toList
              ++ suffix.getD "core.windows.net".toList),
            .of_text (p ++ "://".toList ++ a ++ "-secondary.table.".toList
              ++ suffix.getD "core.windows.net".toList)⟩) ∧
    ((∃ t ∈
        [p ++ "://".toList ++ a ++ ".blob.".toList ++ suffix.getD "core.windows.net".toList,
          p ++ "://".toList ++ a ++ "-secondary.blob.".toList
            ++ suffix.getD "core.windows.net".toList,
          p ++ "://".toList ++ a ++ ".queue.".toList ++ suffix.getD "core.windows.net".toList,
          p ++ "://".toList ++ a ++ "-secondary.queue.".toList
            ++ suffix.getD "core.windows.net".toList,
          p ++ "://".toList ++ a ++ ".table.".toList ++ suffix.getD "core.windows.net".toList,
          p ++ "://".toList ++ a ++ "-secondary.table.".toList
            ++ suffix.getD "core.windows.net".toList], L.well_formed t = false) →
      parse L cs = .error .UriError) := by
  have h : parse L cs = parse_settings L (defaults_only_settings p a k suffix) := by
    simp only [parse, hp]
  have hs := sorted_keys_defaults_only_settings p a k suffix
  have hd : parse_devstore_settings L (defaults_only_settings p a k suffix)
      = .ok cloud_storage_account.default :=
    parse_devstore_settings_absent L _ (by cases suffix <;> rfl)
  have he := parse_defaults_settings_defaults_only L p a k suffix
  refine ⟨?_, ?_⟩
  · intro hw
    rw [if_pos (List.all_eq_true.2 hw)] at he
    rw [h, parse_settings_of_defaults L _ hs _ he rfl,
      (parse_defaults_settings_accepts L _ hs _ he rfl).1.symm]
    refine ⟨_, rfl, rfl, ?_, ?_, rfl, rfl, rfl⟩
    · intro ha hk
      exact of_account_key_of_ne_nil a k ha hk
    · intro hak
      rcases hak with h0 | h0 <;> simp [storage_credentials.of_account_key, h0]
  · rintro ⟨t, ht, hw⟩
    have hn : ¬ ([p ++ "://".toList ++ a ++ ".blob.".toList
            ++ suffix.getD "core.windows.net".toList,
          p ++ "://".toList ++ a ++ "-secondary.blob.".toList
            ++ suffix.getD "core.windows.net".toList,
          p ++ "://".toList ++ a ++ ".queue.".toList ++ suffix.getD "core.windows.net".toList,
          p ++ "://".toList ++ a ++ "-secondary.queue.".toList
            ++ suffix.getD "core.windows.net".toList,
          p ++ "://".toList ++ a ++ ".table.".toList ++ suffix.getD "core.windows.net".toList,
          p ++ "://".toList ++ a ++ "-secondary.table.".toList
            ++ suffix.getD "core.windows.net".toList].all L.well_formed) = true := by
      intro hall
      have := List.all_eq_true.1 hall t ht
      rw [hw] at this
      exact absurd this (by decide)
    rw [if_neg hn] at he
    rw [h]
    exact parse_settings_defaults_error L _ _ hd he

theorem C1_default_endpoints_account_witness :
    ∃ acc, parse text_uri_lib
        "AccountName=foo;AccountKey=YmFy;DefaultEndpointsProtocol=https".toList = .ok acc ∧
      acc.is_initialized = true ∧
      acc.m_credentials = .shared_key "foo".toList "YmFy".toList ∧
      acc.m_blob_endpoint =
        ⟨.of_text "https://foo.blob.core.windows.net".toList,
          .of_text "https://foo-secondary.blob.core.windows.net".toList⟩ ∧
      acc.m_queue_endpoint =
        ⟨.of_text "https://foo.queue.core.windows.net".toList,
          .of_text "https://foo-secondary.queue.core.windows.net".toList⟩ ∧
      acc.m_table_endpoint =
        ⟨.of_text "https://foo.table.core.windows.net".toList,
          .of_text "https://foo-secondary.table.core.windows.net".toList⟩ := by
  obtain ⟨acc, h1, h2, h3, _, h5, h6, h7⟩ := (C1_default_endpoints_account text_uri_lib
    "AccountName=foo;AccountKey=YmFy;DefaultEndpointsProtocol=https".toList
    "https".toList "foo".toList "YmFy".toList none rfl).1 (by decide)
  exact ⟨acc, h1, h2, h3 (by decide) (by decide), h5, h6, h7⟩

/-- C2: a connection string whose only setting is `UseDevelopmentStorage=true`
parses to an initialized development-storage account with the credentials
`devstoreaccount1` and the fixed development key, primaries
`http://127.0.0.1:10000/devstoreaccount1` (blob), `:10001` (queue), `:10002`
(table) and secondaries with the path `devstoreaccount1-secondary`. -/
theorem C2_development_storage_account (L : uri_lib) (cs : Str)
    (hp : parse_string_into_settings cs = .ok [("UseDevelopmentStorage".toList, "true".toList)]) :
    ∃ acc, parse L cs = .ok acc ∧ acc.is_initialized = true ∧
      acc.m_is_development_storage_account = true ∧
      acc.m_credentials = .shared_key "devstoreaccount1".toList devstore_account_key ∧
      acc.m_blob_endpoint =
        ⟨.of_text "http://127.0.0.1:10000/devstoreaccount1".toList,
          .of_text "http://127.0.0.1:10000/devstoreaccount1-secondary".toList⟩ ∧
      acc.m_queue_endpoint =
        ⟨.of_text "http://127.0.0.1:10001/devstoreaccount1".toList,
          .of_text "http://127.0.0.1:10001/devstoreaccount1-secondary".toList⟩ ∧
      acc.m_table_endpoint =
        ⟨.of_text "http://127.0.0.1:10002/devstoreaccount1".toList,
          .of_text "http://127.0.0.1:10002/devstoreaccount1-secondary".toList⟩ := by
  have h : parse L cs = parse_settings L
      [(use_development_storage_setting_string, use_development_storage_setting_value)] := by
    simp only [parse, hp]; rfl
  rw [h, parse_settings_devstore_only, get_development_storage_account_empty]
  exact ⟨_, rfl, rfl, rfl, rfl, rfl, rfl, rfl⟩

theorem C2_development_storage_account_witness :
    ∃ acc, parse text_uri_lib "UseDevelopmentStorage=true".toList = .ok acc ∧
      acc.is_initialized = true ∧
      acc.m_is_development_storage_account = true ∧
      acc.m_credentials = .shared_key "devstoreaccount1".toList devstore_account_key ∧
      acc.m_blob_endpoint =
        ⟨.of_text "http://127.0.0.1:10000/devstoreaccount1".toList,
          .of_text "http://127.0.0.1:10000/devstoreaccount1-secondary".toList⟩ ∧
      acc.m_queue_endpoint =
        ⟨.of_text "http://127.0.0.1:10001/devstoreaccount1".toList,
          .of_text "http://127.0.0.1:10001/devstoreaccount1-secondary".toList⟩ ∧
      acc.m_table_endpoint =
        ⟨.of_text "http://127.0.0.1:10002/devstoreaccount1".toList,
          .of_text "http://127.0.0.1:10002/devstoreaccount1-secondary".toList⟩ :=
  C2_development_storage_account _ "UseDevelopmentStorage=true".toList rfl

/-- C3, as the claim states it, fails. With a URI library that refuses a text
with a blank, the only setting of `BlobEndpoint=a b` is `BlobEndpoint` with a
non-empty value, and `parse` raises the URI-construction failure instead of
returning an account, because the value is not a well-formed URI. -/
theorem C3_counterexample :
    parse_string_into_settings "BlobEndpoint=a b".toList
      = .ok (explicit_only_settings (some "a b".toList) none none) ∧
    parse text_uri_lib "BlobEndpoint=a b".toList = .error .UriError :=
  ⟨rfl, rfl⟩

/-- C3, amended: a connection string whose settings are only a non-empty subset of
`BlobEndpoint`, `QueueEndpoint`, `TableEndpoint`, each with a non-empty value,
parses, when each given value is a well-formed URI, to an initialized account
with anonymous credentials in which each given endpoint is a primary-only pair
and each endpoint not given is the empty pair; when a given value is
malformed, `parse` fails with the URI-construction failure. -/
theorem C3_explicit_endpoints_account (L : uri_lib) (cs : Str) (blob queue table : Option Str)
    (hp : parse_string_into_settings cs = .ok (explicit_only_settings blob queue table))
    (hne : blob ≠ none ∨ queue ≠ none ∨ table ≠ none)
    (hb : blob ≠ some []) (hq : queue ≠ some []) (ht : table ≠ some []) :
    ((∀ u, (blob = some u ∨ queue = some u ∨ table = some u) → L.well_formed u = true) →
      ∃ acc, parse L cs = .ok acc ∧ acc.is_initialized = true ∧
        acc.m_credentials = .anonymous ∧
        acc.m_blob_endpoint = spec_explicit_pair blob ∧
        acc.m_queue_endpoint = spec_explicit_pair queue ∧
        acc.m_table_endpoint = spec_explicit_pair table) ∧
    ((∃ u, (blob = some u ∨ queue = some u ∨ table = some u) ∧ L.well_formed u = false) →
      parse L cs = .error .UriError) := by
  have h : parse L cs = parse_settings L (explicit_only_settings blob queue table) := by
    simp only [parse, hp]
  have hall : (blob.toList ++ queue.toList ++ table.toList).all L.well_formed = true ↔
      ∀ u, (blob = some u ∨ queue = some u ∨ table = some u) → L.well_formed u = true := by
    simp only [List.all_eq_true, List.mem_append, Option.mem_toList, Option.mem_def, or_assoc]
  rw [h, parse_settings_explicit_only L blob queue table hne hb hq ht]
  refine ⟨?_, ?_⟩
  · intro hw
    rw [if_pos (hall.2 hw)]
    exact ⟨_, rfl, rfl, rfl, rfl, rfl, rfl⟩
  · rintro ⟨u, hu, hw⟩
    rw [if_neg]
    intro hc
    have := hall.1 hc u hu
    rw [hw] at this
    exact absurd this (by decide)

theorem C3_explicit_endpoints_account_witness :
    ∃ acc, parse text_uri_lib "BlobEndpoint=http://x.example.com/".toList = .ok acc ∧
      acc.is_initialized = true ∧
      acc.m_credentials = .anonymous ∧
      acc.m_blob_endpoint = ⟨.of_text "http://x.example.com/".toList, .empty⟩ ∧
      acc.m_queue_endpoint = ⟨.empty, .empty⟩ ∧
      acc.m_table_endpoint = ⟨.empty, .empty⟩ :=
  (C3_explicit_endpoints_account text_uri_lib "BlobEndpoint=http://x.example.com/".toList
    (some "http://x.example.com/".toList) none none rfl (by decide) (by decide) (by decide)
    (by decide)).1
    (by
      intro u hu
      have hu2 : "http://x.example.com/".toList = u := by simpa using hu
      rw [← hu2]
      rfl)

/-- C4: when the parsed settings bind `UseDevelopmentStorage` to a value other
than exactly `true`, `parse` fails with `InvalidArgument`, whatever the other
settings are. -/
theorem C4_bad_development_storage_value (L : uri_lib) (s : Str) (m : settings_map) (v : Str)
    (hp : parse_string_into_settings s = .ok m)
    (hv : find m use_development_storage_setting_string = some v)
    (hne : v ≠ use_development_storage_setting_value) :
    parse L s = .error .InvalidArgument := by
  simp only [parse, hp, parse_settings, parse_devstore_settings_bad_value L m v hv hne]

theorem C4_bad_development_storage_value_witness :
    parse text_uri_lib
      "DefaultEndpointsProtocol=https;AccountName=a;AccountKey=k;UseDevelopmentStorage=True".toList
      = .error .InvalidArgument :=
  C4_bad_development_storage_value _ _
    [("AccountKey".toList, "k".toList), ("AccountName".toList, "a".toList),
      ("DefaultEndpointsProtocol".toList, "https".toList),
      ("UseDevelopmentStorage".toList, "True".toList)] "True".toList rfl (by decide) (by decide)

/-- C5: when the parser accepts the string and each of the three strategies
returns an uninitialized account, `parse` fails with `InvalidArgument` (and so
returns no account); this is so for every string that parses to the empty
settings map, among them the empty string and every string of `;` only. -/
theorem C5_no_strategy_is_invalid_argument (L : uri_lib) :
    (∀ (s : Str) (m : settings_map) (a1 a2 a3 : cloud_storage_account),
      parse_string_into_settings s = .ok m →
      parse_devstore_settings L m = .ok a1 → a1.is_initialized = false →
      parse_defaults_settings L m = .ok a2 → a2.is_initialized = false →
      parse_explicit_settings L m = .ok a3 → a3.is_initialized = false →
      parse L s = .error .InvalidArgument) ∧
    (∀ s : Str, parse_string_into_settings s = .ok [] → parse L s = .error .InvalidArgument) ∧
    (∀ n : Nat, parse_string_into_settings (List.replicate n ';') = .ok [] ∧
      parse L (List.replicate n ';') = .error .InvalidArgument) := by
  have h0 : parse_settings L [] = .error .InvalidArgument := rfl
  have hn : ∀ n : Nat, parse_string_into_settings (List.replicate n ';') = .ok [] := by
    intro n
    rw [parse_string_into_settings, string_split_separators, parse_entries_empty_entries]
  refine ⟨?_, ?_, ?_⟩
  · intro s m a1 a2 a3 hp h1 h1i h2 h2i h3 h3i
    simp only [parse, hp, parse_settings_uninitialized L m a1 a2 a3 h1 h1i h2 h2i h3 h3i]
  · intro s hp
    simp only [parse, hp, h0]
  · intro n
    refine ⟨hn n, ?_⟩
    simp only [parse, hn n, h0]

theorem C5_no_strategy_is_invalid_argument_witness :
    parse text_uri_lib "AccountName=a;AccountKey=k".toList = .error .InvalidArgument :=
  (C5_no_strategy_is_invalid_argument _).1 "AccountName=a;AccountKey=k".toList
    [("AccountKey".toList, "k".toList), ("AccountName".toList, "a".toList)]
    cloud_storage_account.default cloud_storage_account.default cloud_storage_account.default
    rfl rfl rfl rfl rfl rfl rfl

/-- C6, as the claim states it, fails. With a URI library that refuses a text
with a blank, `UseDevelopmentStorage=true;DevelopmentStorageProxyUri=a b;Foo=x`
holds the key `Foo`, which is not a recognized setting name, and `parse` fails
with the URI-construction failure, not with `InvalidArgument`: the proxy URI is
built before the development-storage strategy looks for leftover keys. -/
theorem C6_counterexample :
    ∃ m, parse_string_into_settings
        "UseDevelopmentStorage=true;DevelopmentStorageProxyUri=a b;Foo=x".toList = .ok m ∧
      find m "Foo".toList = some "x".toList ∧
      "Foo".toList ∉ recognized_setting_names ∧
      parse text_uri_lib
        "UseDevelopmentStorage=true;DevelopmentStorageProxyUri=a b;Foo=x".toList
        = .error .UriError ∧
      parse text_uri_lib
        "UseDevelopmentStorage=true;DevelopmentStorageProxyUri=a b;Foo=x".toList
        ≠ .error .InvalidArgument :=
  ⟨_, rfl, rfl, by decide, rfl, by
    intro h
    have h2 : parse text_uri_lib
        "UseDevelopmentStorage=true;DevelopmentStorageProxyUri=a b;Foo=x".toList
        = .error .UriError := rfl
    rw [h2] at h
    exact absurd (Except.error.inj h) (by decide)⟩

/-- C6, amended: when the parsed settings hold a key that is not one of the ten
recognized setting names, no strategy accepts them and `parse` returns no
account, whatever recognized settings come with the key: it fails with
`InvalidArgument`, except when the settings hold `UseDevelopmentStorage=true`
together with a `DevelopmentStorageProxyUri` whose value is a malformed URI,
where it fails with the URI-construction failure. -/
theorem C6_unrecognized_key_is_invalid_argument (L : uri_lib) (s : Str) (m : settings_map)
    (k v : Str) (hp : parse_string_into_settings s = .ok m) (hk : find m k = some v)
    (hun : k ∉ recognized_setting_names) :
    ((find m use_development_storage_setting_string = some "true".toList ∧
        ∃ t, find m development_storage_proxy_uri_setting_string = some t ∧
          L.well_formed t = false) →
      parse L s = .error .UriError) ∧
    (¬ (find m use_development_storage_setting_string = some "true".toList ∧
        ∃ t, find m development_storage_proxy_uri_setting_string = some t ∧
          L.well_formed t = false) →
      parse L s = .error .InvalidArgument) ∧
    (∀ a, parse_devstore_settings L m = .ok a → a.is_initialized = false) ∧
    (∀ a, parse_defaults_settings L m = .ok a → a.is_initialized = false) ∧
    (∀ a, parse_explicit_settings L m = .ok a → a.is_initialized = false) := by
  simp only [recognized_setting_names, List.mem_cons, List.mem_singleton, not_or,
    List.not_mem_nil, not_false_eq_true, and_true] at hun
  obtain ⟨h1, h2, h3, h4, h5, h6, h7, h8, h9, h10⟩ := hun
  have hd := parse_defaults_settings_leftover L m k v hk h3 h4 h5 h9 h6 h7 h8
  have he := parse_explicit_settings_leftover L m k v hk h6 h7 h8 h4 h5 h10
  have hdev := parse_devstore_settings_leftover_eq L m k v hk h1 h2
  have hi0 : cloud_storage_account.default.is_initialized = false := rfl
  simp only [parse, hp]
  refine ⟨?_, ?_, ?_, ?_, ?_⟩
  · rintro ⟨hu, t, ht, hw⟩
    have hdv : parse_devstore_settings L m = .error .UriError := by
      rw [hdev, hu, ht]
      simp [use_development_storage_setting_value, hw]
    simp only [parse_settings, hdv]
  · intro hcond
    cases hu : find m use_development_storage_setting_string with
    | none =>
      rw [hu] at hdev
      exact parse_settings_uninitialized L m _ _ _ hdev rfl hd rfl he rfl
    | some u =>
      by_cases hne : u = use_development_storage_setting_value
      · cases ht : find m development_storage_proxy_uri_setting_string with
        | none =>
          rw [hu, ht] at hdev
          simp only [hne, ne_eq, not_true_eq_false, if_false] at hdev
          exact parse_settings_uninitialized L m _ _ _ hdev rfl hd rfl he rfl
        | some t =>
          cases hw : L.well_formed t with
          | true =>
            rw [hu, ht] at hdev
            simp only [hne, ne_eq, not_true_eq_false, if_false, hw, if_true] at hdev
            exact parse_settings_uninitialized L m _ _ _ hdev rfl hd rfl he rfl
          | false =>
            exfalso
            apply hcond
            exact ⟨by rw [hu, hne]; rfl, t, ht, hw⟩
      · simp only [parse_settings, parse_devstore_settings_bad_value L m u hu hne]
  · intro a ha
    rcases parse_devstore_settings_leftover L m k v hk h1 h2 with h | h | h
    · rw [h] at ha; exact Except.noConfusion ha
    · rw [h] at ha; exact Except.noConfusion ha
    · rw [h] at ha
      simp only [Except.ok.injEq] at ha
      rw [← ha]; rfl
  · intro a ha
    rw [hd] at ha
    simp only [Except.ok.injEq] at ha
    rw [← ha]; rfl
  · intro a ha
    rw [he] at ha
    simp only [Except.ok.injEq] at ha
    rw [← ha]; rfl

theorem C6_unrecognized_key_is_invalid_argument_witness :
    parse text_uri_lib
      "DefaultEndpointsProtocol=https;accountname=a;AccountName=a;AccountKey=k".toList
      = .error .InvalidArgument :=
  (C6_unrecognized_key_is_invalid_argument text_uri_lib
    "DefaultEndpointsProtocol=https;accountname=a;AccountName=a;AccountKey=k".toList
    [("AccountKey".toList, "k".toList), ("AccountName".toList, "a".toList),
      ("DefaultEndpointsProtocol".toList, "https".toList),
      ("accountname".toList, "a".toList)] "accountname".toList "a".toList rfl (by decide)
    (by decide)).2.1 (fun h => absurd h.1 (by decide))

/-- C7: a connection string in which some `;`-separated entry begins with `=`
(an empty key) makes `parse_string_into_settings`, and therefore `parse`,
fail with `InvalidFormat`, wherever the entry stands and whatever the other
entries are. -/
theorem C7_empty_key_is_invalid_format (L : uri_lib) (s : Str)
    (h : ∃ e ∈ s.splitOn ';', e.head? = some '=') :
    parse_string_into_settings s = .error .InvalidFormat ∧
      parse L s = .error .InvalidFormat := by
  rw [← string_split_eq_splitOn] at h
  have h1 : parse_string_into_settings s = .error .InvalidFormat :=
    parse_entries_invalid (string_split s ';') [] h
  refine ⟨h1, ?_⟩
  simp only [parse, h1]


theorem C7_empty_key_is_invalid_format_witness :
    parse_string_into_settings "AccountName=a;=value;UseDevelopmentStorage=false".toList
        = .error .InvalidFormat ∧
      parse text_uri_lib
        "AccountName=a;=value;UseDevelopmentStorage=false".toList = .error .InvalidFormat :=
  C7_empty_key_is_invalid_format _ _ ⟨"=value".toList, by decide, by decide⟩


/-- C8: a connection string with no empty-key entry is accepted by
`parse_string_into_settings`; the returned map has its keys in strictly
increasing order, every binding of it is the key (text before the first `=`)
and value (everything after it) of a non-empty entry, every non-empty entry
has its key bound, and a key whose entries all carry the same value is bound
to that value. -/
theorem C8_parse_string_into_settings_mapping (s : Str)
    (h : ∀ e ∈ s.splitOn ';', e.head? ≠ some '=') :
    ∃ m, parse_string_into_settings s = .ok m ∧ sorted_keys m ∧
      (∀ k v, find m k = some v →
        ∃ e ∈ spec_entries s, spec_key e = k ∧ spec_value e = v) ∧
      (∀ e ∈ spec_entries s, ∃ v, find m (spec_key e) = some v) ∧
      (∀ e ∈ spec_entries s,
        (∀ e2 ∈ spec_entries s, spec_key e2 = spec_key e → spec_value e2 = spec_value e) →
        find m (spec_key e) = some (spec_value e)) := by
  obtain ⟨m, hm, hs, hf⟩ := parse_string_into_settings_ok s h
  have ha : ∀ k v, find m k = some v →
      ∃ e ∈ spec_entries s, spec_key e = k ∧ spec_value e = v := by
    intro k v hk
    rw [hf k] at hk
    have h1 := find_some_mem _ k v hk
    obtain ⟨e, he, heq⟩ := List.mem_map.1 h1
    exact ⟨e, he, congrArg Prod.fst heq, congrArg Prod.snd heq⟩
  have hb : ∀ e ∈ spec_entries s, ∃ v, find m (spec_key e) = some v := by
    intro e he
    rw [hf]
    exact find_isSome_of_mem _ (spec_key e) (spec_value e)
      (List.mem_map.2 ⟨e, he, rfl⟩)
  refine ⟨m, hm, hs, ha, hb, ?_⟩
  intro e he huniq
  obtain ⟨v, hv⟩ := hb e he
  obtain ⟨e2, he2, hk2, hv2⟩ := ha _ _ hv
  rw [hv, ← hv2, huniq e2 he2 hk2]


theorem C8_parse_string_into_settings_mapping_witness :
    ∃ m, parse_string_into_settings ";;Key=;A=b=c;;NoEquals;".toList = .ok m ∧ sorted_keys m ∧
      (∀ k v, find m k = some v →
        ∃ e ∈ spec_entries ";;Key=;A=b=c;;NoEquals;".toList, spec_key e = k ∧ spec_value e = v) ∧
      (∀ e ∈ spec_entries ";;Key=;A=b=c;;NoEquals;".toList, ∃ v, find m (spec_key e) = some v) ∧
      (∀ e ∈ spec_entries ";;Key=;A=b=c;;NoEquals;".toList,
        (∀ e2 ∈ spec_entries ";;Key=;A=b=c;;NoEquals;".toList,
          spec_key e2 = spec_key e → spec_value e2 = spec_value e) →
        find m (spec_key e) = some (spec_value e)) :=
  C8_parse_string_into_settings_mapping _ (by decide)


/-- C9, as the claim states it, fails: in `AccountName=a;AccountName=b` the key
`AccountName` occurs twice and the returned map binds it to `a`, the value of
its first occurrence, not to `b`; and a string with a repeated key can still
raise an error, when another entry has an empty key. -/
theorem C9_counterexample :
    (∃ m, parse_string_into_settings "AccountName=a;AccountName=b".toList = .ok m ∧
      find m account_name_setting_string = some "a".toList ∧
      find m account_name_setting_string ≠ some "b".toList) ∧
    parse_string_into_settings "AccountName=a;AccountName=b;=c".toList
      = .error .InvalidFormat :=
  ⟨⟨[("AccountName".toList, "a".toList)], rfl, by decide, by decide⟩, rfl⟩


/-- C9, amended: for a connection string with no empty-key entry,
`parse_string_into_settings` raises no error, however often a key is repeated,
and the returned map binds each key to the value of its FIRST occurrence:
when the non-empty entries are `pre ++ e :: post` and no entry of `pre` has
the key of `e`, that key is bound to the value of `e`. -/
theorem C9_first_occurrence_wins (s : Str)
    (h : ∀ e ∈ s.splitOn ';', e.head? ≠ some '=')
    (pre post : List Str) (e : Str) (hs : spec_entries s = pre ++ e :: post)
    (hfirst : ∀ e2 ∈ pre, spec_key e2 ≠ spec_key e) :
    ∃ m, parse_string_into_settings s = .ok m ∧
      find m (spec_key e) = some (spec_value e) := by
  obtain ⟨m, hm, _, hf⟩ := parse_string_into_settings_ok s h
  refine ⟨m, hm, ?_⟩
  rw [hf, hs, List.map_append, List.map_cons]
  apply find_append_first _ _ (spec_key e, spec_value e)
  intro x hx
  obtain ⟨e2, he2, heq⟩ := List.mem_map.1 hx
  rw [← heq]
  exact hfirst e2 he2


theorem C9_first_occurrence_wins_witness :
    ∃ m, parse_string_into_settings "X=1;AccountName=a;AccountName=b".toList = .ok m ∧
      find m (spec_key "AccountName=a".toList) = some (spec_value "AccountName=a".toList) :=
  C9_first_occurrence_wins "X=1;AccountName=a;AccountName=b".toList (by decide)
    ["X=1".toList] ["AccountName=b".toList] "AccountName=a".toList (by decide) (by decide)


/-- C10, as the claim states it, fails: with `AccountName=a`, `AccountKey=k` and
`SharedAccessSignature` present with the empty value, the signature is not
absent, so the claim gives anonymous credentials, and `get_credentials`
returns the shared-key credentials `(a, k)`. -/
theorem C10_counterexample :
    parse_string_into_settings "AccountName=a;AccountKey=k;SharedAccessSignature=".toList
      = .ok [("AccountKey".toList, "k".toList), ("AccountName".toList, "a".toList),
          ("SharedAccessSignature".toList, [])] ∧
    find [("AccountKey".toList, "k".toList), ("AccountName".toList, "a".toList),
        ("SharedAccessSignature".toList, [])] shared_access_signature_setting_string ≠ none ∧
    (get_credentials [("AccountKey".toList, "k".toList), ("AccountName".toList, "a".toList),
        ("SharedAccessSignature".toList, [])]).1 = .shared_key "a".toList "k".toList ∧
    (get_credentials [("AccountKey".toList, "k".toList), ("AccountName".toList, "a".toList),
        ("SharedAccessSignature".toList, [])]).1 ≠ .anonymous :=
  ⟨rfl, by decide, by decide, by decide⟩


/-- C10, amended: `get_credentials` is total and, reading an absent key as the
empty value, returns shared-key credentials (name, key) when the values of
`AccountName` and `AccountKey` are both non-empty and the value of
`SharedAccessSignature` is absent or empty; SAS credentials (token) when the
values of `AccountName` and `AccountKey` are both absent or empty and the token
is non-empty; and anonymous credentials in every other combination. -/
theorem C10_get_credentials (m : settings_map) :
    (setting_value m account_name_setting_string ≠ [] →
      setting_value m account_key_setting_string ≠ [] →
      setting_value m shared_access_signature_setting_string = [] →
      (get_credentials m).1 = .shared_key (setting_value m account_name_setting_string)
        (setting_value m account_key_setting_string)) ∧
    (setting_value m account_name_setting_string = [] →
      setting_value m account_key_setting_string = [] →
      setting_value m shared_access_signature_setting_string ≠ [] →
      (get_credentials m).1 = .sas (setting_value m shared_access_signature_setting_string)) ∧
    (¬ (setting_value m account_name_setting_string ≠ [] ∧
        setting_value m account_key_setting_string ≠ [] ∧
        setting_value m shared_access_signature_setting_string = []) →
     ¬ (setting_value m account_name_setting_string = [] ∧
        setting_value m account_key_setting_string = [] ∧
        setting_value m shared_access_signature_setting_string ≠ []) →
      (get_credentials m).1 = .anonymous) := by
  rw [get_credentials_fst]
  simp only [List.isEmpty_iff, Bool.and_eq_true, Bool.not_eq_true', decide_eq_true_eq,
    decide_eq_false_iff_not, ne_eq]
  refine ⟨?_, ?_, ?_⟩
  · intro h1 h2 h3
    simp [h1, h2, h3]
  · intro h1 h2 h3
    simp [h1, h2, h3]
  · intro h1 h2
    split_ifs with h3 h4
    · exact absurd ⟨by simpa using h3.1.1, by simpa using h3.1.2, by simpa using h3.2⟩ h1
    · exact absurd ⟨by simpa using h4.1.1, by simpa using h4.1.2, by simpa using h4.2⟩ h2
    · rfl


theorem C10_get_credentials_witness :
    (get_credentials [("AccountKey".toList, "k".toList), ("AccountName".toList, "a".toList),
      ("SharedAccessSignature".toList, "t".toList)]).1 = .anonymous :=
  (C10_get_credentials _).2.2 (by decide) (by decide)

/-- C11, as the claim states it, fails, in three ways. The default-endpoints
strategy accepts `DefaultEndpointsProtocol=https;AccountName=;AccountKey=YmFy`;
the account has no shared-key credentials, because the account name is empty,
so `to_string` with `export_secrets` true writes `DefaultEndpointsProtocol=https`
only, and parsing that fails with `InvalidArgument`. The same happens for
`DefaultEndpointsProtocol=https;AccountName=foo;AccountKey=`, whose account key
is empty. And with a codec whose decoder skips the characters outside its
alphabet, the account of `DefaultEndpointsProtocol=https;AccountName=foo;AccountKey=!`
has shared-key credentials, `to_string` writes the key as the empty text, and
parsing the output gives an account without credentials. -/
theorem C11_counterexample :
    (∃ m a0 acc,
      parse_string_into_settings
        "DefaultEndpointsProtocol=https;AccountName=;AccountKey=YmFy".toList = .ok m ∧
      parse_defaults_settings text_uri_lib m = .ok a0 ∧ a0.is_initialized = true ∧
      parse text_uri_lib "DefaultEndpointsProtocol=https;AccountName=;AccountKey=YmFy".toList
        = .ok acc ∧
      to_string text_uri_lib char_code_codec acc true
        = "DefaultEndpointsProtocol=https".toList ∧
      parse text_uri_lib (to_string text_uri_lib char_code_codec acc true)
        = .error .InvalidArgument) ∧
    (∃ m a0 acc,
      parse_string_into_settings
        "DefaultEndpointsProtocol=https;AccountName=foo;AccountKey=".toList = .ok m ∧
      parse_defaults_settings text_uri_lib m = .ok a0 ∧ a0.is_initialized = true ∧
      parse text_uri_lib "DefaultEndpointsProtocol=https;AccountName=foo;AccountKey=".toList
        = .ok acc ∧
      to_string text_uri_lib char_code_codec acc true
        = "DefaultEndpointsProtocol=https".toList ∧
      parse text_uri_lib (to_string text_uri_lib char_code_codec acc true)
        = .error .InvalidArgument) ∧
    (∃ m a0 acc acc2,
      parse_string_into_settings
        "DefaultEndpointsProtocol=https;AccountName=foo;AccountKey=!".toList = .ok m ∧
      parse_defaults_settings text_uri_lib m = .ok a0 ∧ a0.is_initialized = true ∧
      parse text_uri_lib "DefaultEndpointsProtocol=https;AccountName=foo;AccountKey=!".toList
        = .ok acc ∧
      acc.m_credentials = .shared_key "foo".toList "!".toList ∧
      to_string text_uri_lib skipping_codec acc true
        = "DefaultEndpointsProtocol=https;AccountName=foo;AccountKey=".toList ∧
      parse text_uri_lib (to_string text_uri_lib skipping_codec acc true) = .ok acc2 ∧
      acc2.m_credentials = .anonymous ∧
      acc2.m_credentials ≠ acc.m_credentials) :=
  ⟨⟨_, _, _, rfl, rfl, rfl, rfl, rfl, rfl⟩, ⟨_, _, _, rfl, rfl, rfl, rfl, rfl, rfl⟩,
    ⟨_, _, _, _, rfl, rfl, rfl, rfl, rfl, rfl, rfl, rfl, by decide⟩⟩

/-- C11, amended: when `parse` returns an account through the default-endpoints
strategy (with or without `EndpointSuffix` and endpoint overrides) from
settings whose `AccountName` is non-empty and whose `AccountKey` is a
non-empty base64 text (a text that the codec gives back when it encodes the
key it decoded), parsing its `to_string` with `export_secrets` true succeeds
and returns an account with the same credentials, which are shared-key with
that name and key, and the same blob, queue and table endpoint pairs; it is
the same account in every field. -/
theorem C11_round_trip_with_secrets (L : uri_lib) (B : base64_lib) (cs : Str)
    (m : settings_map) (a0 acc : cloud_storage_account)
    (hp : parse_string_into_settings cs = .ok m)
    (hacc : parse_defaults_settings L m = .ok a0) (hi : a0.is_initialized = true)
    (hn : setting_value m account_name_setting_string ≠ [])
    (hk : setting_value m account_key_setting_string ≠ [])
    (hb : B.is_base64 (setting_value m account_key_setting_string) = true)
    (h : parse L cs = .ok acc) :
    ∃ acc2, parse L (to_string L B acc true) = .ok acc2 ∧
      acc2.m_credentials = acc.m_credentials ∧
      acc.m_credentials = .shared_key (setting_value m account_name_setting_string)
        (setting_value m account_key_setting_string) ∧
      acc2.m_blob_endpoint = acc.m_blob_endpoint ∧
      acc2.m_queue_endpoint = acc.m_queue_endpoint ∧
      acc2.m_table_endpoint = acc.m_table_endpoint ∧
      acc2 = acc := by
  have h1 := parse_of_defaults L cs m hp a0 hacc hi
  rw [h1] at h
  simp only [Except.ok.injEq] at h
  refine ⟨acc, ?_, rfl, ?_, rfl, rfl, rfl, rfl⟩
  · rw [← h]
    have h2 := parse_to_string_of_defaults L B cs m hp a0 hacc hi hn hk hb
    simp only [parse, h2]
    exact parse_settings_of_defaults L m (parse_string_into_settings_sorted cs m hp) a0 hacc hi
  · rw [← h]
    exact of_account_key_of_ne_nil _ _ hn hk

theorem C11_round_trip_with_secrets_witness :
    ∃ acc2, parse text_uri_lib (to_string text_uri_lib char_code_codec
        { m_initialized := true
          m_is_development_storage_account := false
          m_default_endpoints := false
          m_credentials := .shared_key "foo".toList "YmFy".toList
          m_blob_endpoint := ⟨.of_text "http://b.example.com/".toList, .empty⟩
          m_queue_endpoint := ⟨.of_text "https://foo.queue.example.org".toList,
            .of_text "https://foo-secondary.queue.example.org".toList⟩
          m_table_endpoint := ⟨.of_text "https://foo.table.example.org".toList,
            .of_text "https://foo-secondary.table.example.org".toList⟩
          m_endpoint_suffix := "example.org".toList
          m_settings := [(blob_endpoint_setting_string, "http://b.example.com/".toList),
            (default_endpoints_protocol_setting_string, "https".toList),
            (endpoint_suffix_setting_string, "example.org".toList)] } true) = .ok acc2 ∧
      acc2.m_credentials = .shared_key "foo".toList "YmFy".toList ∧
      acc2.m_blob_endpoint = ⟨.of_text "http://b.example.com/".toList, .empty⟩ ∧
      acc2.m_queue_endpoint = ⟨.of_text "https://foo.queue.example.org".toList,
        .of_text "https://foo-secondary.queue.example.org".toList⟩ ∧
      acc2.m_table_endpoint = ⟨.of_text "https://foo.table.example.org".toList,
        .of_text "https://foo-secondary.table.example.org".toList⟩ := by
  obtain ⟨acc2, h1, h2, _, h3, h4, h5, _⟩ := C11_round_trip_with_secrets text_uri_lib
    char_code_codec
    ("DefaultEndpointsProtocol=https;AccountName=foo;AccountKey=YmFy;"
      ++ "EndpointSuffix=example.org;BlobEndpoint=http://b.example.com/").toList
    [(account_key_setting_string, "YmFy".toList), (account_name_setting_string, "foo".toList),
      (blob_endpoint_setting_string, "http://b.example.com/".toList),
      (default_endpoints_protocol_setting_string, "https".toList),
      (endpoint_suffix_setting_string, "example.org".toList)]
    { m_initialized := true
      m_is_development_storage_account := false
      m_default_endpoints := false
      m_credentials := .shared_key "foo".toList "YmFy".toList
      m_blob_endpoint := ⟨.of_text "http://b.example.com/".toList, .empty⟩
      m_queue_endpoint := ⟨.of_text "https://foo.queue.example.org".toList,
        .of_text "https://foo-secondary.queue.example.org".toList⟩
      m_table_endpoint := ⟨.of_text "https://foo.table.example.org".toList,
        .of_text "https://foo-secondary.table.example.org".toList⟩
      m_endpoint_suffix := "example.org".toList
      m_settings := [] }
    { m_initialized := true
      m_is_development_storage_account := false
      m_default_endpoints := false
      m_credentials := .shared_key "foo".toList "YmFy".toList
      m_blob_endpoint := ⟨.of_text "http://b.example.com/".toList, .empty⟩
      m_queue_endpoint := ⟨.of_text "https://foo.queue.example.org".toList,
        .of_text "https://foo-secondary.queue.example.org".toList⟩
      m_table_endpoint := ⟨.of_text "https://foo.table.example.org".toList,
        .of_text "https://foo-secondary.table.example.org".toList⟩
      m_endpoint_suffix := "example.org".toList
      m_settings := [(blob_endpoint_setting_string, "http://b.example.com/".toList),
        (default_endpoints_protocol_setting_string, "https".toList),
        (endpoint_suffix_setting_string, "example.org".toList)] }
    rfl rfl rfl (by decide) (by decide) rfl rfl
  exact ⟨acc2, h1, h2, h3, h4, h5⟩

/-- C12: `to_string` writes the stored settings (those of `materialize_settings`,
which are the stored ones whenever some are stored) as `key=value` joined
with `;`, and then: nothing for a development-storage account, so that both
values of `export_secrets` give the same string; for a shared-key account
that is not development storage `;AccountName=<name>;AccountKey=<v>`, `<v>`
being `[key hidden]` or the base64 encoding of the key; for a SAS account
that is not development storage `;SharedAccessSignature=<v>`, `<v>` being
`[key hidden]` or the token. -/
theorem C12_to_string_format (L : uri_lib) (B : base64_lib) (a : cloud_storage_account)
    (export_secrets : Bool) :
    (a.m_settings ≠ [] → materialize_settings L a = a.m_settings) ∧
    (a.m_is_development_storage_account = true →
      to_string L B a export_secrets = spec_joined (materialize_settings L a) ∧
      to_string L B a true = to_string L B a false) ∧
    (a.m_is_development_storage_account = false →
      ∀ name key, a.m_credentials = .shared_key name key →
        to_string L B a export_secrets =
          spec_joined (materialize_settings L a) ++ ";AccountName=".toList ++ name
            ++ ";AccountKey=".toList
            ++ (if export_secrets then B.to_base64 (a.m_credentials.account_key B)
                else "[key hidden]".toList)) ∧
    (a.m_is_development_storage_account = false →
      ∀ token, a.m_credentials = .sas token →
        to_string L B a export_secrets =
          spec_joined (materialize_settings L a) ++ ";SharedAccessSignature=".toList
            ++ (if export_secrets then token else "[key hidden]".toList)) := by
  refine ⟨?_, ?_, ?_, ?_⟩
  · intro h
    cases hs : a.m_settings with
    | nil => exact absurd hs h
    | cons e rest => simp [materialize_settings, hs]
  · intro h
    simp [to_string, write_credentials, h, write_settings_false]
  · intro h name key hc
    simp [to_string, write_credentials, h, hc, write_settings_false,
      storage_credentials.is_shared_key, storage_credentials.is_sas,
      storage_credentials.account_name, storage_credentials.account_key,
      account_name_setting_string, account_key_setting_string, key_hidden]
  · intro h token hc
    simp [to_string, write_credentials, h, hc, write_settings_false,
      storage_credentials.is_shared_key, storage_credentials.is_sas,
      storage_credentials.sas_token, shared_access_signature_setting_string, key_hidden]


theorem C12_to_string_format_witness :
    to_string text_uri_lib char_code_codec
        (cloud_storage_account.of_endpoints (.shared_key "foo".toList "YmFy".toList)
          (storage_uri.of_primary (.of_text "http://x.example.com/".toList))
          storage_uri.default storage_uri.default) false =
      "BlobEndpoint=http://x.example.com/;AccountName=foo;AccountKey=[key hidden]".toList :=
  (C12_to_string_format text_uri_lib char_code_codec _ false).2.2.1 rfl _ _ rfl


/-- C13: `get_shared_access_signature` fails with `MissingCredentials` for SAS and
for anonymous credentials, whatever the signing function is (it does not
enter the result), and for shared-key credentials returns the result of the
signing function on the empty resource path, the policy and the account's
credentials. -/
theorem C13_get_shared_access_signature {P R : Type} (a : cloud_storage_account) (policy : P) :
    (∀ token, a.m_credentials = .sas token →
      ∀ sign : Str → P → storage_credentials → R,
        get_shared_access_signature sign a policy = .error .MissingCredentials) ∧
    (a.m_credentials = .anonymous →
      ∀ sign : Str → P → storage_credentials → R,
        get_shared_access_signature sign a policy = .error .MissingCredentials) ∧
    (∀ name key, a.m_credentials = .shared_key name key →
      ∀ sign : Str → P → storage_credentials → R,
        get_shared_access_signature sign a policy = .ok (sign [] policy a.m_credentials)) := by
  refine ⟨?_, ?_, ?_⟩
  · intro token h sign
    simp [get_shared_access_signature, h, storage_credentials.is_shared_key]
  · intro h sign
    simp [get_shared_access_signature, h, storage_credentials.is_shared_key]
  · intro name key h sign
    simp [get_shared_access_signature, h, storage_credentials.is_shared_key]


theorem C13_get_shared_access_signature_witness :
    get_shared_access_signature (fun (_ : Str) (_ : Nat) (_ : storage_credentials) => 0)
      (cloud_storage_account.of_endpoints (.sas "sig".toList)
        (storage_uri.of_primary (.of_text "http://x.example.com/".toList))
        storage_uri.default storage_uri.default) 7 = .error .MissingCredentials :=
  (C13_get_shared_access_signature _ 7).1 "sig".toList rfl _

/-- C15: for a connection string accepted by the default-endpoints strategy and
each service, the pair of the account is the primary-only pair of the
`XEndpoint` value when that value is non-empty, and otherwise (key absent or
value empty) the pair derived from protocol, account name, hostname prefix and
suffix, whatever overrides the other services have. -/
theorem C15_default_endpoints_overrides (L : uri_lib) (cs : Str) (m : settings_map)
    (a0 : cloud_storage_account)
    (hp : parse_string_into_settings cs = .ok m)
    (hacc : parse_defaults_settings L m = .ok a0) (hi : a0.is_initialized = true) :
    ∃ acc, parse L cs = .ok acc ∧
      acc.m_blob_endpoint =
        spec_defaults_pair (setting_value m blob_endpoint_setting_string)
          (setting_value m default_endpoints_protocol_setting_string)
          (setting_value m account_name_setting_string) "blob".toList
          (spec_defaults_suffix m) ∧
      acc.m_queue_endpoint =
        spec_defaults_pair (setting_value m queue_endpoint_setting_string)
          (setting_value m default_endpoints_protocol_setting_string)
          (setting_value m account_name_setting_string) "queue".toList
          (spec_defaults_suffix m) ∧
      acc.m_table_endpoint =
        spec_defaults_pair (setting_value m table_endpoint_setting_string)
          (setting_value m default_endpoints_protocol_setting_string)
          (setting_value m account_name_setting_string) "table".toList
          (spec_defaults_suffix m) :=
  ⟨_, parse_of_defaults L cs m hp a0 hacc hi, rfl, rfl, rfl⟩

theorem C15_default_endpoints_overrides_witness :
    ∃ acc, parse text_uri_lib ("DefaultEndpointsProtocol=https;AccountName=foo;"
        ++ "AccountKey=YmFy;QueueEndpoint=http://q.example.com/;TableEndpoint=").toList
        = .ok acc ∧
      acc.m_blob_endpoint = ⟨.of_text "https://foo.blob.core.windows.net".toList,
        .of_text "https://foo-secondary.blob.core.windows.net".toList⟩ ∧
      acc.m_queue_endpoint = ⟨.of_text "http://q.example.com/".toList, .empty⟩ ∧
      acc.m_table_endpoint = ⟨.of_text "https://foo.table.core.windows.net".toList,
        .of_text "https://foo-secondary.table.core.windows.net".toList⟩ :=
  C15_default_endpoints_overrides text_uri_lib _
    [(account_key_setting_string, "YmFy".toList), (account_name_setting_string, "foo".toList),
      (default_endpoints_protocol_setting_string, "https".toList),
      (queue_endpoint_setting_string, "http://q.example.com/".toList),
      (table_endpoint_setting_string, [])]
    { m_initialized := true
      m_is_development_storage_account := false
      m_default_endpoints := false
      m_credentials := .shared_key "foo".toList "YmFy".toList
      m_blob_endpoint := ⟨.of_text "https://foo.blob.core.windows.net".toList,
        .of_text "https://foo-secondary.blob.core.windows.net".toList⟩
      m_queue_endpoint := ⟨.of_text "http://q.example.com/".toList, .empty⟩
      m_table_endpoint := ⟨.of_text "https://foo.table.core.windows.net".toList,
        .of_text "https://foo-secondary.table.core.windows.net".toList⟩
      m_endpoint_suffix := "core.windows.net".toList
      m_settings := [] }
    rfl rfl rfl

/-- C16, as the claim states it, fails: the account built by
`cloud_storage_account(credentials, "core.windows.net", true)` uses default
endpoints, stores no settings and has the default suffix as its endpoint
suffix, and `to_string` still materializes `EndpointSuffix=core.windows.net`. -/
theorem C16_counterexample :
    ∃ acc, cloud_storage_account.of_suffix text_uri_lib
        (.shared_key "foo".toList "YmFy".toList) "core.windows.net".toList true = .ok acc ∧
      acc.m_settings = [] ∧
      acc.m_default_endpoints = true ∧
      acc.m_endpoint_suffix = default_endpoint_suffix ∧
      find (materialize_settings text_uri_lib acc) endpoint_suffix_setting_string
        = some "core.windows.net".toList ∧
      to_string text_uri_lib char_code_codec acc true =
        ("DefaultEndpointsProtocol=https;EndpointSuffix=core.windows.net;"
          ++ "AccountName=foo;AccountKey=YmFy").toList :=
  ⟨_, rfl, rfl, rfl, rfl, rfl, rfl⟩

/-- C16, amended: for an account with no stored settings that uses default
endpoints, `to_string` materializes `DefaultEndpointsProtocol=<scheme of the
blob primary endpoint>` and an `EndpointSuffix` entry exactly when the stored
endpoint suffix is non-empty (with that suffix as value); for one that does
not use default endpoints it materializes `BlobEndpoint`, `QueueEndpoint` and
`TableEndpoint` exactly for the services whose primary URI is non-empty, each
with that primary URI as value. -/
theorem C16_materialized_settings (L : uri_lib) (a : cloud_storage_account)
    (h : a.m_settings = []) :
    (a.m_default_endpoints = true →
      materialize_settings L a =
        (default_endpoints_protocol_setting_string, a.m_blob_endpoint.primary_uri.scheme L) ::
          (if a.m_endpoint_suffix = [] then []
           else [(endpoint_suffix_setting_string, a.m_endpoint_suffix)])) ∧
    (a.m_default_endpoints = false →
      materialize_settings L a =
        (if a.m_blob_endpoint.primary_uri.is_empty L = true then []
          else [(blob_endpoint_setting_string, a.m_blob_endpoint.primary_uri.to_string L)]) ++
        (if a.m_queue_endpoint.primary_uri.is_empty L = true then []
          else [(queue_endpoint_setting_string, a.m_queue_endpoint.primary_uri.to_string L)]) ++
        (if a.m_table_endpoint.primary_uri.is_empty L = true then []
          else [(table_endpoint_setting_string,
            a.m_table_endpoint.primary_uri.to_string L)])) := by
  have o1 : str_lt endpoint_suffix_setting_string default_endpoints_protocol_setting_string
      = false := by decide
  have o2 : endpoint_suffix_setting_string ≠ default_endpoints_protocol_setting_string := by
    decide
  have o3 : str_lt queue_endpoint_setting_string blob_endpoint_setting_string = false := by
    decide
  have o4 : queue_endpoint_setting_string ≠ blob_endpoint_setting_string := by decide
  have o5 : str_lt table_endpoint_setting_string blob_endpoint_setting_string = false := by
    decide
  have o6 : table_endpoint_setting_string ≠ blob_endpoint_setting_string := by decide
  have o7 : str_lt table_endpoint_setting_string queue_endpoint_setting_string = false := by
    decide
  have o8 : table_endpoint_setting_string ≠ queue_endpoint_setting_string := by decide
  refine ⟨?_, ?_⟩
  · intro hd
    cases hs : a.m_endpoint_suffix with
    | nil => simp [materialize_settings, h, hd, hs, insert]
    | cons c cs => simp [materialize_settings, h, hd, hs, insert, o1, o2]
  · intro hd
    cases hb : a.m_blob_endpoint.primary_uri.is_empty L <;>
      cases hq : a.m_queue_endpoint.primary_uri.is_empty L <;>
      cases ht : a.m_table_endpoint.primary_uri.is_empty L <;>
      simp [materialize_settings, h, hd, hb, hq, ht, insert, o3, o4, o5, o6, o7, o8]

theorem C16_materialized_settings_witness :
    materialize_settings text_uri_lib
        { m_initialized := true
          m_is_development_storage_account := false
          m_default_endpoints := true
          m_credentials := .shared_key "foo".toList "YmFy".toList
          m_blob_endpoint := ⟨.of_text "http://foo.blob.core.windows.net".toList,
            .of_text "http://foo-secondary.blob.core.windows.net".toList⟩
          m_queue_endpoint := ⟨.of_text "http://foo.queue.core.windows.net".toList,
            .of_text "http://foo-secondary.queue.core.windows.net".toList⟩
          m_table_endpoint := ⟨.of_text "http://foo.table.core.windows.net".toList,
            .of_text "http://foo-secondary.table.core.windows.net".toList⟩
          m_endpoint_suffix := []
          m_settings := [] } =
      [(default_endpoints_protocol_setting_string, "http".toList)] :=
  (C16_materialized_settings text_uri_lib _ rfl).1 rfl

/-- C17: on one settings map at most one of `parse_devstore_settings`,
`parse_defaults_settings` and `parse_explicit_settings` returns an initialized
account. -/
theorem C17_strategies_mutually_exclusive (L : uri_lib) (m : settings_map) :
    ¬ ((∃ a, parse_devstore_settings L m = .ok a ∧ a.is_initialized = true) ∧
        (∃ a, parse_defaults_settings L m = .ok a ∧ a.is_initialized = true)) ∧
    ¬ ((∃ a, parse_devstore_settings L m = .ok a ∧ a.is_initialized = true) ∧
        (∃ a, parse_explicit_settings L m = .ok a ∧ a.is_initialized = true)) ∧
    ¬ ((∃ a, parse_defaults_settings L m = .ok a ∧ a.is_initialized = true) ∧
        (∃ a, parse_explicit_settings L m = .ok a ∧ a.is_initialized = true)) := by
  have hno : ∀ a : cloud_storage_account,
      Except.ok cloud_storage_account.default = (Except.ok a : Except Error cloud_storage_account) →
      a.is_initialized = true → False := by
    intro a h hi
    simp only [Except.ok.injEq] at h
    rw [← h] at hi
    exact absurd hi (by decide)
  refine ⟨?_, ?_, ?_⟩
  · rintro ⟨⟨a, ha, hi⟩, ⟨b, hb, hbi⟩⟩
    obtain ⟨v, hv⟩ := parse_devstore_settings_initialized L m a ha hi
    rw [parse_defaults_settings_leftover L m _ v hv (by decide) (by decide) (by decide)
      (by decide) (by decide) (by decide) (by decide)] at hb
    exact hno b hb hbi
  · rintro ⟨⟨a, ha, hi⟩, ⟨b, hb, hbi⟩⟩
    obtain ⟨v, hv⟩ := parse_devstore_settings_initialized L m a ha hi
    rw [parse_explicit_settings_leftover L m _ v hv (by decide) (by decide) (by decide)
      (by decide) (by decide) (by decide)] at hb
    exact hno b hb hbi
  · rintro ⟨⟨a, ha, hi⟩, ⟨b, hb, hbi⟩⟩
    cases hv : find m default_endpoints_protocol_setting_string with
    | none =>
      rw [parse_defaults_settings_absent L m hv] at ha
      exact hno a ha hi
    | some v =>
      rw [parse_explicit_settings_leftover L m _ v hv (by decide) (by decide) (by decide)
        (by decide) (by decide) (by decide)] at hb
      exact hno b hb hbi

theorem C17_strategies_mutually_exclusive_witness :
    ¬ ((∃ a, parse_defaults_settings text_uri_lib
          [(account_key_setting_string, "YmFy".toList),
            (account_name_setting_string, "foo".toList),
            (default_endpoints_protocol_setting_string, "https".toList)] = .ok a ∧
          a.is_initialized = true) ∧
        (∃ a, parse_explicit_settings text_uri_lib
          [(account_key_setting_string, "YmFy".toList),
            (account_name_setting_string, "foo".toList),
            (default_endpoints_protocol_setting_string, "https".toList)] = .ok a ∧
          a.is_initialized = true)) :=
  (C17_strategies_mutually_exclusive text_uri_lib _).2.2

/-- C18, as the claim states it, fails, in two ways. In the map of `BlobEndpoint=`
every key is one of the six and an endpoint key is present, and
`parse_explicit_settings` returns an uninitialized account, because the value
is empty. In the map of `BlobEndpoint=a b` the same holds and, with a URI
library that refuses a text with a blank, `parse_explicit_settings` raises the
URI-construction failure instead of returning an account. -/
theorem C18_counterexample :
    (parse_string_into_settings "BlobEndpoint=".toList
      = .ok [(blob_endpoint_setting_string, [])] ∧
    (∀ e ∈ [(blob_endpoint_setting_string, ([] : Str))], e.1 ∈ explicit_setting_names) ∧
    find [(blob_endpoint_setting_string, [])] blob_endpoint_setting_string ≠ none ∧
    ∃ a, parse_explicit_settings text_uri_lib [(blob_endpoint_setting_string, [])] = .ok a ∧
      a.is_initialized = false) ∧
    (parse_string_into_settings "BlobEndpoint=a b".toList
      = .ok [(blob_endpoint_setting_string, "a b".toList)] ∧
    (∀ e ∈ [(blob_endpoint_setting_string, "a b".toList)], e.1 ∈ explicit_setting_names) ∧
    find [(blob_endpoint_setting_string, "a b".toList)] blob_endpoint_setting_string ≠ none ∧
    parse_explicit_settings text_uri_lib [(blob_endpoint_setting_string, "a b".toList)]
      = .error .UriError) :=
  ⟨⟨rfl, by decide, by decide, _, rfl, rfl⟩, ⟨rfl, by decide, by decide, rfl⟩⟩

/-- C18, amended: `parse_explicit_settings` returns an initialized account exactly
when every key of the map is one of `BlobEndpoint`, `QueueEndpoint`,
`TableEndpoint`, `AccountName`, `AccountKey`, `SharedAccessSignature`, at
least one of the three endpoint keys is present with a non-empty value, and
every non-empty endpoint value is a well-formed URI; when the first two
conditions hold and some non-empty endpoint value is malformed, it raises the
URI-construction failure; in every other case it returns the uninitialized
account without raising an error. -/
theorem C18_explicit_settings_initialized (L : uri_lib) (m : settings_map)
    (hm : sorted_keys m) :
    ((∃ a, parse_explicit_settings L m = .ok a ∧ a.is_initialized = true) ↔
      (∀ e ∈ m, e.1 ∈ explicit_setting_names) ∧
      (setting_value m blob_endpoint_setting_string ≠ [] ∨
        setting_value m queue_endpoint_setting_string ≠ [] ∨
        setting_value m table_endpoint_setting_string ≠ []) ∧
      (∀ t ∈ [setting_value m blob_endpoint_setting_string,
          setting_value m queue_endpoint_setting_string,
          setting_value m table_endpoint_setting_string], t ≠ [] → L.well_formed t = true)) ∧
    ((∀ e ∈ m, e.1 ∈ explicit_setting_names) ∧
      (setting_value m blob_endpoint_setting_string ≠ [] ∨
        setting_value m queue_endpoint_setting_string ≠ [] ∨
        setting_value m table_endpoint_setting_string ≠ []) ∧
      (∃ t ∈ [setting_value m blob_endpoint_setting_string,
          setting_value m queue_endpoint_setting_string,
          setting_value m table_endpoint_setting_string], t ≠ [] ∧ L.well_formed t = false) →
      parse_explicit_settings L m = .error .UriError) ∧
    (¬ ((∀ e ∈ m, e.1 ∈ explicit_setting_names) ∧
      (setting_value m blob_endpoint_setting_string ≠ [] ∨
        setting_value m queue_endpoint_setting_string ≠ [] ∨
        setting_value m table_endpoint_setting_string ≠ [])) →
      parse_explicit_settings L m = .ok cloud_storage_account.default) := by
  have hk := without_keys_isEmpty m explicit_setting_names
  have hv : ∀ v : Str, (!v.isEmpty) = true ↔ v ≠ [] := by
    intro v
    cases v <;> simp
  have hcond : ((without_keys m explicit_setting_names).isEmpty
      && (!(setting_value m blob_endpoint_setting_string).isEmpty
        || !(setting_value m queue_endpoint_setting_string).isEmpty
        || !(setting_value m table_endpoint_setting_string).isEmpty)) = true ↔
      ((∀ e ∈ m, e.1 ∈ explicit_setting_names) ∧
      (setting_value m blob_endpoint_setting_string ≠ [] ∨
        setting_value m queue_endpoint_setting_string ≠ [] ∨
        setting_value m table_endpoint_setting_string ≠ [])) := by
    simp only [Bool.and_eq_true, Bool.or_eq_true, hv, hk, or_assoc]
  have hwf : (spec_explicit_uri_texts m).all L.well_formed = true ↔
      (∀ t ∈ [setting_value m blob_endpoint_setting_string,
          setting_value m queue_endpoint_setting_string,
          setting_value m table_endpoint_setting_string], t ≠ [] → L.well_formed t = true) := by
    simp only [spec_explicit_uri_texts, List.all_eq_true, List.mem_filter, Bool.not_eq_true',
      and_imp]
    constructor
    · intro h t ht hne
      exact h t ht (isEmpty_eq_false_of_ne_nil t hne)
    · intro h t ht hne
      apply h t ht
      intro h0
      rw [h0] at hne
      exact absurd hne (by decide)
  have hinit : (spec_explicit_account m).is_initialized = true := rfl
  rw [parse_explicit_settings_eq L m hm]
  by_cases hc : ((without_keys m explicit_setting_names).isEmpty
      && (!(setting_value m blob_endpoint_setting_string).isEmpty
        || !(setting_value m queue_endpoint_setting_string).isEmpty
        || !(setting_value m table_endpoint_setting_string).isEmpty)) = true
  · rw [if_pos hc]
    have hc2 := hcond.1 hc
    by_cases hw : (spec_explicit_uri_texts m).all L.well_formed = true
    · rw [if_pos hw]
      refine ⟨⟨fun _ => ⟨hc2.1, hc2.2, hwf.1 hw⟩, fun _ => ⟨_, rfl, hinit⟩⟩, ?_, ?_⟩
      · rintro ⟨_, _, t, ht, hne, hbad⟩
        have := hwf.1 hw t ht hne
        rw [hbad] at this
        exact absurd this (by decide)
      · intro hn
        exact absurd hc2 hn
    · rw [if_neg hw]
      refine ⟨⟨?_, ?_⟩, fun _ => rfl, ?_⟩
      · rintro ⟨a, ha, _⟩
        exact Except.noConfusion ha
      · rintro ⟨_, _, h3⟩
        exact absurd (hwf.2 h3) hw
      · intro hn
        exact absurd hc2 hn
  · rw [if_neg hc]
    have hc2 : ¬ ((∀ e ∈ m, e.1 ∈ explicit_setting_names) ∧
      (setting_value m blob_endpoint_setting_string ≠ [] ∨
        setting_value m queue_endpoint_setting_string ≠ [] ∨
        setting_value m table_endpoint_setting_string ≠ [])) := fun h => hc (hcond.2 h)
    refine ⟨⟨?_, ?_⟩, ?_, fun _ => rfl⟩
    · rintro ⟨a, ha, hi⟩
      simp only [Except.ok.injEq] at ha
      rw [← ha] at hi
      exact absurd hi (by decide)
    · rintro ⟨h1, h2, _⟩
      exact absurd ⟨h1, h2⟩ hc2
    · rintro ⟨h1, h2, _⟩
      exact absurd ⟨h1, h2⟩ hc2

theorem C18_explicit_settings_initialized_witness :
    ∃ a, parse_explicit_settings text_uri_lib [(account_name_setting_string, "foo".toList),
        (blob_endpoint_setting_string, "http://x.example.com/".toList)] = .ok a ∧
      a.is_initialized = true :=
  (C18_explicit_settings_initialized text_uri_lib _ (by unfold sorted_keys; decide)).1.2
    ⟨by decide, by decide, by decide⟩

/-- C19: `get_credentials` removes exactly the entries of `AccountName`,
`AccountKey` and `SharedAccessSignature` from the map it is given and leaves
every other entry as it is; and when `parse` succeeds, the stored settings of
the returned account are the parsed settings without those three keys. -/
theorem C19_residual_settings (L : uri_lib) :
    (∀ m : settings_map, sorted_keys m →
      (get_credentials m).2 = without_keys m credential_setting_names) ∧
    (∀ (cs : Str) (acc : cloud_storage_account), parse L cs = .ok acc →
      ∃ m, parse_string_into_settings cs = .ok m ∧
        acc.m_settings = without_keys m credential_setting_names) := by
  refine ⟨fun m hm => get_credentials_snd m hm, ?_⟩
  intro cs acc h
  obtain ⟨m, hp, hs⟩ := parse_ok_settings L cs acc h
  refine ⟨m, hp, ?_⟩
  rw [parse_settings_m_settings L m acc hs,
    get_credentials_snd m (parse_string_into_settings_sorted cs m hp)]


theorem C19_residual_settings_witness :
    ∃ m, parse_string_into_settings
        "BlobEndpoint=http://x.example.com/;AccountName=foo;AccountKey=YmFy".toList = .ok m ∧
      [(blob_endpoint_setting_string, "http://x.example.com/".toList)]
        = without_keys m credential_setting_names :=
  (C19_residual_settings text_uri_lib).2
    "BlobEndpoint=http://x.example.com/;AccountName=foo;AccountKey=YmFy".toList
    { m_initialized := true
      m_is_development_storage_account := false
      m_default_endpoints := false
      m_credentials := .shared_key "foo".toList "YmFy".toList
      m_blob_endpoint := ⟨.of_text "http://x.example.com/".toList, .empty⟩
      m_queue_endpoint := ⟨.empty, .empty⟩
      m_table_endpoint := ⟨.empty, .empty⟩
      m_endpoint_suffix := []
      m_settings := [(blob_endpoint_setting_string, "http://x.example.com/".toList)] } rfl


/-- C20: when two connection strings parse to settings that are the same on every
key except for the value of `AccountKey`, or except for the value of
`SharedAccessSignature`, that value being non-empty in both, and `parse`
succeeds on both, then `to_string` with `export_secrets` false gives the same
string for the two accounts. -/
theorem C20_hidden_output_independent_of_secret (L : uri_lib) (B : base64_lib)
    (cs1 cs2 : Str) (m1 m2 : settings_map) (secret : Str) (a1 a2 : cloud_storage_account)
    (hsec : secret = account_key_setting_string
      ∨ secret = shared_access_signature_setting_string)
    (hp1 : parse_string_into_settings cs1 = .ok m1)
    (hp2 : parse_string_into_settings cs2 = .ok m2)
    (hag : ∀ k, k ≠ secret → find m1 k = find m2 k)
    (hv1 : setting_value m1 secret ≠ []) (hv2 : setting_value m2 secret ≠ [])
    (h1 : parse L cs1 = .ok a1) (h2 : parse L cs2 = .ok a2) :
    to_string L B a1 false = to_string L B a2 false := by
  apply to_string_hidden_congr
  simp only [parse, hp1] at h1
  simp only [parse, hp2] at h2
  exact parse_settings_same L m1 m2 secret a1 a2
    (parse_string_into_settings_sorted cs1 m1 hp1)
    (parse_string_into_settings_sorted cs2 m2 hp2) hsec hag hv1 hv2 h1 h2


theorem C20_hidden_output_independent_of_secret_witness :
    to_string text_uri_lib char_code_codec
        { m_initialized := true
          m_is_development_storage_account := false
          m_default_endpoints := false
          m_credentials := .shared_key "foo".toList "YmFy".toList
          m_blob_endpoint := ⟨.of_text "https://foo.blob.core.windows.net".toList,
            .of_text "https://foo-secondary.blob.core.windows.net".toList⟩
          m_queue_endpoint := ⟨.of_text "https://foo.queue.core.windows.net".toList,
            .of_text "https://foo-secondary.queue.core.windows.net".toList⟩
          m_table_endpoint := ⟨.of_text "https://foo.table.core.windows.net".toList,
            .of_text "https://foo-secondary.table.core.windows.net".toList⟩
          m_endpoint_suffix := "core.windows.net".toList
          m_settings := [(default_endpoints_protocol_setting_string, "https".toList)] } false =
      to_string text_uri_lib char_code_codec
        { m_initialized := true
          m_is_development_storage_account := false
          m_default_endpoints := false
          m_credentials := .shared_key "foo".toList "cXV4".toList
          m_blob_endpoint := ⟨.of_text "https://foo.blob.core.windows.net".toList,
            .of_text "https://foo-secondary.blob.core.windows.net".toList⟩
          m_queue_endpoint := ⟨.of_text "https://foo.queue.core.windows.net".toList,
            .of_text "https://foo-secondary.queue.core.windows.net".toList⟩
          m_table_endpoint := ⟨.of_text "https://foo.table.core.windows.net".toList,
            .of_text "https://foo-secondary.table.core.windows.net".toList⟩
          m_endpoint_suffix := "core.windows.net".toList
          m_settings := [(default_endpoints_protocol_setting_string, "https".toList)] } false :=
  C20_hidden_output_independent_of_secret text_uri_lib char_code_codec
    "DefaultEndpointsProtocol=https;AccountName=foo;AccountKey=YmFy".toList
    "AccountKey=cXV4;DefaultEndpointsProtocol=https;AccountName=foo".toList
    [(account_key_setting_string, "YmFy".toList), (account_name_setting_string, "foo".toList),
      (default_endpoints_protocol_setting_string, "https".toList)]
    [(account_key_setting_string, "cXV4".toList), (account_name_setting_string, "foo".toList),
      (default_endpoints_protocol_setting_string, "https".toList)]
    account_key_setting_string _ _ (Or.inl rfl) rfl rfl
    (by
      intro k hk
      have hk2 : ¬ account_key_setting_string = k := fun e => hk e.symm
      simp only [find, hk2, if_false])
    (by decide) (by decide) rfl rfl

end CloudStorageAccount
